import Mathlib

/-!
FlipClock3D: the fixed-point square root and the world state machine.

A shallow embedding of `src/c/Q_sqrt.c` and of the state machine of `src/c/main.c`
(with the constants of `src/c/main.h`), followed by the properties proved about them. The
older driver `src/main.c` is embedded a second time, in the namespace `OldMain`, to compare
the two.

* Unsigned 32-bit arithmetic is arithmetic on `Nat` reduced modulo 2^32; the signed type `Q`
  is `Int` restricted to the 32-bit two's-complement range.
* `while` loops are functions defined by well-founded recursion on the loop variable.
* Floats, the Clock3D entity and the host services are not part of the sources; floats and
  the clock are carriers with uninterpreted operations (`Platform`), host services are
  modelled on the world state.
-/

namespace FlipClock

/-! ## Q_sqrt.c : 32-bit arithmetic -/

/-- Addition of two uint32_t values. -/
def add32 (a b : Nat) : Nat := (a + b) % 4294967296

/-- Subtraction of two uint32_t values, wrapping below zero. -/
def sub32 (a b : Nat) : Nat := (a % 4294967296 + 4294967296 - b % 4294967296) % 4294967296

/-- Left shift of a uint32_t value, dropping the bits shifted out. -/
def shl32 (a k : Nat) : Nat := (a <<< k) % 4294967296

/-- Negation of a uint32_t value. -/
def neg32 (a : Nat) : Nat := sub32 0 a

/-- Conversion of a signed value to uint32_t. -/
def toU32 (x : Int) : Nat := (x % 4294967296).toNat

/-- Conversion of a uint32_t value to the signed 32-bit type Q (two's complement). -/
def toQ (u : Nat) : Int :=
  if u % 4294967296 < 2147483648 then (u % 4294967296 : Nat)
  else ((u % 4294967296 : Nat) : Int) - 4294967296

/-- Negation of a Q value in 32-bit two's-complement arithmetic. -/
def negQ (x : Int) : Int := toQ (toU32 (-x))

/-! ## Q_sqrt.c : the square root -/

/-- The search for the starting bit, `while (bit > num) bit >>= 2` (Q_sqrt.c lines 30-31). -/
def startBit (bit num : Nat) : Nat :=
  if bit > num then startBit (bit >>> 2) num else bit
termination_by bit
decreasing_by
  simp only [Nat.shiftRight_eq_div_pow]
  omega

/-- The digit loop `while (bit) { ... bit >>= 2 }` (Q_sqrt.c lines 38-51); returns the final
`num` and `result`. -/
def digitLoop (num result bit : Nat) : Nat × Nat :=
  if bit ≠ 0 then
    if num ≥ add32 result bit then
      digitLoop (sub32 num (add32 result bit)) (add32 (result >>> 1) bit) (bit >>> 2)
    else
      digitLoop num (result >>> 1) (bit >>> 2)
  else (num, result)
termination_by bit
decreasing_by
  all_goals simp only [Nat.shiftRight_eq_div_pow]
  all_goals omega

/-- The rescaling between the two passes, the `if (n == 0)` block (Q_sqrt.c lines 53-72);
returns the new `num` and `result`. -/
def rescale (num result : Nat) : Nat × Nat :=
  if num > 65535 then
    (sub32 (shl32 (sub32 num result) 16) 0x8000, add32 (shl32 result 16) 0x8000)
  else
    (shl32 num 16, shl32 result 16)

/-- The unsigned part of Q_sqrt (Q_sqrt.c lines 18-80) on the magnitude `num`: the start-bit
search, the two passes of the `for` loop with the rescaling in between, and the final
rounding. -/
def Q_sqrt_u32 (num : Nat) : Nat :=
  let result := 0
  let bit := if num &&& 0xFFF00000 ≠ 0 then 1 <<< 30 else 1 <<< 18
  let bit := startBit bit num
  let p1 := digitLoop num result bit
  let p1 := rescale p1.1 p1.2
  let bit := 1 <<< 14
  let p2 := digitLoop p1.1 p1.2 bit
  if p2.1 > p2.2 then add32 p2.2 1 else p2.2

/-- The function Q_sqrt (Q_sqrt.c lines 12-83): the sign is split off (lines 16-17), the
root of the magnitude is taken, and the sign is put back (line 82). -/
def Q_sqrt (inValue : Int) : Int :=
  let neg := decide (inValue < 0)
  let num := toU32 (if neg then negQ inValue else inValue)
  let result := Q_sqrt_u32 num
  toQ (if neg then neg32 result else result)

/-! ## main.c and main.h : the world state machine -/

/-- The enum WorldMode of main.c. -/
inductive WorldMode where
  | WORLD_MODE_UNDEFINED
  | WORLD_MODE_LAUNCH
  | WORLD_MODE_DYNAMIC
  | WORLD_MODE_PARK
  | WORLD_MODE_STEADY
  deriving DecidableEq, Repr

/-- The three tap axes of the host accelerometer service (AccelAxisType). -/
inductive AccelAxisType where
  | ACCEL_AXIS_X
  | ACCEL_AXIS_Y
  | ACCEL_AXIS_Z
  deriving DecidableEq, Repr

/-- The two tick granularities main.c subscribes with. -/
inductive TimeUnits where
  | SECOND_UNIT
  | MINUTE_UNIT
  deriving DecidableEq, Repr

/-- The fields of struct tm that the tick handler reads. -/
structure Tm where
  tm_mday : Int
  tm_hour : Int
  tm_min : Int
  tm_sec : Int
  deriving DecidableEq, Repr

/-- One accelerometer reading (AccelData). -/
structure AccelData where
  x : Int
  y : Int
  z : Int
  deriving DecidableEq, Repr

/-- Outcome of accel_service_peek: its return code and the reading it filled in. -/
structure AccelPeek where
  result : Int
  ad : AccelData
  deriving DecidableEq, Repr

/-- A point of R3 over the float carrier. -/
structure R3 (F : Type) where
  x : F
  y : F
  z : F

/-- The two arguments of a cam_config call; s_cam is a function of the last such call. -/
structure CamConfig (F : Type) where
  viewPoint : R3 F
  rotationZ : F

/-- Modelled from the spec: the Sampler of the karambola library is not part of the sources.
A sampler is its capacity together with every value pushed so far, newest first; the ring
holds the `capacity` most recent ones and samplesAcum is their running sum. -/
structure Sampler where
  capacity : Nat
  pushed : List Int
  deriving DecidableEq, Repr

/-- Modelled from the spec: Sampler_new allocates an empty ring of the given capacity. -/
def Sampler_new (capacity : Nat) : Sampler := ⟨capacity, []⟩

/-- Modelled from the spec: Sampler_push inserts a reading, evicting the oldest. -/
def Sampler_push (s : Sampler) (v : Int) : Sampler := { s with pushed := v :: s.pushed }

/-- Modelled from the spec: the values currently held by the ring, newest first. -/
def Sampler.ring (s : Sampler) : List Int := s.pushed.take s.capacity

/-- Modelled from the spec: samplesNum, the number of values held by the ring. -/
def Sampler.samplesNum (s : Sampler) : Int := s.ring.length

/-- Modelled from the spec: samplesAcum, the sum of the values held by the ring. -/
def Sampler.samplesAcum (s : Sampler) : Int := s.ring.sum

/-- A timer registered with the host: its handle and the delay it was last armed with. -/
structure AppTimer where
  handle : Nat
  timeout_ms : Nat
  deriving DecidableEq, Repr

/-- What main.c takes from outside its own sources: float arithmetic (carrier `F`), the
constants of FastMath.h, the interpolation table, the Clock3D entity (carrier `C`) and the
QEMU compile-time switch of Config.h.  Every operation is left uninterpreted. -/
structure Platform (F C : Type) where
  fadd : F → F → F
  fsub : F → F → F
  fmul : F → F → F
  fdiv : F → F → F
  fneg : F → F
  ofInt : Int → F
  lit_1_0 : F
  lit_0_001 : F
  DEG_045 : F
  DEG_090 : F
  SPIN_ROTATION_QUANTA : F
  CAM3D_VIEWPOINT_STEADY : R3 F
  FastMath_normalizeAngle : F → F
  spinRotationFraction : Int → F
  Clock3D_animateAll : C → C
  Clock3D_cycleDigitType : C → C
  Clock3D_setTime_DDHHMMSS : C → Int → Int → Int → Int → C
  Clock3D_updateAnimation : C → Int → C
  Clock3D_second100ths_update : C → C
  Clock3D_isAnimated : C → Bool
  QEMU : Bool

def USER_SECONDSINACTIVE_MAX : Int := 5
def WORLD_MODE_INITIAL : WorldMode := WorldMode.WORLD_MODE_STEADY
def ACCEL_SAMPLER_CAPACITY : Nat := 8
def ANIMATION_INTERVAL_MS : Nat := 40
def ANIMATION_FLIP_STEPS : Int := 50
def ANIMATION_SPIN_STEPS : Int := 75
def SPIN_SPEED_AFTER_TWIST : Int := 400

/-- The number of floats interpolations_initialize allocates for spinRotationFraction
(main.c line 273). -/
def spinRotationFraction_entries : Int := ANIMATION_SPIN_STEPS + 1

/-- The macro SPIN_ROTATION_STEADY, that is -DEG_045. -/
def SPIN_ROTATION_STEADY {F C : Type} (P : Platform F C) : F := P.fneg P.DEG_045

/-- The file-scope variables of main.c, followed by the host-side state they interact with:
the wall clock read by clock_updateTime, the registered timers, the subscriptions and the
number of redraw requests. -/
structure World (F C : Type) where
  s_clock : C
  s_world_mode : WorldMode
  s_world_updateTimer : Option Nat
  sampler_accelX : Sampler
  sampler_accelY : Sampler
  sampler_accelZ : Sampler
  s_user_secondsInactive : Int
  s_spin_speed : Int
  s_spin_rotation : F
  s_cam : Option (CamConfig F)
  park_animStep : Int
  park_animRange : F
  launch_animStep : Int
  launch_animRange : F
  now : Tm
  timers : List AppTimer
  nextHandle : Nat
  tickSubscription : Option TimeUnits
  accelDataSubscribed : Bool
  accelTapSubscribed : Bool
  redrawRequests : Nat

open WorldMode AccelAxisType TimeUnits

/-- Modelled from the spec: app_timer_register arms a new timer and returns its handle. -/
def app_timer_register {F C : Type} (timeout_ms : Nat) (w : World F C) : Nat × World F C :=
  (w.nextHandle,
    { w with timers := ⟨w.nextHandle, timeout_ms⟩ :: w.timers, nextHandle := w.nextHandle + 1 })

/-- Modelled from the spec: app_timer_reschedule re-arms the timer that has this handle. -/
def app_timer_reschedule {F C : Type} (handle timeout_ms : Nat) (w : World F C) : World F C :=
  { w with timers := w.timers.map fun t =>
      if t.handle = handle then { t with timeout_ms := timeout_ms } else t }

/-- Modelled from the spec: app_timer_cancel removes the timer; absent handles are ignored. -/
def app_timer_cancel {F C : Type} (handle : Nat) (w : World F C) : World F C :=
  { w with timers := w.timers.filter fun t => t.handle ≠ handle }

/-- The function cam_config: records the viewpoint and rotation handed to the camera. -/
def cam_config {F C : Type} (viewPoint : R3 F) (rotationZ : F) (w : World F C) : World F C :=
  { w with s_cam := some ⟨viewPoint, rotationZ⟩ }

/-- The statement `++s_user_secondsInactive` on a 32-bit int. -/
def incr_int32 (x : Int) : Int := toQ (toU32 (x + 1))

mutual

/-- The function set_world_mode of main.c (lines 213-265). -/
def set_world_mode {F C : Type} (P : Platform F C) (pWorldMode : WorldMode) (w : World F C) :
    World F C :=
  if pWorldMode = w.s_world_mode then w
  else
    let w := { w with s_world_mode := pWorldMode }
    match pWorldMode with
    | WORLD_MODE_LAUNCH =>
      let w := { w with launch_animStep := ANIMATION_SPIN_STEPS }
      let w := { w with accelDataSubscribed := true }
      let w := { w with tickSubscription := some SECOND_UNIT }
      clock_updateTime P w
    | WORLD_MODE_DYNAMIC =>
      { w with s_user_secondsInactive := 0 }
    | WORLD_MODE_PARK =>
      let w := { w with park_animStep := ANIMATION_SPIN_STEPS }
      { w with park_animRange := P.fsub w.s_spin_rotation (SPIN_ROTATION_STEADY P) }
    | WORLD_MODE_STEADY =>
      let w := { w with tickSubscription := none }
      let w := { w with accelDataSubscribed := false }
      let w := { w with s_spin_rotation := SPIN_ROTATION_STEADY P }
      let w := cam_config P.CAM3D_VIEWPOINT_STEADY w.s_spin_rotation w
      { w with tickSubscription := some MINUTE_UNIT }
    | WORLD_MODE_UNDEFINED => w
termination_by (if pWorldMode = WORLD_MODE_LAUNCH then 3 else 0)
decreasing_by simp

/-- The function clock_updateTime of main.c (lines 184-191). -/
def clock_updateTime {F C : Type} (P : Platform F C) (w : World F C) : World F C :=
  tick_timer_service_handler P w.now 0 w
termination_by 2
decreasing_by simp

/-- The function tick_timer_service_handler of main.c (lines 152-181). -/
def tick_timer_service_handler {F C : Type} (P : Platform F C) (tick_time : Tm)
    (_units_changed : Nat) (w : World F C) : World F C :=
  let clock := P.Clock3D_setTime_DDHHMMSS w.s_clock tick_time.tm_mday tick_time.tm_hour
    tick_time.tm_min tick_time.tm_sec
  let w := { w with s_clock := clock }
  let w :=
    if w.s_world_mode = WORLD_MODE_DYNAMIC then
      let w :=
        if w.s_spin_speed = 0 then
          { w with s_user_secondsInactive := incr_int32 w.s_user_secondsInactive }
        else w
      if w.s_user_secondsInactive > USER_SECONDSINACTIVE_MAX then
        set_world_mode P WORLD_MODE_PARK w
      else w
    else w
  match w.s_world_updateTimer with
  | some handle => app_timer_reschedule handle 0 w
  | none =>
    let r := app_timer_register 0 w
    { r.2 with s_world_updateTimer := some r.1 }
termination_by 1
decreasing_by simp

end

/-- The function accel_tap_service_handler of main.c (lines 97-149). -/
def accel_tap_service_handler {F C : Type} (P : Platform F C) (axis : AccelAxisType)
    (_direction : Int) (w : World F C) : World F C :=
  let w := { w with s_user_secondsInactive := 0 }
  match w.s_world_mode with
  | WORLD_MODE_LAUNCH | WORLD_MODE_PARK | WORLD_MODE_DYNAMIC =>
    match axis with
    | ACCEL_AXIS_X => { w with s_clock := P.Clock3D_animateAll w.s_clock }
    | ACCEL_AXIS_Y => { w with s_spin_speed := SPIN_SPEED_AFTER_TWIST }
    | ACCEL_AXIS_Z => w
  | WORLD_MODE_STEADY =>
    match axis with
    | ACCEL_AXIS_X =>
      let w := { w with s_clock := P.Clock3D_cycleDigitType w.s_clock }
      clock_updateTime P w
    | ACCEL_AXIS_Y => set_world_mode P WORLD_MODE_LAUNCH w
    | ACCEL_AXIS_Z => w
  | WORLD_MODE_UNDEFINED => w

/-- The three pushes of the steady viewpoint attractor (main.c lines 367-369). -/
def push_attractor {F C : Type} (w : World F C) : World F C :=
  let w := { w with sampler_accelX := Sampler_push w.sampler_accelX (-81) }
  let w := { w with sampler_accelY := Sampler_push w.sampler_accelY (-816) }
  { w with sampler_accelZ := Sampler_push w.sampler_accelZ (-571) }

/-- The three pushes of a sensor reading (main.c lines 387-389). -/
def push_reading {F C : Type} (ad : AccelData) (w : World F C) : World F C :=
  let w := { w with sampler_accelX := Sampler_push w.sampler_accelX ad.x }
  let w := { w with sampler_accelY := Sampler_push w.sampler_accelY ad.y }
  { w with sampler_accelZ := Sampler_push w.sampler_accelZ ad.z }

/-- The sampling block of world_update (main.c lines 361-391). -/
def world_update_sample {F C : Type} (P : Platform F C) (peek : AccelPeek) (w : World F C) :
    World F C :=
  if peek.result < 0
      ∨ (w.s_world_mode = WORLD_MODE_PARK ∧ w.park_animStep < (ACCEL_SAMPLER_CAPACITY : Int)) then
    push_attractor w
  else if P.QEMU = true then
    if peek.ad.x = 0 ∧ peek.ad.y = 0 ∧ peek.ad.z = -1000 then push_attractor w
    else push_reading peek.ad w
  else push_reading peek.ad w

/-- The switch on the mode in world_update (main.c lines 393-437): the camera rotation of
this frame and the updated world. -/
def world_update_rotation {F C : Type} (P : Platform F C) (w : World F C) : F × World F C :=
  match w.s_world_mode with
  | WORLD_MODE_LAUNCH =>
    if w.launch_animStep ≥ 0 then
      (P.fadd (SPIN_ROTATION_STEADY P)
          (P.fmul (P.fsub P.lit_1_0 (P.spinRotationFraction w.launch_animStep))
            w.launch_animRange),
        { w with launch_animStep := w.launch_animStep - 1 })
    else
      let r := P.fadd (SPIN_ROTATION_STEADY P) w.launch_animRange
      (r, set_world_mode P WORLD_MODE_DYNAMIC { w with s_spin_rotation := r })
  | WORLD_MODE_DYNAMIC =>
    let w := if w.s_spin_speed > 0 then { w with s_spin_speed := w.s_spin_speed - 1 } else w
    let w := if w.s_spin_speed < 0 then { w with s_spin_speed := w.s_spin_speed + 1 } else w
    let w :=
      if w.s_spin_speed ≠ 0 then
        let step := P.fmul (P.ofInt w.s_spin_speed) P.SPIN_ROTATION_QUANTA
        { w with s_spin_rotation := P.FastMath_normalizeAngle (P.fadd w.s_spin_rotation step) }
      else w
    (w.s_spin_rotation, w)
  | WORLD_MODE_PARK =>
    if w.park_animStep ≥ 0 then
      (P.fadd (SPIN_ROTATION_STEADY P)
          (P.fmul (P.spinRotationFraction w.park_animStep) w.park_animRange),
        { w with park_animStep := w.park_animStep - 1 })
    else
      (SPIN_ROTATION_STEADY P, set_world_mode P WORLD_MODE_STEADY w)
  | _ => (SPIN_ROTATION_STEADY P, w)

/-- The viewpoint handed to cam_config by world_update (main.c lines 441-446). -/
def world_update_viewPoint {F C : Type} (P : Platform F C) (w : World F C) : R3 F :=
  let kAvg := P.fdiv P.lit_0_001 (P.ofInt w.sampler_accelX.samplesNum)
  { x := P.fmul kAvg (P.ofInt w.sampler_accelX.samplesAcum)
    y := P.fmul (P.fneg kAvg) (P.ofInt w.sampler_accelY.samplesAcum)
    z := P.fmul (P.fneg kAvg) (P.ofInt w.sampler_accelZ.samplesAcum) }

/-- The function world_update of main.c (lines 350-454). -/
def world_update {F C : Type} (P : Platform F C) (peek : AccelPeek) (w : World F C) :
    World F C :=
  let w := { w with s_clock := P.Clock3D_updateAnimation w.s_clock ANIMATION_FLIP_STEPS }
  let w :=
    if w.s_world_mode ≠ WORLD_MODE_STEADY then
      let w := { w with s_clock := P.Clock3D_second100ths_update w.s_clock }
      let w := world_update_sample P peek w
      let r := world_update_rotation P w
      let cam_rotation := r.1
      let w := r.2
      if w.s_world_mode ≠ WORLD_MODE_STEADY then
        cam_config (world_update_viewPoint P w) cam_rotation w
      else w
    else w
  { w with redrawRequests := w.redrawRequests + 1 }

/-- The function world_update_timer_handler of main.c (lines 457-471). -/
def world_update_timer_handler {F C : Type} (P : Platform F C) (peek : AccelPeek)
    (w : World F C) : World F C :=
  let w := { w with s_world_updateTimer := none }
  let w := world_update P peek w
  if w.s_world_mode ≠ WORLD_MODE_STEADY ∨ P.Clock3D_isAnimated w.s_clock = true then
    let r := app_timer_register ANIMATION_INTERVAL_MS w
    { r.2 with s_world_updateTimer := some r.1 }
  else w

/-- The loop of sampler_initialize (main.c lines 296-301), `n` iterations still to run. -/
def sampler_initialize_loop : Nat → Sampler × Sampler × Sampler → Sampler × Sampler × Sampler
  | 0, s => s
  | n + 1, s =>
    sampler_initialize_loop n
      (Sampler_push s.1 (-81), Sampler_push s.2.1 (-816), Sampler_push s.2.2 (-571))

/-- The function sampler_initialize of main.c (lines 287-302). -/
def sampler_initialize : Sampler × Sampler × Sampler :=
  sampler_initialize_loop ACCEL_SAMPLER_CAPACITY
    (Sampler_new ACCEL_SAMPLER_CAPACITY, Sampler_new ACCEL_SAMPLER_CAPACITY,
      Sampler_new ACCEL_SAMPLER_CAPACITY)

/-- The file-scope initialisers of main.c once world_initialize has run: `clock` is the
configured Clock3D entity and `now` the wall clock. -/
def initial_world {F C : Type} (P : Platform F C) (clock : C) (now : Tm) : World F C :=
  { s_clock := clock
    s_world_mode := WORLD_MODE_UNDEFINED
    s_world_updateTimer := none
    sampler_accelX := sampler_initialize.1
    sampler_accelY := sampler_initialize.2.1
    sampler_accelZ := sampler_initialize.2.2
    s_user_secondsInactive := 0
    s_spin_speed := 0
    s_spin_rotation := SPIN_ROTATION_STEADY P
    s_cam := none
    park_animStep := -1
    park_animRange := P.ofInt 0
    launch_animStep := -1
    launch_animRange := P.DEG_090
    now := now
    timers := []
    nextHandle := 0
    tickSubscription := none
    accelDataSubscribed := false
    accelTapSubscribed := false
    redrawRequests := 0 }

/-- The part of window_load that touches the world (main.c lines 520-525). -/
def window_load {F C : Type} (P : Platform F C) (w : World F C) : World F C :=
  let w := { w with accelTapSubscribed := true }
  let w := set_world_mode P WORLD_MODE_INITIAL w
  clock_updateTime P w

/-- Modelled from the spec: a one-shot timer that fires is dropped by the host before its
callback runs; the timer dropped here is the one s_world_updateTimer refers to. -/
def app_timer_fired {F C : Type} (w : World F C) : World F C :=
  match w.s_world_updateTimer with
  | some handle => app_timer_cancel handle w
  | none => w

/-- An event delivered by the host: a tap (with the wall clock at that moment), a tick, a
bare frame update, or the firing of the frame timer. -/
inductive Event where
  | tap (axis : AccelAxisType) (direction : Int) (now : Tm)
  | tick (tick_time : Tm) (units_changed : Nat)
  | update (peek : AccelPeek)
  | timer (peek : AccelPeek)

/-- The handler that runs on an event. -/
def Event.handle {F C : Type} (P : Platform F C) (e : Event) (w : World F C) : World F C :=
  match e with
  | Event.tap axis direction now => accel_tap_service_handler P axis direction { w with now := now }
  | Event.tick tick_time units_changed => tick_timer_service_handler P tick_time units_changed w
  | Event.update peek => world_update P peek w
  | Event.timer peek => world_update_timer_handler P peek (app_timer_fired w)

/-- Whether the event runs a frame update. -/
def Event.isFrame : Event → Bool
  | Event.update _ => true
  | Event.timer _ => true
  | _ => false

/-- Whether the event is a tap. -/
def Event.isTap : Event → Bool
  | Event.tap _ _ _ => true
  | _ => false

/-- Whether the event is a tick. -/
def Event.isTick : Event → Bool
  | Event.tick _ _ => true
  | _ => false

/-- The world after a sequence of events, delivered first to last. -/
def run {F C : Type} (P : Platform F C) : List Event → World F C → World F C
  | [], w => w
  | e :: es, w => run P es (e.handle P w)

/-- The world after consecutive frame updates, one per peek outcome. -/
def world_updates {F C : Type} (P : Platform F C) : List AccelPeek → World F C → World F C
  | [], w => w
  | peek :: peeks, w => world_updates P peeks (world_update P peek w)
/-! ## Reference functions and sample data -/

/-- The truncated root of `M`, incremented by one when the remainder exceeds it. -/
def roundRoot (M : Nat) : Nat :=
  if M - (Nat.sqrt M) ^ 2 > Nat.sqrt M then Nat.sqrt M + 1 else Nat.sqrt M

/-- Modelled from the spec: the fixed-point product of two raw values (the multiplication of
the Q library is not part of the sources), their product divided by 65536 and rounded to the
nearest raw unit. -/
def roundedProduct (a b : Int) : Int := (a * b + 32768) / 65536

/-- A platform on which the model can be run: floats are integers, the clock entity
carries no data and never animates. -/
def intPlatform : Platform Int Unit :=
  { fadd := fun a b => a + b
    fsub := fun a b => a - b
    fmul := fun a b => a * b
    fdiv := fun a b => a / b
    fneg := fun a => -a
    ofInt := fun n => n
    lit_1_0 := 1
    lit_0_001 := 0
    DEG_045 := 45
    DEG_090 := 90
    SPIN_ROTATION_QUANTA := 1
    CAM3D_VIEWPOINT_STEADY := ⟨0, 1, 1⟩
    FastMath_normalizeAngle := fun a => a % 360
    spinRotationFraction := fun i => i
    Clock3D_animateAll := fun c => c
    Clock3D_cycleDigitType := fun c => c
    Clock3D_setTime_DDHHMMSS := fun c _ _ _ _ => c
    Clock3D_updateAnimation := fun c _ => c
    Clock3D_second100ths_update := fun c => c
    Clock3D_isAnimated := fun _ => false
    QEMU := false }

/-- A world on `intPlatform` in the given mode with the given launch and park step counters;
everything else is as initialised. -/
def sampleWorld (mode : WorldMode) (launchStep parkStep : Int) : World Int Unit :=
  { initial_world intPlatform () ⟨1, 0, 0, 0⟩ with
    s_world_mode := mode, launch_animStep := launchStep, park_animStep := parkStep }

/-- A successful sensor peek at rest. -/
def samplePeek : AccelPeek := ⟨0, ⟨0, 0, -1000⟩⟩

/-- The worlds the program can be in: the initialised world, and from there whatever the
host does next - it loads the window, lets the wall clock advance, delivers a tap or a tick,
runs a frame update, fires a registered timer (a one-shot timer is dropped by the host
before its callback runs), or the mode is changed through set_world_mode. -/
inductive Reachable {F C : Type} (P : Platform F C) : World F C → Prop where
  | init (clock : C) (now : Tm) : Reachable P (initial_world P clock now)
  | load {w : World F C} : Reachable P w → Reachable P (window_load P w)
  | clock {w : World F C} (now : Tm) : Reachable P w → Reachable P { w with now := now }
  | tap {w : World F C} (axis : AccelAxisType) (direction : Int) :
      Reachable P w → Reachable P (accel_tap_service_handler P axis direction w)
  | tick {w : World F C} (tick_time : Tm) (units_changed : Nat) :
      Reachable P w → Reachable P (tick_timer_service_handler P tick_time units_changed w)
  | update {w : World F C} (peek : AccelPeek) :
      Reachable P w → Reachable P (world_update P peek w)
  | fire {w : World F C} (t : AppTimer) (peek : AccelPeek) :
      Reachable P w → t ∈ w.timers →
      Reachable P (world_update_timer_handler P peek (app_timer_cancel t.handle w))
  | mode {w : World F C} (m : WorldMode) : Reachable P w → Reachable P (set_world_mode P m w)

/-- The frame timer discipline: the host holds exactly the timer that s_world_updateTimer
refers to, and no timer at all when s_world_updateTimer is NULL. -/
def timers_match {F C : Type} (w : World F C) : Prop :=
  w.timers.map AppTimer.handle = w.s_world_updateTimer.toList

/-- Both animation step counters lie between -1 and ANIMATION_SPIN_STEPS. -/
def steps_in_range {F C : Type} (w : World F C) : Prop :=
  -1 ≤ w.launch_animStep ∧ w.launch_animStep ≤ ANIMATION_SPIN_STEPS
  ∧ -1 ≤ w.park_animStep ∧ w.park_animStep ≤ ANIMATION_SPIN_STEPS

/-- The world on `intPlatform` just after start-up: initialised, then the window loaded. -/
def bootedWorld : World Int Unit :=
  window_load intPlatform (initial_world intPlatform () ⟨1, 0, 0, 0⟩)

/-- A Dynamic world on `intPlatform` spinning at speed 400. -/
def spinningWorld : World Int Unit :=
  { sampleWorld WORLD_MODE_DYNAMIC (-1) (-1) with s_spin_speed := 400 }

/-- A failed sensor peek; the reading it left behind is arbitrary. -/
def failedPeek : AccelPeek := ⟨-1, ⟨12, 34, 56⟩⟩

/-! ## Q_sqrt.c : bounded and checked runs of the loops -/

/-- The start-bit search of Q_sqrt run for at most `fuel` iterations: `none` when the loop
condition still holds after them. -/
def startBit_steps : Nat → Nat → Nat → Option Nat
  | 0, bit, num => if bit > num then none else some bit
  | fuel + 1, bit, num =>
    if bit > num then startBit_steps fuel (bit >>> 2) num else some bit

/-- The digit loop of Q_sqrt run for at most `fuel` iterations: `none` when `bit` is still
non-zero after them. -/
def digitLoop_steps : Nat → Nat → Nat → Nat → Option (Nat × Nat)
  | 0, num, result, bit => if bit ≠ 0 then none else some (num, result)
  | fuel + 1, num, result, bit =>
    if bit ≠ 0 then
      if num ≥ add32 result bit then
        digitLoop_steps fuel (sub32 num (add32 result bit)) (add32 (result >>> 1) bit)
          (bit >>> 2)
      else
        digitLoop_steps fuel num (result >>> 1) (bit >>> 2)
    else some (num, result)

/-- The function Q_sqrt with every loop run for at most `fuel` iterations: `none` when one of
the three loops has not finished by then. -/
def Q_sqrt_steps (fuel : Nat) (inValue : Int) : Option Int :=
  let neg := decide (inValue < 0)
  let num := toU32 (if neg then negQ inValue else inValue)
  let bit := if num &&& 0xFFF00000 ≠ 0 then 1 <<< 30 else 1 <<< 18
  match startBit_steps fuel bit num with
  | none => none
  | some bit =>
    match digitLoop_steps fuel num 0 bit with
    | none => none
    | some p1 =>
      match digitLoop_steps fuel (rescale p1.1 p1.2).1 (rescale p1.1 p1.2).2 (1 <<< 14) with
      | none => none
      | some p2 =>
        let result := if p2.1 > p2.2 then add32 p2.2 1 else p2.2
        some (toQ (if neg then neg32 result else result))

/-- Addition over the naturals, `none` when the sum does not fit 32 bits. -/
def add32_checked (a b : Nat) : Option Nat :=
  if a + b < 4294967296 then some (a + b) else none

/-- Subtraction over the naturals, `none` when the difference would be negative. -/
def sub32_checked (a b : Nat) : Option Nat :=
  if b ≤ a then some (a - b) else none

/-- Left shift over the naturals, `none` when the result does not fit 32 bits. -/
def shl32_checked (a k : Nat) : Option Nat :=
  if a <<< k < 4294967296 then some (a <<< k) else none

/-- The digit loop of Q_sqrt over the naturals, `none` as soon as one of its operations
leaves the 32-bit range. -/
def digitLoop_checked (num result bit : Nat) : Option (Nat × Nat) :=
  if bit ≠ 0 then
    match add32_checked result bit with
    | none => none
    | some s =>
      if num ≥ s then
        match sub32_checked num s, add32_checked (result >>> 1) bit with
        | some n, some r => digitLoop_checked n r (bit >>> 2)
        | _, _ => none
      else
        digitLoop_checked num (result >>> 1) (bit >>> 2)
  else some (num, result)
termination_by bit
decreasing_by
  all_goals simp only [Nat.shiftRight_eq_div_pow]
  all_goals omega

/-- The rescaling between the two passes over the naturals, `none` as soon as one of its
operations leaves the 32-bit range. -/
def rescale_checked (num result : Nat) : Option (Nat × Nat) :=
  if num > 65535 then
    match sub32_checked num result with
    | none => none
    | some d =>
      match shl32_checked d 16, shl32_checked result 16 with
      | some n, some r =>
        match sub32_checked n 0x8000, add32_checked r 0x8000 with
        | some n1, some r1 => some (n1, r1)
        | _, _ => none
      | _, _ => none
  else
    match shl32_checked num 16, shl32_checked result 16 with
    | some n, some r => some (n, r)
    | _, _ => none

/-- The unsigned part of Q_sqrt over the naturals, `none` as soon as one of its operations
leaves the 32-bit range. -/
def Q_sqrt_checked (num : Nat) : Option Nat :=
  let bit := if num &&& 0xFFF00000 ≠ 0 then 1 <<< 30 else 1 <<< 18
  let bit := startBit bit num
  match digitLoop_checked num 0 bit with
  | none => none
  | some p1 =>
    match rescale_checked p1.1 p1.2 with
    | none => none
    | some p1 =>
      match digitLoop_checked p1.1 p1.2 (1 <<< 14) with
      | none => none
      | some p2 => if p2.1 > p2.2 then add32_checked p2.2 1 else some p2.2

/-! ## main.c : invariants of the reachable worlds -/

/-- The spin speed lies between 0 and SPIN_SPEED_AFTER_TWIST. -/
def speed_in_range {F C : Type} (w : World F C) : Prop :=
  0 ≤ w.s_spin_speed ∧ w.s_spin_speed ≤ SPIN_SPEED_AFTER_TWIST

/-- The `n` most recent pushes to each of the three samplers were the steady-attractor
readings. -/
def newest_are_attractor {F C : Type} (n : Nat) (w : World F C) : Prop :=
  w.sampler_accelX.pushed.take n = List.replicate n (-81)
  ∧ w.sampler_accelY.pushed.take n = List.replicate n (-816)
  ∧ w.sampler_accelZ.pushed.take n = List.replicate n (-571)

/-- Every sampler has the capacity ACCEL_SAMPLER_CAPACITY, and in Park the frames run since
the step counter went below ACCEL_SAMPLER_CAPACITY have all pushed the attractor. -/
def park_attractor_inv {F C : Type} (w : World F C) : Prop :=
  w.sampler_accelX.capacity = ACCEL_SAMPLER_CAPACITY
  ∧ w.sampler_accelY.capacity = ACCEL_SAMPLER_CAPACITY
  ∧ w.sampler_accelZ.capacity = ACCEL_SAMPLER_CAPACITY
  ∧ (w.s_world_mode = WORLD_MODE_PARK →
      newest_are_attractor ((ACCEL_SAMPLER_CAPACITY : Int) - 1 - w.park_animStep).toNat w)

/-- A world on `intPlatform` at the end of its park animation: parked from the initial world,
then seventy-six frames with a successful peek. -/
def parkedWorld : World Int Unit :=
  world_updates intPlatform (List.replicate 76 samplePeek)
    (set_world_mode intPlatform WORLD_MODE_PARK (initial_world intPlatform () ⟨1, 0, 0, 0⟩))

/-! ## src/main.c : the older driver

The older driver keeps the same file-scope variables without the `s_` prefix (world_mode,
world_updateTimer, user_secondsInactive, spin_speed, spin_rotation, cam) and reaches the
clock entity through the Clock3D library instead of a variable of its own; its state is the
same `World`. -/

namespace OldMain

mutual

/-- The function set_world_mode of src/main.c (lines 219-271). -/
def set_world_mode {F C : Type} (P : Platform F C) (pWorldMode : WorldMode) (w : World F C) :
    World F C :=
  if pWorldMode = w.s_world_mode then w
  else
    let w := { w with s_world_mode := pWorldMode }
    match pWorldMode with
    | WORLD_MODE_LAUNCH =>
      let w := { w with launch_animStep := ANIMATION_SPIN_STEPS }
      let w := { w with accelDataSubscribed := true }
      let w := { w with tickSubscription := some SECOND_UNIT }
      clock_updateTime P w
    | WORLD_MODE_DYNAMIC =>
      { w with s_user_secondsInactive := 0 }
    | WORLD_MODE_PARK =>
      let w := { w with park_animStep := ANIMATION_SPIN_STEPS }
      { w with park_animRange := P.fsub w.s_spin_rotation (SPIN_ROTATION_STEADY P) }
    | WORLD_MODE_STEADY =>
      let w := { w with tickSubscription := none }
      let w := { w with accelDataSubscribed := false }
      let w := { w with s_spin_rotation := SPIN_ROTATION_STEADY P }
      let w := cam_config P.CAM3D_VIEWPOINT_STEADY w.s_spin_rotation w
      { w with tickSubscription := some MINUTE_UNIT }
    | WORLD_MODE_UNDEFINED => w
termination_by (if pWorldMode = WORLD_MODE_LAUNCH then 3 else 0)
decreasing_by simp

/-- The function clock_updateTime of src/main.c (lines 190-197). -/
def clock_updateTime {F C : Type} (P : Platform F C) (w : World F C) : World F C :=
  tick_timer_service_handler P w.now 0 w
termination_by 2
decreasing_by simp

/-- The function tick_timer_service_handler of src/main.c (lines 159-187). -/
def tick_timer_service_handler {F C : Type} (P : Platform F C) (tick_time : Tm)
    (_units_changed : Nat) (w : World F C) : World F C :=
  let clock := P.Clock3D_setTime_DDHHMMSS w.s_clock tick_time.tm_mday tick_time.tm_hour
    tick_time.tm_min tick_time.tm_sec
  let w := { w with s_clock := clock }
  let w :=
    if w.s_world_mode = WORLD_MODE_DYNAMIC then
      let w :=
        if w.s_spin_speed = 0 then
          { w with s_user_secondsInactive := incr_int32 w.s_user_secondsInactive }
        else w
      if w.s_user_secondsInactive > USER_SECONDSINACTIVE_MAX then
        set_world_mode P WORLD_MODE_PARK w
      else w
    else w
  match w.s_world_updateTimer with
  | some handle => app_timer_reschedule handle 0 w
  | none =>
    let r := app_timer_register 0 w
    { r.2 with s_world_updateTimer := some r.1 }
termination_by 1
decreasing_by simp

end

/-- The function accel_tap_service_handler of src/main.c (lines 104-156). The punch in
Steady calls Clock3D_cycleDisplayType, a routine of the older Clock3D library, passed here
as `cycleDisplayType`. -/
def accel_tap_service_handler {F C : Type} (P : Platform F C) (cycleDisplayType : C → C)
    (axis : AccelAxisType) (_direction : Int) (w : World F C) : World F C :=
  let w := { w with s_user_secondsInactive := 0 }
  match w.s_world_mode with
  | WORLD_MODE_LAUNCH | WORLD_MODE_PARK | WORLD_MODE_DYNAMIC =>
    match axis with
    | ACCEL_AXIS_X => { w with s_clock := P.Clock3D_animateAll w.s_clock }
    | ACCEL_AXIS_Y => { w with s_spin_speed := SPIN_SPEED_AFTER_TWIST }
    | ACCEL_AXIS_Z => w
  | WORLD_MODE_STEADY =>
    match axis with
    | ACCEL_AXIS_X =>
      let w := { w with s_clock := cycleDisplayType w.s_clock }
      clock_updateTime P w
    | ACCEL_AXIS_Y => set_world_mode P WORLD_MODE_LAUNCH w
    | ACCEL_AXIS_Z => w
  | WORLD_MODE_UNDEFINED => w

/-- The sampling block of world_update (src/main.c lines 367-397). -/
def world_update_sample {F C : Type} (P : Platform F C) (peek : AccelPeek) (w : World F C) :
    World F C :=
  if peek.result < 0
      ∨ (w.s_world_mode = WORLD_MODE_PARK ∧ w.park_animStep < (ACCEL_SAMPLER_CAPACITY : Int)) then
    push_attractor w
  else if P.QEMU = true then
    if peek.ad.x = 0 ∧ peek.ad.y = 0 ∧ peek.ad.z = -1000 then push_attractor w
    else push_reading peek.ad w
  else push_reading peek.ad w

/-- The switch on the mode in world_update (src/main.c lines 399-443): the camera rotation
of this frame and the updated world. -/
def world_update_rotation {F C : Type} (P : Platform F C) (w : World F C) : F × World F C :=
  match w.s_world_mode with
  | WORLD_MODE_LAUNCH =>
    if w.launch_animStep ≥ 0 then
      (P.fadd (SPIN_ROTATION_STEADY P)
          (P.fmul (P.fsub P.lit_1_0 (P.spinRotationFraction w.launch_animStep))
            w.launch_animRange),
        { w with launch_animStep := w.launch_animStep - 1 })
    else
      let r := P.fadd (SPIN_ROTATION_STEADY P) w.launch_animRange
      (r, set_world_mode P WORLD_MODE_DYNAMIC { w with s_spin_rotation := r })
  | WORLD_MODE_DYNAMIC =>
    let w := if w.s_spin_speed > 0 then { w with s_spin_speed := w.s_spin_speed - 1 } else w
    let w := if w.s_spin_speed < 0 then { w with s_spin_speed := w.s_spin_speed + 1 } else w
    let w :=
      if w.s_spin_speed ≠ 0 then
        let step := P.fmul (P.ofInt w.s_spin_speed) P.SPIN_ROTATION_QUANTA
        { w with s_spin_rotation := P.FastMath_normalizeAngle (P.fadd w.s_spin_rotation step) }
      else w
    (w.s_spin_rotation, w)
  | WORLD_MODE_PARK =>
    if w.park_animStep ≥ 0 then
      (P.fadd (SPIN_ROTATION_STEADY P)
          (P.fmul (P.spinRotationFraction w.park_animStep) w.park_animRange),
        { w with park_animStep := w.park_animStep - 1 })
    else
      (SPIN_ROTATION_STEADY P, set_world_mode P WORLD_MODE_STEADY w)
  | _ => (SPIN_ROTATION_STEADY P, w)

/-- The viewpoint handed to cam_config by world_update (src/main.c lines 445-449): each sum
is divided by the number of samples in integer arithmetic, truncating, before the cast to
float and the negation. -/
def world_update_viewPoint {F C : Type} (P : Platform F C) (w : World F C) : R3 F :=
  { x := P.ofInt (Int.tdiv w.sampler_accelX.samplesAcum w.sampler_accelX.samplesNum)
    y := P.fneg (P.ofInt (Int.tdiv w.sampler_accelY.samplesAcum w.sampler_accelY.samplesNum))
    z := P.fneg (P.ofInt (Int.tdiv w.sampler_accelZ.samplesAcum w.sampler_accelZ.samplesNum)) }

/-- The function world_update of src/main.c (lines 356-456). -/
def world_update {F C : Type} (P : Platform F C) (peek : AccelPeek) (w : World F C) :
    World F C :=
  let w := { w with s_clock := P.Clock3D_updateAnimation w.s_clock ANIMATION_FLIP_STEPS }
  let w :=
    if w.s_world_mode ≠ WORLD_MODE_STEADY then
      let w := { w with s_clock := P.Clock3D_second100ths_update w.s_clock }
      let w := world_update_sample P peek w
      let r := world_update_rotation P w
      let cam_rotation := r.1
      let w := r.2
      if w.s_world_mode ≠ WORLD_MODE_STEADY then
        cam_config (world_update_viewPoint P w) cam_rotation w
      else w
    else w
  { w with redrawRequests := w.redrawRequests + 1 }

/-- The function world_update_timer_handler of src/main.c (lines 459-473). -/
def world_update_timer_handler {F C : Type} (P : Platform F C) (peek : AccelPeek)
    (w : World F C) : World F C :=
  let w := { w with s_world_updateTimer := none }
  let w := world_update P peek w
  if w.s_world_mode ≠ WORLD_MODE_STEADY ∨ P.Clock3D_isAnimated w.s_clock = true then
    let r := app_timer_register ANIMATION_INTERVAL_MS w
    { r.2 with s_world_updateTimer := some r.1 }
  else w

/-- The part of window_load that touches the world (src/main.c lines 508-512). -/
def window_load {F C : Type} (P : Platform F C) (w : World F C) : World F C :=
  let w := { w with accelTapSubscribed := true }
  set_world_mode P WORLD_MODE_LAUNCH w

end OldMain

/-- The two worlds agree on every field but the camera configuration. -/
def same_but_cam {F C : Type} (a b : World F C) : Prop :=
  ∀ c : Option (CamConfig F), { a with s_cam := c } = { b with s_cam := c }

theorem add32_eq {a b : Nat} (h : a + b < 4294967296) : add32 a b = a + b := by
  unfold add32; omega

theorem sub32_eq {a b : Nat} (h : b ≤ a) (ha : a < 4294967296) : sub32 a b = a - b := by
  unfold sub32; omega

theorem shl32_eq {a k : Nat} (h : a * 2 ^ k < 4294967296) : shl32 a k = a * 2 ^ k := by
  unfold shl32
  rw [Nat.shiftLeft_eq, Nat.mod_eq_of_lt h]

theorem four_pow_eq (j : Nat) : 4 ^ j = 2 ^ j * 2 ^ j := by
  rw [← pow_add, ← two_mul, pow_mul]; norm_num

theorem digitLoop_zero (num result : Nat) : digitLoop num result 0 = (num, result) := by
  rw [digitLoop]; simp

theorem digitLoop_pos {num result bit : Nat} (h : bit ≠ 0) :
    digitLoop num result bit =
      if num ≥ add32 result bit then
        digitLoop (sub32 num (add32 result bit)) (add32 (result >>> 1) bit) (bit >>> 2)
      else digitLoop num (result >>> 1) (bit >>> 2) := by
  rw [digitLoop]; simp [h]

theorem digitLoop_spec (j : Nat) : ∀ (r N num result : Nat),
    result = r * 2 ^ j → num + r ^ 2 = N → N < (r + 2 ^ j) ^ 2 →
    num < 4294967296 → result + 2 * (4 ^ j / 4) ≤ 4294967296 →
    digitLoop num result (4 ^ j / 4) = (N - (Nat.sqrt N) ^ 2, Nat.sqrt N) := by
  induction j with
  | zero =>
    intro r N num result hres hnum hN _ _
    have hr : r = Nat.sqrt N := Nat.eq_sqrt'.2 ⟨by omega, by simpa using hN⟩
    simp only [pow_zero, Nat.reduceDiv, digitLoop_zero]
    subst hr
    simp at hres
    subst hres
    congr 1
    omega
  | succ j ih =>
    intro r N num result hres hnum hN hlt hbound
    have hb : 4 ^ (j + 1) / 4 = 4 ^ j := by rw [pow_succ]; simp
    rw [hb] at hbound ⊢
    obtain ⟨T, hT⟩ : ∃ T, T = 2 ^ j := ⟨_, rfl⟩
    have hTpos : 0 < T := by rw [hT]; positivity
    have h4 : 4 ^ j = T * T := by rw [hT]; exact four_pow_eq j
    have h2 : 2 ^ (j + 1) = 2 * T := by rw [hT, pow_succ]; ring
    rw [h2] at hres hN
    rw [h4] at hbound
    have hbit : 4 ^ j ≠ 0 := by positivity
    have hshift : (4 ^ j) >>> 2 = 4 ^ j / 4 := by
      rw [Nat.shiftRight_eq_div_pow]
    have hhalf : result >>> 1 = r * T := by
      rw [Nat.shiftRight_eq_div_pow, hres, show r * (2 * T) = 2 * (r * T) by ring]
      omega
    have hTT : 0 < T * T := Nat.mul_pos hTpos hTpos
    have hquarter : 2 * (4 ^ j / 4) ≤ T * T := by
      rw [h4]; omega
    rw [digitLoop_pos hbit, hshift, hhalf]
    have hadd : add32 result (4 ^ j) = result + T * T := by
      rw [h4]; apply add32_eq; omega
    rw [hadd]
    have hresX : result = 2 * (r * T) := by rw [hres]; ring
    split
    · rename_i hge
      have hsub : sub32 num (result + T * T) = num - (result + T * T) := sub32_eq hge hlt
      have hadd2 : add32 (r * T) (4 ^ j) = r * T + T * T := by
        rw [h4]; apply add32_eq; omega
      rw [hsub, hadd2]
      apply ih (r + T) N
      · rw [← hT]; ring
      · have : (r + T) ^ 2 = r ^ 2 + (result + T * T) := by rw [hresX]; ring
        rw [this]; omega
      · rw [← hT]
        have : (r + T + T) ^ 2 = (r + 2 * T) ^ 2 := by ring
        rw [this]; exact hN
      · omega
      · omega
    · rename_i hlt2
      apply ih r N
      · rw [← hT]
      · exact hnum
      · rw [← hT]
        have : (r + T) ^ 2 = r ^ 2 + (result + T * T) := by rw [hresX]; ring
        rw [this]; omega
      · exact hlt
      · omega

theorem startBit_zero (num : Nat) : startBit 0 num = 0 := by
  rw [startBit]; simp

theorem startBit_spec (m : Nat) : ∀ a : Nat, a < 4 ^ (m + 1) →
    ∃ j, startBit (4 ^ m) a = 4 ^ j / 4 ∧ a < 4 ^ j ∧ j ≤ m + 1 := by
  induction m with
  | zero =>
    intro a ha
    rw [startBit]
    by_cases h : 4 ^ 0 > a
    · refine ⟨0, ?_, by simpa using h, by omega⟩
      rw [if_pos h, show (4 ^ 0) >>> 2 = 0 by decide, startBit_zero]
      decide
    · refine ⟨1, ?_, by simpa using ha, by omega⟩
      rw [if_neg h]; rfl
  | succ k ih =>
    intro a ha
    rw [startBit]
    by_cases h : 4 ^ (k + 1) > a
    · obtain ⟨j, hj, haj, hjk⟩ := ih a h
      refine ⟨j, ?_, haj, by omega⟩
      rw [if_pos h, Nat.shiftRight_eq_div_pow, show 4 ^ (k + 1) / 2 ^ 2 = 4 ^ k by rw [pow_succ]; norm_num]
      exact hj
    · refine ⟨k + 2, ?_, ha, by omega⟩
      rw [if_neg h, pow_succ 4 (k + 1)]; simp

theorem mask_zero_lt {a : Nat} (ha : a < 4294967296) (h : a &&& 0xFFF00000 = 0) :
    a < 1048576 := by
  apply Nat.lt_pow_two_of_testBit a (n := 20)
  intro i hi
  by_cases h32 : i < 32
  · have hm : (0xFFF00000 : Nat).testBit i = true := by
      interval_cases i <;> rfl
    have := congrArg (fun x => x.testBit i) h
    simp only [Nat.testBit_and, hm, Bool.and_true, Nat.zero_testBit] at this
    exact this
  · apply Nat.testBit_lt_two_pow
    calc a < 2 ^ 32 := ha
      _ ≤ 2 ^ i := Nat.pow_le_pow_right (by decide) (by omega)


theorem startBit_Q (a : Nat) (ha : a ≤ 2147483648) :
    ∃ j, startBit (if a &&& 0xFFF00000 ≠ 0 then 1 <<< 30 else 1 <<< 18) a = 4 ^ j / 4
      ∧ a < 4 ^ j ∧ j ≤ 16 := by
  by_cases hm : a &&& 0xFFF00000 ≠ 0
  · rw [if_pos hm]
    obtain ⟨j, h1, h2, h3⟩ := startBit_spec 15 a (by norm_num; omega)
    exact ⟨j, by rw [← h1]; rfl, h2, by omega⟩
  · rw [if_neg hm]
    have hlt := mask_zero_lt (a := a) (by omega) (by simpa using hm)
    obtain ⟨j, h1, h2, h3⟩ := startBit_spec 9 a (by norm_num; omega)
    exact ⟨j, by rw [← h1]; rfl, h2, by omega⟩

theorem sqrt_bound {a : Nat} (ha : a ≤ 2147483648) : Nat.sqrt a ≤ 46340 := by
  have h : Nat.sqrt a < 46341 := Nat.sqrt_lt'.2 (by omega)
  omega

theorem firstPass (a : Nat) (ha : a ≤ 2147483648) :
    digitLoop a 0 (startBit (if a &&& 0xFFF00000 ≠ 0 then 1 <<< 30 else 1 <<< 18) a)
      = (a - (Nat.sqrt a) ^ 2, Nat.sqrt a) := by
  obtain ⟨j, hj, haj, hj16⟩ := startBit_Q a ha
  rw [hj]
  have hpow : 4 ^ j ≤ 4 ^ 16 := Nat.pow_le_pow_right (by decide) hj16
  have h416 : (4 : Nat) ^ 16 = 4294967296 := by norm_num
  have hsq : (0 + 2 ^ j) ^ 2 = 4 ^ j := by rw [Nat.zero_add, four_pow_eq]; ring
  exact digitLoop_spec j 0 a a 0 (by simp) (by simp) (by rw [hsq]; exact haj) (by omega)
    (by omega)

theorem secondPass_normal (a : Nat) (ha : a ≤ 2147483648)
    (hrem : a - (Nat.sqrt a) ^ 2 ≤ 65535) :
    digitLoop (shl32 (a - (Nat.sqrt a) ^ 2) 16) (shl32 (Nat.sqrt a) 16) (1 <<< 14)
      = (a * 65536 - (Nat.sqrt (a * 65536)) ^ 2, Nat.sqrt (a * 65536)) := by
  have hP := sqrt_bound ha
  have hle : Nat.sqrt a ^ 2 ≤ a := Nat.sqrt_le' a
  have hlt : a < (Nat.sqrt a + 1) ^ 2 := Nat.lt_succ_sqrt' a
  obtain ⟨P, hPdef⟩ : ∃ P, P = Nat.sqrt a := ⟨_, rfl⟩
  rw [← hPdef] at hP hle hlt hrem ⊢
  obtain ⟨S, hS⟩ : ∃ S, S = P ^ 2 := ⟨_, rfl⟩
  have hlt2 : a < S + 2 * P + 1 := by
    have : (P + 1) ^ 2 = P ^ 2 + 2 * P + 1 := by ring
    rw [this, ← hS] at hlt; exact hlt
  rw [← hS] at hle hrem ⊢
  rw [shl32_eq (by norm_num; omega), shl32_eq (by norm_num; omega)]
  have hbit : (1 <<< 14 : Nat) = 4 ^ 8 / 4 := by decide
  rw [hbit]
  apply digitLoop_spec 8 (P * 256) (a * 65536)
  · norm_num; ring
  · have : (P * 256) ^ 2 = S * 65536 := by rw [hS]; ring
    rw [this]; norm_num; omega
  · have : (P * 256 + 2 ^ 8) ^ 2 = (S + 2 * P + 1) * 65536 := by rw [hS]; ring
    rw [this]; omega
  · norm_num; omega
  · norm_num; omega


theorem secondPass_special (a : Nat) (ha : a ≤ 2147483648)
    (hrem : a - (Nat.sqrt a) ^ 2 > 65535) :
    digitLoop (sub32 (shl32 (sub32 (a - (Nat.sqrt a) ^ 2) (Nat.sqrt a)) 16) 0x8000)
        (add32 (shl32 (Nat.sqrt a) 16) 0x8000) (1 <<< 14)
      = (a * 65536 - 16384 - (Nat.sqrt (a * 65536 - 16384)) ^ 2,
          Nat.sqrt (a * 65536 - 16384)) := by
  have hP := sqrt_bound ha
  have hle : Nat.sqrt a ^ 2 ≤ a := Nat.sqrt_le' a
  have hlt : a < (Nat.sqrt a + 1) ^ 2 := Nat.lt_succ_sqrt' a
  obtain ⟨P, hPdef⟩ : ∃ P, P = Nat.sqrt a := ⟨_, rfl⟩
  rw [← hPdef] at hP hle hlt hrem ⊢
  obtain ⟨S, hS⟩ : ∃ S, S = P ^ 2 := ⟨_, rfl⟩
  have hlt2 : a < S + 2 * P + 1 := by
    have : (P + 1) ^ 2 = P ^ 2 + 2 * P + 1 := by ring
    rw [this, ← hS] at hlt; exact hlt
  rw [← hS] at hle hrem ⊢
  rw [sub32_eq (a := a - S) (b := P) (by omega) (by omega),
    shl32_eq (a := a - S - P) (by norm_num; omega),
    sub32_eq (by norm_num; omega) (by norm_num; omega), shl32_eq (a := P) (by norm_num; omega),
    add32_eq (by norm_num; omega)]
  have hbit : (1 <<< 14 : Nat) = 16384 := by decide
  rw [hbit, digitLoop_pos (by decide), add32_eq (by norm_num; omega)]
  have hcond : ¬ ((a - S - P) * 2 ^ 16 - 32768 ≥ P * 2 ^ 16 + 32768 + 16384) := by
    norm_num; omega
  rw [if_neg hcond]
  have hshift : (16384 : Nat) >>> 2 = 4 ^ 7 / 4 := by decide
  have hhalf : (P * 2 ^ 16 + 32768) >>> 1 = (P * 256 + 128) * 2 ^ 7 := by
    rw [Nat.shiftRight_eq_div_pow]; norm_num; omega
  rw [hshift, hhalf]
  apply digitLoop_spec 7 (P * 256 + 128) (a * 65536 - 16384)
  · rfl
  · have : (P * 256 + 128) ^ 2 = S * 65536 + P * 65536 + 16384 := by rw [hS]; ring
    rw [this]; norm_num; omega
  · have : (P * 256 + 128 + 2 ^ 7) ^ 2 = (S + 2 * P + 1) * 65536 := by rw [hS]; ring
    rw [this]; omega
  · norm_num; omega
  · norm_num; omega

theorem sqrt_scaled_bound {M : Nat} (h : M ≤ 2147483648 * 65536) : Nat.sqrt M < 16777216 :=
  Nat.sqrt_lt'.2 (by norm_num; omega)

theorem final_round (n r : Nat) (hr : r < 16777216) :
    (if n > r then add32 r 1 else r) = if n > r then r + 1 else r := by
  by_cases h : n > r
  · rw [if_pos h, if_pos h]; exact add32_eq (by omega)
  · rw [if_neg h, if_neg h]

theorem Q_sqrt_u32_spec (a : Nat) (ha : a ≤ 2147483648) :
    Q_sqrt_u32 a =
      if a - (Nat.sqrt a) ^ 2 > 65535 then roundRoot (a * 65536 - 16384)
      else roundRoot (a * 65536) := by
  unfold Q_sqrt_u32
  lift_lets
  intro result bit0 bit1 p1 p1r bit2 p2
  have h1 : p1 = (a - (Nat.sqrt a) ^ 2, Nat.sqrt a) := firstPass a ha
  by_cases hrem : a - (Nat.sqrt a) ^ 2 > 65535
  · have h2 : p2 = (a * 65536 - 16384 - (Nat.sqrt (a * 65536 - 16384)) ^ 2,
          Nat.sqrt (a * 65536 - 16384)) := by
      have := secondPass_special a ha hrem
      simp only [p2, p1r, h1, rescale, if_pos hrem, bit2]
      exact this
    have hb := sqrt_scaled_bound (M := a * 65536 - 16384) (by omega)
    rw [h2, if_pos hrem]
    unfold roundRoot
    generalize Nat.sqrt (a * 65536 - 16384) = F at hb ⊢
    exact final_round _ _ hb
  · have h2 : p2 = (a * 65536 - (Nat.sqrt (a * 65536)) ^ 2, Nat.sqrt (a * 65536)) := by
      have := secondPass_normal a ha (by omega)
      simp only [p2, p1r, h1, rescale, if_neg hrem, bit2]
      exact this
    have hb := sqrt_scaled_bound (M := a * 65536) (by omega)
    rw [h2, if_neg hrem]
    unfold roundRoot
    generalize Nat.sqrt (a * 65536) = F at hb ⊢
    exact final_round _ _ hb


theorem roundRoot_le (M : Nat) : roundRoot M ≤ Nat.sqrt M + 1 := by
  unfold roundRoot
  generalize Nat.sqrt M = F
  split <;> omega

theorem roundRoot_sq_bounds (M : Nat) :
    roundRoot M * roundRoot M ≤ M + (roundRoot M - 1)
    ∧ M ≤ roundRoot M * roundRoot M + roundRoot M := by
  have h1 : Nat.sqrt M * Nat.sqrt M ≤ M := Nat.sqrt_le M
  have h2 : M < (Nat.sqrt M + 1) * (Nat.sqrt M + 1) := Nat.lt_succ_sqrt M
  unfold roundRoot
  generalize Nat.sqrt M = F at h1 h2 ⊢
  have e1 : (F + 1) * (F + 1) = F * F + 2 * F + 1 := by ring
  have e2 : F ^ 2 = F * F := by ring
  rw [e1] at h2
  rw [e2]
  by_cases h : M - F * F > F
  · rw [if_pos h, e1]; omega
  · rw [if_neg h]; omega

theorem roundRoot_square (n : Nat) : roundRoot (n * n) = n := by
  unfold roundRoot
  rw [Nat.sqrt_eq, if_neg]
  have : n ^ 2 = n * n := by ring
  omega

theorem Q_sqrt_u32_lt (a : Nat) (ha : a ≤ 2147483648) : Q_sqrt_u32 a ≤ 16777216 := by
  rw [Q_sqrt_u32_spec a ha]
  split
  · have := roundRoot_le (a * 65536 - 16384)
    have := sqrt_scaled_bound (M := a * 65536 - 16384) (by omega)
    omega
  · have := roundRoot_le (a * 65536)
    have := sqrt_scaled_bound (M := a * 65536) (by omega)
    omega

theorem toQ_small (u : Nat) (h : u < 2147483648) : toQ u = (u : Int) := by
  unfold toQ
  rw [Nat.mod_eq_of_lt (by omega), if_pos h]

theorem toQ_neg32 (u : Nat) (h : u < 2147483648) : toQ (neg32 u) = -(u : Int) := by
  unfold toQ neg32 sub32
  by_cases h0 : u = 0
  · subst h0; decide
  · have e : (0 % 4294967296 + 4294967296 - u % 4294967296) % 4294967296 = 4294967296 - u := by
      omega
    rw [e, Nat.mod_eq_of_lt (by omega), if_neg (by omega)]
    omega

theorem toU32_nonneg (x : Int) (h0 : 0 ≤ x) (h1 : x < 4294967296) : toU32 x = x.toNat := by
  unfold toU32
  rw [Int.emod_eq_of_lt h0 h1]

theorem negQ_eq (x : Int) (h0 : -2147483648 < x) (h1 : x ≤ 2147483648) : negQ x = -x := by
  unfold negQ toQ toU32
  by_cases hx : 0 < x
  · have e : (-x) % 4294967296 = 4294967296 - x := by omega
    rw [e]
    have e2 : (4294967296 - x).toNat % 4294967296 = (4294967296 - x).toNat :=
      Nat.mod_eq_of_lt (by omega)
    rw [e2, if_neg (by omega)]
    omega
  · have e : (-x) % 4294967296 = -x := Int.emod_eq_of_lt (by omega) (by omega)
    rw [e]
    have e2 : (-x).toNat % 4294967296 = (-x).toNat := Nat.mod_eq_of_lt (by omega)
    rw [e2, if_pos (by omega)]
    omega

theorem Q_sqrt_nonneg (v : Int) (h0 : 0 ≤ v) (h1 : v ≤ 2147483647) :
    Q_sqrt v = (Q_sqrt_u32 v.toNat : Int) := by
  unfold Q_sqrt
  have hneg : decide (v < 0) = false := by simp; omega
  simp only [hneg]
  have hb := Q_sqrt_u32_lt v.toNat (by omega)
  simp only [Bool.false_eq_true, if_false]
  rw [toU32_nonneg v h0 (by omega)]
  exact toQ_small _ (by omega)

theorem Q_sqrt_neg (v : Int) (h0 : v < 0) (h1 : -2147483648 ≤ v) :
    Q_sqrt v = -(Q_sqrt_u32 (-v).toNat : Int) := by
  unfold Q_sqrt
  have hneg : decide (v < 0) = true := by simp; omega
  simp only [hneg, if_true]
  have hu : toU32 (negQ v) = (-v).toNat := by
    by_cases hm : v = -2147483648
    · subst hm; decide
    · rw [negQ_eq v (by omega) (by omega)]
      exact toU32_nonneg (-v) (by omega) (by omega)
  rw [hu]
  have hb := Q_sqrt_u32_lt (-v).toNat (by omega)
  exact toQ_neg32 _ (by omega)

theorem Q_sqrt_u32_at_1090650238 : Q_sqrt_u32 1090650238 = 8454398 := by
  have h0 : (1090650238 &&& 0xFFF00000) = 1090519040 := by decide
  have h1 : startBit 1073741824 1090650238 = 1073741824 := by simp [startBit]
  have h2 : digitLoop 1090650238 0 1073741824 = (65662, 33024) := by
    simp [digitLoop, add32, sub32]
  have h3 : rescale 65662 33024 = (2138931200, 2164293632) := by
    simp [rescale, add32, sub32, shl32]
  have h4 : digitLoop 2138931200 2164293632 16384 = (8438780, 8454398) := by
    simp [digitLoop, add32, sub32]
  simp [Q_sqrt_u32, h0, h1, h2, h3, h4, add32]

theorem Q_sqrt_u32_at_2147483648 : Q_sqrt_u32 2147483648 = 11863283 := by
  have h0 : (2147483648 &&& 0xFFF00000) = 2147483648 := by decide
  have h1 : startBit 1073741824 2147483648 = 1073741824 := by simp [startBit]
  have h2 : digitLoop 2147483648 0 1073741824 = (88048, 46340) := by
    simp [digitLoop, add32, sub32]
  have h3 : rescale 88048 46340 = (2733342720, 3036971008) := by
    simp [rescale, add32, sub32, shl32]
  have h4 : digitLoop 2733342720 3036971008 16384 = (4800855, 11863283) := by
    simp [digitLoop, add32, sub32]
  simp [Q_sqrt_u32, h0, h1, h2, h3, h4, add32]

theorem Q_sqrt_u32_at_148001 : Q_sqrt_u32 148001 = 98485 := by
  have h0 : (148001 &&& 0xFFF00000) = 0 := by decide
  have h1 : startBit 262144 148001 = 65536 := by simp [startBit]
  have h2 : digitLoop 148001 0 65536 = (545, 384) := by
    simp [digitLoop, add32, sub32]
  have h3 : rescale 545 384 = (35717120, 25165824) := by
    simp [rescale, add32, sub32, shl32]
  have h4 : digitLoop 35717120 25165824 16384 = (98311, 98485) := by
    simp [digitLoop, add32, sub32]
  simp [Q_sqrt_u32, h0, h1, h2, h3, h4, add32]

/-! ## main.c : effect of the handlers on the state machine -/

section WorldLemmas
variable {F C : Type} (P : Platform F C)

theorem set_world_mode_same (m : WorldMode) (w : World F C) (h : m = w.s_world_mode) :
    set_world_mode P m w = w := by
  rw [set_world_mode]; simp [h]

theorem set_world_mode_PARK (w : World F C) (h : w.s_world_mode ≠ WORLD_MODE_PARK) :
    set_world_mode P WORLD_MODE_PARK w =
      { w with s_world_mode := WORLD_MODE_PARK, park_animStep := ANIMATION_SPIN_STEPS,
               park_animRange := P.fsub w.s_spin_rotation (SPIN_ROTATION_STEADY P) } := by
  rw [set_world_mode]; simp [Ne.symm h]

theorem set_world_mode_DYNAMIC (w : World F C) (h : w.s_world_mode ≠ WORLD_MODE_DYNAMIC) :
    set_world_mode P WORLD_MODE_DYNAMIC w =
      { w with s_world_mode := WORLD_MODE_DYNAMIC, s_user_secondsInactive := 0 } := by
  rw [set_world_mode]; simp [Ne.symm h]

theorem set_world_mode_STEADY (w : World F C) (h : w.s_world_mode ≠ WORLD_MODE_STEADY) :
    set_world_mode P WORLD_MODE_STEADY w =
      { w with s_world_mode := WORLD_MODE_STEADY, tickSubscription := some MINUTE_UNIT,
               accelDataSubscribed := false, s_spin_rotation := SPIN_ROTATION_STEADY P,
               s_cam := some ⟨P.CAM3D_VIEWPOINT_STEADY, SPIN_ROTATION_STEADY P⟩ } := by
  rw [set_world_mode]; simp [Ne.symm h, cam_config]

theorem set_world_mode_UNDEFINED (w : World F C) (h : w.s_world_mode ≠ WORLD_MODE_UNDEFINED) :
    set_world_mode P WORLD_MODE_UNDEFINED w = { w with s_world_mode := WORLD_MODE_UNDEFINED } := by
  rw [set_world_mode]; simp [Ne.symm h]

theorem set_world_mode_LAUNCH (w : World F C) (h : w.s_world_mode ≠ WORLD_MODE_LAUNCH) :
    set_world_mode P WORLD_MODE_LAUNCH w =
      clock_updateTime P
        { w with s_world_mode := WORLD_MODE_LAUNCH, launch_animStep := ANIMATION_SPIN_STEPS,
                 accelDataSubscribed := true, tickSubscription := some SECOND_UNIT } := by
  rw [set_world_mode]; simp [Ne.symm h]

@[simp]
theorem world_update_sample_s_clock (peek : AccelPeek) (w : World F C) :
    (world_update_sample P peek w).s_clock = w.s_clock := by
  unfold world_update_sample push_attractor push_reading
  split_ifs <;> rfl

@[simp]
theorem world_update_sample_s_world_mode (peek : AccelPeek) (w : World F C) :
    (world_update_sample P peek w).s_world_mode = w.s_world_mode := by
  unfold world_update_sample push_attractor push_reading
  split_ifs <;> rfl

@[simp]
theorem world_update_sample_s_world_updateTimer (peek : AccelPeek) (w : World F C) :
    (world_update_sample P peek w).s_world_updateTimer = w.s_world_updateTimer := by
  unfold world_update_sample push_attractor push_reading
  split_ifs <;> rfl

@[simp]
theorem world_update_sample_s_user_secondsInactive (peek : AccelPeek) (w : World F C) :
    (world_update_sample P peek w).s_user_secondsInactive = w.s_user_secondsInactive := by
  unfold world_update_sample push_attractor push_reading
  split_ifs <;> rfl

@[simp]
theorem world_update_sample_s_spin_speed (peek : AccelPeek) (w : World F C) :
    (world_update_sample P peek w).s_spin_speed = w.s_spin_speed := by
  unfold world_update_sample push_attractor push_reading
  split_ifs <;> rfl

@[simp]
theorem world_update_sample_s_spin_rotation (peek : AccelPeek) (w : World F C) :
    (world_update_sample P peek w).s_spin_rotation = w.s_spin_rotation := by
  unfold world_update_sample push_attractor push_reading
  split_ifs <;> rfl

@[simp]
theorem world_update_sample_s_cam (peek : AccelPeek) (w : World F C) :
    (world_update_sample P peek w).s_cam = w.s_cam := by
  unfold world_update_sample push_attractor push_reading
  split_ifs <;> rfl

@[simp]
theorem world_update_sample_park_animStep (peek : AccelPeek) (w : World F C) :
    (world_update_sample P peek w).park_animStep = w.park_animStep := by
  unfold world_update_sample push_attractor push_reading
  split_ifs <;> rfl

@[simp]
theorem world_update_sample_park_animRange (peek : AccelPeek) (w : World F C) :
    (world_update_sample P peek w).park_animRange = w.park_animRange := by
  unfold world_update_sample push_attractor push_reading
  split_ifs <;> rfl

@[simp]
theorem world_update_sample_launch_animStep (peek : AccelPeek) (w : World F C) :
    (world_update_sample P peek w).launch_animStep = w.launch_animStep := by
  unfold world_update_sample push_attractor push_reading
  split_ifs <;> rfl

@[simp]
theorem world_update_sample_launch_animRange (peek : AccelPeek) (w : World F C) :
    (world_update_sample P peek w).launch_animRange = w.launch_animRange := by
  unfold world_update_sample push_attractor push_reading
  split_ifs <;> rfl

@[simp]
theorem world_update_sample_now (peek : AccelPeek) (w : World F C) :
    (world_update_sample P peek w).now = w.now := by
  unfold world_update_sample push_attractor push_reading
  split_ifs <;> rfl

@[simp]
theorem world_update_sample_timers (peek : AccelPeek) (w : World F C) :
    (world_update_sample P peek w).timers = w.timers := by
  unfold world_update_sample push_attractor push_reading
  split_ifs <;> rfl

@[simp]
theorem world_update_sample_nextHandle (peek : AccelPeek) (w : World F C) :
    (world_update_sample P peek w).nextHandle = w.nextHandle := by
  unfold world_update_sample push_attractor push_reading
  split_ifs <;> rfl

@[simp]
theorem world_update_sample_tickSubscription (peek : AccelPeek) (w : World F C) :
    (world_update_sample P peek w).tickSubscription = w.tickSubscription := by
  unfold world_update_sample push_attractor push_reading
  split_ifs <;> rfl

@[simp]
theorem world_update_sample_accelDataSubscribed (peek : AccelPeek) (w : World F C) :
    (world_update_sample P peek w).accelDataSubscribed = w.accelDataSubscribed := by
  unfold world_update_sample push_attractor push_reading
  split_ifs <;> rfl

@[simp]
theorem world_update_sample_accelTapSubscribed (peek : AccelPeek) (w : World F C) :
    (world_update_sample P peek w).accelTapSubscribed = w.accelTapSubscribed := by
  unfold world_update_sample push_attractor push_reading
  split_ifs <;> rfl

@[simp]
theorem world_update_sample_redrawRequests (peek : AccelPeek) (w : World F C) :
    (world_update_sample P peek w).redrawRequests = w.redrawRequests := by
  unfold world_update_sample push_attractor push_reading
  split_ifs <;> rfl

theorem clock_updateTime_eq (w : World F C) :
    clock_updateTime P w = tick_timer_service_handler P w.now 0 w := by
  rw [clock_updateTime]

theorem incr_int32_small (x : Int) (h0 : 0 ≤ x) (h1 : x < 2147483647) : incr_int32 x = x + 1 := by
  unfold incr_int32 toQ toU32
  have h2 : (x + 1) % 4294967296 = x + 1 := Int.emod_eq_of_lt (by omega) (by omega)
  rw [h2]
  have h3 : (x + 1).toNat % 4294967296 = (x + 1).toNat := Nat.mod_eq_of_lt (by omega)
  rw [h3, if_pos (by omega)]
  omega

theorem tick_mode (t : Tm) (u : Nat) (w : World F C) :
    (tick_timer_service_handler P t u w).s_world_mode =
      if w.s_world_mode = WORLD_MODE_DYNAMIC ∧
          (if w.s_spin_speed = 0 then incr_int32 w.s_user_secondsInactive
            else w.s_user_secondsInactive) > USER_SECONDSINACTIVE_MAX
      then WORLD_MODE_PARK else w.s_world_mode := by
  rw [tick_timer_service_handler]
  by_cases hd : w.s_world_mode = WORLD_MODE_DYNAMIC
  · by_cases hs : w.s_spin_speed = 0
    · by_cases h5 : incr_int32 w.s_user_secondsInactive > USER_SECONDSINACTIVE_MAX
      · simp [hd, hs, h5, set_world_mode_PARK, app_timer_reschedule, app_timer_register]
        split <;> simp
      · simp [hd, hs, h5, set_world_mode_PARK, app_timer_reschedule, app_timer_register]
        split <;> simp [hd]
    · by_cases h5 : w.s_user_secondsInactive > USER_SECONDSINACTIVE_MAX
      · simp [hd, hs, h5, set_world_mode_PARK, app_timer_reschedule, app_timer_register]
        split <;> simp
      · simp [hd, hs, h5, set_world_mode_PARK, app_timer_reschedule, app_timer_register]
        split <;> simp [hd]
  · simp [hd, app_timer_reschedule, app_timer_register]
    split <;> simp

/-- Outside Dynamic the tick handler leaves every field of the state machine alone. -/
theorem tick_not_dynamic (t : Tm) (u : Nat) (w : World F C)
    (hd : w.s_world_mode ≠ WORLD_MODE_DYNAMIC) :
    (tick_timer_service_handler P t u w).s_world_mode = w.s_world_mode
    ∧ (tick_timer_service_handler P t u w).park_animStep = w.park_animStep
    ∧ (tick_timer_service_handler P t u w).launch_animStep = w.launch_animStep
    ∧ (tick_timer_service_handler P t u w).s_spin_speed = w.s_spin_speed
    ∧ (tick_timer_service_handler P t u w).s_user_secondsInactive = w.s_user_secondsInactive
    ∧ (tick_timer_service_handler P t u w).s_spin_rotation = w.s_spin_rotation
    ∧ (tick_timer_service_handler P t u w).launch_animRange = w.launch_animRange
    ∧ (tick_timer_service_handler P t u w).park_animRange = w.park_animRange := by
  rw [tick_timer_service_handler]
  simp [hd, app_timer_reschedule, app_timer_register]
  split <;> simp

/-- In Dynamic with the wheel at rest and the counter below the threshold, a tick counts one
more inactive second and nothing else of the state machine changes. -/
theorem tick_dynamic_idle (t : Tm) (u : Nat) (w : World F C)
    (hd : w.s_world_mode = WORLD_MODE_DYNAMIC) (hs : w.s_spin_speed = 0)
    (h0 : 0 ≤ w.s_user_secondsInactive) (h5 : w.s_user_secondsInactive < 5) :
    (tick_timer_service_handler P t u w).s_world_mode = WORLD_MODE_DYNAMIC
    ∧ (tick_timer_service_handler P t u w).s_spin_speed = 0
    ∧ (tick_timer_service_handler P t u w).s_user_secondsInactive
        = w.s_user_secondsInactive + 1 := by
  have hi := incr_int32_small w.s_user_secondsInactive h0 (by omega)
  have hn : ¬ (w.s_user_secondsInactive + 1 > USER_SECONDSINACTIVE_MAX) := by
    unfold USER_SECONDSINACTIVE_MAX; omega
  rw [tick_timer_service_handler]
  simp [hd, hs, hi, hn, app_timer_reschedule, app_timer_register]
  split <;> simp [hd, hs]

/-- In Dynamic with the wheel at rest and the counter at the threshold, a tick parks. -/
theorem tick_dynamic_timeout (t : Tm) (u : Nat) (w : World F C)
    (hd : w.s_world_mode = WORLD_MODE_DYNAMIC) (hs : w.s_spin_speed = 0)
    (h5 : w.s_user_secondsInactive = 5) :
    (tick_timer_service_handler P t u w).s_world_mode = WORLD_MODE_PARK := by
  rw [tick_mode, if_pos]
  refine ⟨hd, ?_⟩
  rw [if_pos hs, incr_int32_small _ (by omega) (by omega), h5]
  decide

@[simp]
theorem set_world_mode_mode (m : WorldMode) (w : World F C) :
    (set_world_mode P m w).s_world_mode = m := by
  by_cases h : m = w.s_world_mode
  · rw [set_world_mode_same P m w h, h]
  · cases m
    · rw [set_world_mode_UNDEFINED P w (Ne.symm h)]
    · rw [set_world_mode_LAUNCH P w (Ne.symm h), clock_updateTime_eq, tick_mode]
      simp
    · rw [set_world_mode_DYNAMIC P w (Ne.symm h)]
    · rw [set_world_mode_PARK P w (Ne.symm h)]
    · rw [set_world_mode_STEADY P w (Ne.symm h)]

theorem tap_mode (axis : AccelAxisType) (d : Int) (w : World F C) :
    (accel_tap_service_handler P axis d w).s_world_mode =
      if w.s_world_mode = WORLD_MODE_STEADY ∧ axis = ACCEL_AXIS_Y then WORLD_MODE_LAUNCH
      else w.s_world_mode := by
  unfold accel_tap_service_handler
  cases hm : w.s_world_mode <;> cases axis <;>
    simp [hm, clock_updateTime_eq, tick_mode]


/-- A tap outside Steady leaves the mode and both step counters alone. -/
theorem tap_not_steady (axis : AccelAxisType) (d : Int) (w : World F C)
    (hm : w.s_world_mode ≠ WORLD_MODE_STEADY) :
    (accel_tap_service_handler P axis d w).s_world_mode = w.s_world_mode
    ∧ (accel_tap_service_handler P axis d w).park_animStep = w.park_animStep
    ∧ (accel_tap_service_handler P axis d w).launch_animStep = w.launch_animStep := by
  unfold accel_tap_service_handler
  cases hw : w.s_world_mode <;> cases axis <;> simp_all

theorem rotation_dynamic_mode (w : World F C) (hw : w.s_world_mode = WORLD_MODE_DYNAMIC) :
    (world_update_rotation P w).2.s_world_mode = WORLD_MODE_DYNAMIC := by
  unfold world_update_rotation
  simp only [hw]
  split_ifs <;> simp [hw]

theorem world_update_mode (peek : AccelPeek) (w : World F C) :
    (world_update P peek w).s_world_mode =
      match w.s_world_mode with
      | WORLD_MODE_LAUNCH =>
        if w.launch_animStep ≥ 0 then WORLD_MODE_LAUNCH else WORLD_MODE_DYNAMIC
      | WORLD_MODE_PARK =>
        if w.park_animStep ≥ 0 then WORLD_MODE_PARK else WORLD_MODE_STEADY
      | m => m := by
  unfold world_update
  cases hw : w.s_world_mode
  · simp [hw, cam_config, world_update_rotation]
  · by_cases hs : 0 ≤ w.launch_animStep
    · simp [hw, hs, cam_config, world_update_rotation]
    · simp [hw, hs, cam_config, world_update_rotation]
  · simp [hw, cam_config, rotation_dynamic_mode]
  · by_cases hs : 0 ≤ w.park_animStep
    · simp [hw, hs, cam_config, world_update_rotation]
    · simp [hw, hs, cam_config, world_update_rotation]
  · simp [hw]

/-- A Launch frame whose step counter is not yet negative only counts the step down. -/
theorem world_update_launch_step (peek : AccelPeek) (w : World F C)
    (hm : w.s_world_mode = WORLD_MODE_LAUNCH) (hs : 0 ≤ w.launch_animStep) :
    (world_update P peek w).s_world_mode = WORLD_MODE_LAUNCH
    ∧ (world_update P peek w).launch_animStep = w.launch_animStep - 1
    ∧ (world_update P peek w).launch_animRange = w.launch_animRange := by
  unfold world_update world_update_rotation
  simp [hm, hs, cam_config]

/-- A Launch frame whose step counter is negative snaps the rotation and enters Dynamic. -/
theorem world_update_launch_done (peek : AccelPeek) (w : World F C)
    (hm : w.s_world_mode = WORLD_MODE_LAUNCH) (hs : w.launch_animStep < 0) :
    (world_update P peek w).s_world_mode = WORLD_MODE_DYNAMIC
    ∧ (world_update P peek w).s_spin_rotation
        = P.fadd (SPIN_ROTATION_STEADY P) w.launch_animRange := by
  unfold world_update world_update_rotation
  have hs2 : ¬ (0 ≤ w.launch_animStep) := by omega
  simp [hm, hs2, cam_config, set_world_mode_DYNAMIC]

/-- A Park frame whose step counter is not yet negative only counts the step down. -/
theorem world_update_park_step (peek : AccelPeek) (w : World F C)
    (hm : w.s_world_mode = WORLD_MODE_PARK) (hs : 0 ≤ w.park_animStep) :
    (world_update P peek w).s_world_mode = WORLD_MODE_PARK
    ∧ (world_update P peek w).park_animStep = w.park_animStep - 1 := by
  unfold world_update world_update_rotation
  simp [hm, hs, cam_config]

/-- A Park frame whose step counter is negative enters Steady at the steady rotation. -/
theorem world_update_park_done (peek : AccelPeek) (w : World F C)
    (hm : w.s_world_mode = WORLD_MODE_PARK) (hs : w.park_animStep < 0) :
    (world_update P peek w).s_world_mode = WORLD_MODE_STEADY
    ∧ (world_update P peek w).s_spin_rotation = SPIN_ROTATION_STEADY P := by
  unfold world_update world_update_rotation
  have hs2 : ¬ (0 ≤ w.park_animStep) := by omega
  simp [hm, hs2, cam_config, set_world_mode_STEADY]

/-- A Dynamic frame with the wheel at rest changes nothing of the state machine. -/
theorem world_update_dynamic_idle (peek : AccelPeek) (w : World F C)
    (hm : w.s_world_mode = WORLD_MODE_DYNAMIC) (hs : w.s_spin_speed = 0) :
    (world_update P peek w).s_world_mode = WORLD_MODE_DYNAMIC
    ∧ (world_update P peek w).s_spin_speed = 0
    ∧ (world_update P peek w).s_user_secondsInactive = w.s_user_secondsInactive := by
  unfold world_update world_update_rotation
  simp [hm, hs, cam_config]

/-- The timer handler runs world_update on the world whose timer pointer is cleared, and
then touches only the timer pointer and the host registry. -/
theorem timer_handler_fields (peek : AccelPeek) (w : World F C) :
    (world_update_timer_handler P peek w).s_world_mode
        = (world_update P peek { w with s_world_updateTimer := none }).s_world_mode
    ∧ (world_update_timer_handler P peek w).park_animStep
        = (world_update P peek { w with s_world_updateTimer := none }).park_animStep
    ∧ (world_update_timer_handler P peek w).launch_animStep
        = (world_update P peek { w with s_world_updateTimer := none }).launch_animStep
    ∧ (world_update_timer_handler P peek w).s_spin_speed
        = (world_update P peek { w with s_world_updateTimer := none }).s_spin_speed
    ∧ (world_update_timer_handler P peek w).s_user_secondsInactive
        = (world_update P peek { w with s_world_updateTimer := none }).s_user_secondsInactive
    ∧ (world_update_timer_handler P peek w).s_spin_rotation
        = (world_update P peek { w with s_world_updateTimer := none }).s_spin_rotation := by
  unfold world_update_timer_handler app_timer_register
  simp only []
  split_ifs <;> simp

/-- Dropping the fired timer touches only the host registry. -/
theorem app_timer_fired_fields (w : World F C) :
    (app_timer_fired w).s_world_mode = w.s_world_mode
    ∧ (app_timer_fired w).park_animStep = w.park_animStep
    ∧ (app_timer_fired w).launch_animStep = w.launch_animStep
    ∧ (app_timer_fired w).s_spin_speed = w.s_spin_speed
    ∧ (app_timer_fired w).s_user_secondsInactive = w.s_user_secondsInactive
    ∧ (app_timer_fired w).s_spin_rotation = w.s_spin_rotation := by
  unfold app_timer_fired app_timer_cancel
  split <;> simp


theorem world_updates_append (a b : List AccelPeek) (w : World F C) :
    world_updates P (a ++ b) w = world_updates P b (world_updates P a w) := by
  induction a generalizing w with
  | nil => rfl
  | cons p ps ih => simp [world_updates, ih]

/-- While the launch counter lasts, frame updates keep the mode and count the step down. -/
theorem launch_progress (peeks : List AccelPeek) : ∀ w : World F C,
    w.s_world_mode = WORLD_MODE_LAUNCH → (peeks.length : Int) ≤ w.launch_animStep + 1 →
    (world_updates P peeks w).s_world_mode = WORLD_MODE_LAUNCH
    ∧ (world_updates P peeks w).launch_animStep = w.launch_animStep - peeks.length
    ∧ (world_updates P peeks w).launch_animRange = w.launch_animRange := by
  induction peeks with
  | nil => intro w hm _; simp [world_updates, hm]
  | cons p ps ih =>
    intro w hm hlen
    simp only [List.length_cons, Nat.cast_add, Nat.cast_one] at hlen
    obtain ⟨h1, h2, h3⟩ := world_update_launch_step P p w hm (by omega)
    obtain ⟨i1, i2, i3⟩ := ih (world_update P p w) h1 (by omega)
    simp only [world_updates, List.length_cons, Nat.cast_add, Nat.cast_one]
    exact ⟨i1, by omega, by rw [i3, h3]⟩

/-- What one event does to a parked world. -/
theorem event_park (e : Event) (w : World F C) (hm : w.s_world_mode = WORLD_MODE_PARK) :
    (e.isFrame = true → 0 ≤ w.park_animStep →
      (e.handle P w).s_world_mode = WORLD_MODE_PARK
      ∧ (e.handle P w).park_animStep = w.park_animStep - 1)
    ∧ (e.isFrame = true → w.park_animStep < 0 →
      (e.handle P w).s_world_mode = WORLD_MODE_STEADY
      ∧ (e.handle P w).s_spin_rotation = SPIN_ROTATION_STEADY P)
    ∧ (e.isFrame = false →
      (e.handle P w).s_world_mode = WORLD_MODE_PARK
      ∧ (e.handle P w).park_animStep = w.park_animStep) := by
  cases e with
  | tap axis d now =>
    have h := tap_not_steady P axis d { w with now := now } (by simp [hm])
    refine ⟨fun hf => ?_, fun hf => ?_, fun _ => ⟨h.1.trans hm, h.2.1⟩⟩
    · simp [Event.isFrame] at hf
    · simp [Event.isFrame] at hf
  | tick t u =>
    have h := tick_not_dynamic P t u w (by simp [hm])
    refine ⟨fun hf => ?_, fun hf => ?_, fun _ => ⟨h.1.trans hm, h.2.1⟩⟩
    · simp [Event.isFrame] at hf
    · simp [Event.isFrame] at hf
  | update peek =>
    refine ⟨fun _ hs => ?_, fun _ hs => ?_, fun hf => ?_⟩
    · exact world_update_park_step P peek w hm hs
    · exact world_update_park_done P peek w hm hs
    · simp [Event.isFrame] at hf
  | timer peek =>
    obtain ⟨f1, f2, -, -, -, f6⟩ := timer_handler_fields P peek (app_timer_fired w)
    obtain ⟨g1, g2, -, -, -, -⟩ := app_timer_fired_fields w
    refine ⟨fun _ hs => ?_, fun _ hs => ?_, fun hf => ?_⟩
    · have := world_update_park_step P peek { app_timer_fired w with s_world_updateTimer := none }
        (by simp [g1, hm]) (by simp [g2, hs])
      simp only [Event.handle, f1, f2, this.1, this.2]
      simp [g2]
    · have := world_update_park_done P peek { app_timer_fired w with s_world_updateTimer := none }
        (by simp [g1, hm]) (by simp [g2, hs])
      simp only [Event.handle, f1, f6, this.1, this.2]
      simp
    · simp [Event.isFrame] at hf

theorem run_append (a b : List Event) (w : World F C) :
    run P (a ++ b) w = run P b (run P a w) := by
  induction a generalizing w with
  | nil => rfl
  | cons e es ih => simp [run, ih]

/-- While the park counter lasts, the world stays parked whatever else happens. -/
theorem park_progress (es : List Event) : ∀ w : World F C,
    w.s_world_mode = WORLD_MODE_PARK →
    ((es.countP Event.isFrame : Nat) : Int) ≤ w.park_animStep + 1 →
    (run P es w).s_world_mode = WORLD_MODE_PARK
    ∧ (run P es w).park_animStep = w.park_animStep - (es.countP Event.isFrame : Nat) := by
  induction es with
  | nil => intro w hm _; simp [run, hm]
  | cons e es ih =>
    intro w hm hc
    obtain ⟨h1, -, h3⟩ := event_park P e w hm
    by_cases hf : e.isFrame = true
    · rw [List.countP_cons_of_pos _ _ hf] at hc ⊢
      simp only [Nat.cast_add, Nat.cast_one] at hc ⊢
      obtain ⟨k1, k2⟩ := h1 hf (by omega)
      obtain ⟨i1, i2⟩ := ih (e.handle P w) k1 (by omega)
      exact ⟨i1, by rw [run, i2, k2]; omega⟩
    · rw [List.countP_cons_of_neg _ _ hf] at hc ⊢
      obtain ⟨k1, k2⟩ := h3 (by simpa using hf)
      obtain ⟨i1, i2⟩ := ih (e.handle P w) k1 (by omega)
      exact ⟨i1, by rw [run, i2, k2]⟩

/-- What one event other than a tap does to an idle Dynamic world. -/
theorem event_dynamic_idle (e : Event) (w : World F C)
    (hm : w.s_world_mode = WORLD_MODE_DYNAMIC) (hs : w.s_spin_speed = 0)
    (h0 : 0 ≤ w.s_user_secondsInactive) (hnt : e.isTap = false) :
    (e.isTick = true → w.s_user_secondsInactive < 5 →
      (e.handle P w).s_world_mode = WORLD_MODE_DYNAMIC ∧ (e.handle P w).s_spin_speed = 0
      ∧ (e.handle P w).s_user_secondsInactive = w.s_user_secondsInactive + 1)
    ∧ (e.isTick = false →
      (e.handle P w).s_world_mode = WORLD_MODE_DYNAMIC ∧ (e.handle P w).s_spin_speed = 0
      ∧ (e.handle P w).s_user_secondsInactive = w.s_user_secondsInactive) := by
  cases e with
  | tap axis d now => simp [Event.isTap] at hnt
  | tick t u =>
    refine ⟨fun _ h5 => ?_, fun hf => ?_⟩
    · exact tick_dynamic_idle P t u w hm hs h0 h5
    · simp [Event.isTick] at hf
  | update peek =>
    refine ⟨fun hf => ?_, fun _ => ?_⟩
    · simp [Event.isTick] at hf
    · exact world_update_dynamic_idle P peek w hm hs
  | timer peek =>
    obtain ⟨f1, -, -, f4, f5, -⟩ := timer_handler_fields P peek (app_timer_fired w)
    obtain ⟨g1, -, -, g4, g5, -⟩ := app_timer_fired_fields w
    refine ⟨fun hf => ?_, fun _ => ?_⟩
    · simp [Event.isTick] at hf
    · have := world_update_dynamic_idle P peek
        { app_timer_fired w with s_world_updateTimer := none } (by simp [g1, hm]) (by simp [g4, hs])
      simp only [Event.handle, f1, f4, f5, this.1, this.2.1, this.2.2]
      simp [g5]

/-- Without a tap and with the wheel at rest, the world stays Dynamic until the inactivity
counter passes the threshold, and the counter counts the ticks. -/
theorem dynamic_progress (es : List Event) : ∀ w : World F C,
    w.s_world_mode = WORLD_MODE_DYNAMIC → w.s_spin_speed = 0 → 0 ≤ w.s_user_secondsInactive →
    es.all (fun e => !e.isTap) = true →
    w.s_user_secondsInactive + (es.countP Event.isTick : Nat) ≤ 5 →
    (run P es w).s_world_mode = WORLD_MODE_DYNAMIC ∧ (run P es w).s_spin_speed = 0
    ∧ (run P es w).s_user_secondsInactive
        = w.s_user_secondsInactive + (es.countP Event.isTick : Nat) := by
  induction es with
  | nil => intro w hm hs _ _ _; simp [run, hm, hs]
  | cons e es ih =>
    intro w hm hs h0 hall hc
    simp only [List.all_cons, Bool.and_eq_true, Bool.not_eq_true'] at hall
    obtain ⟨h1, h2⟩ := event_dynamic_idle P e w hm hs h0 hall.1
    by_cases hf : e.isTick = true
    · rw [List.countP_cons_of_pos _ _ hf] at hc ⊢
      simp only [Nat.cast_add, Nat.cast_one] at hc ⊢
      obtain ⟨k1, k2, k3⟩ := h1 hf (by omega)
      obtain ⟨i1, i2, i3⟩ := ih (e.handle P w) k1 k2 (by omega) hall.2 (by omega)
      exact ⟨i1, i2, by rw [run, i3, k3]; omega⟩
    · rw [List.countP_cons_of_neg _ _ hf] at hc ⊢
      obtain ⟨k1, k2, k3⟩ := h2 (by simpa using hf)
      obtain ⟨i1, i2, i3⟩ := ih (e.handle P w) k1 k2 (by omega) hall.2 (by omega)
      exact ⟨i1, i2, by rw [run, i3, k3]⟩

theorem countP_take_le (p : Event → Bool) (es : List Event) (k : Nat) :
    (es.take k).countP p ≤ es.countP p :=
  (List.take_sublist k es).countP_le p

theorem all_take (p : Event → Bool) (es : List Event) (k : Nat) (h : es.all p = true) :
    (es.take k).all p = true := by
  rw [List.all_eq_true] at h ⊢
  intro x hx
  exact h x (List.mem_of_mem_take hx)

end WorldLemmas

/-! ## main.c : timers, step counters and samplers -/

section TimerLemmas
variable {F C : Type} (P : Platform F C)

/-- Entering any mode but Launch leaves the timer pointer and the host registry alone. -/
theorem set_world_mode_timers (m : WorldMode) (w : World F C) (h : m ≠ WORLD_MODE_LAUNCH) :
    (set_world_mode P m w).timers = w.timers
    ∧ (set_world_mode P m w).s_world_updateTimer = w.s_world_updateTimer
    ∧ (set_world_mode P m w).nextHandle = w.nextHandle := by
  by_cases hm : m = w.s_world_mode
  · rw [set_world_mode_same P m w hm]; exact ⟨rfl, rfl, rfl⟩
  · cases m
    · rw [set_world_mode_UNDEFINED P w (Ne.symm hm)]; exact ⟨rfl, rfl, rfl⟩
    · exact absurd rfl h
    · rw [set_world_mode_DYNAMIC P w (Ne.symm hm)]; exact ⟨rfl, rfl, rfl⟩
    · rw [set_world_mode_PARK P w (Ne.symm hm)]; exact ⟨rfl, rfl, rfl⟩
    · rw [set_world_mode_STEADY P w (Ne.symm hm)]; exact ⟨rfl, rfl, rfl⟩

/-- A tick that finds a timer pointer re-arms that timer with delay 0. -/
theorem tick_timers_some (t : Tm) (u : Nat) (w : World F C) (h : Nat)
    (hp : w.s_world_updateTimer = some h) :
    (tick_timer_service_handler P t u w).s_world_updateTimer = some h
    ∧ (tick_timer_service_handler P t u w).timers
        = w.timers.map (fun x => if x.handle = h then { x with timeout_ms := 0 } else x)
    ∧ (tick_timer_service_handler P t u w).nextHandle = w.nextHandle := by
  rw [tick_timer_service_handler]
  by_cases hd : w.s_world_mode = WORLD_MODE_DYNAMIC <;>
  by_cases hs : w.s_spin_speed = 0 <;>
  by_cases h5 : incr_int32 w.s_user_secondsInactive > USER_SECONDSINACTIVE_MAX <;>
  by_cases h6 : w.s_user_secondsInactive > USER_SECONDSINACTIVE_MAX <;>
  simp [hd, hs, h5, h6, hp, set_world_mode_PARK, app_timer_reschedule]

/-- A tick that finds no timer pointer registers a new timer with delay 0. -/
theorem tick_timers_none (t : Tm) (u : Nat) (w : World F C)
    (hp : w.s_world_updateTimer = none) :
    (tick_timer_service_handler P t u w).s_world_updateTimer = some w.nextHandle
    ∧ (tick_timer_service_handler P t u w).timers = ⟨w.nextHandle, 0⟩ :: w.timers
    ∧ (tick_timer_service_handler P t u w).nextHandle = w.nextHandle + 1 := by
  rw [tick_timer_service_handler]
  by_cases hd : w.s_world_mode = WORLD_MODE_DYNAMIC <;>
  by_cases hs : w.s_spin_speed = 0 <;>
  by_cases h5 : incr_int32 w.s_user_secondsInactive > USER_SECONDSINACTIVE_MAX <;>
  by_cases h6 : w.s_user_secondsInactive > USER_SECONDSINACTIVE_MAX <;>
  simp [hd, hs, h5, h6, hp, set_world_mode_PARK, app_timer_register]


theorem timers_match_none {w : World F C} (h : timers_match w)
    (hp : w.s_world_updateTimer = none) : w.timers = [] := by
  unfold timers_match at h
  rw [hp] at h
  simpa using h

theorem timers_match_some {w : World F C} (h : timers_match w) (handle : Nat)
    (hp : w.s_world_updateTimer = some handle) :
    ∃ d, w.timers = [⟨handle, d⟩] := by
  unfold timers_match at h
  rw [hp] at h
  match hw : w.timers, h with
  | [x], h =>
    simp at h
    exact ⟨x.timeout_ms, by cases x; simp_all⟩

/-- After any tick of a world that keeps the timer discipline exactly one timer is pending,
armed with delay 0; it is the timer that was pending before, when there was one. -/
theorem tick_timers_match (t : Tm) (u : Nat) (w : World F C) (h : timers_match w) :
    timers_match (tick_timer_service_handler P t u w)
    ∧ ∃ handle, (tick_timer_service_handler P t u w).s_world_updateTimer = some handle
        ∧ (tick_timer_service_handler P t u w).timers = [⟨handle, 0⟩]
        ∧ handle = w.s_world_updateTimer.getD w.nextHandle := by
  cases hp : w.s_world_updateTimer with
  | none =>
    obtain ⟨h1, h2, -⟩ := tick_timers_none P t u w hp
    have h0 := timers_match_none h hp
    refine ⟨?_, w.nextHandle, h1, by rw [h2, h0], rfl⟩
    unfold timers_match
    rw [h1, h2, h0]
    rfl
  | some handle =>
    obtain ⟨h1, h2, -⟩ := tick_timers_some P t u w handle hp
    obtain ⟨d, hd⟩ := timers_match_some h handle hp
    have h3 : (tick_timer_service_handler P t u w).timers = [⟨handle, 0⟩] := by
      rw [h2, hd]; simp
    refine ⟨?_, handle, h1, h3, rfl⟩
    unfold timers_match
    rw [h1, h3]
    rfl

theorem clock_updateTime_timers_match (w : World F C) (h : timers_match w) :
    timers_match (clock_updateTime P w)
    ∧ ∃ handle, (clock_updateTime P w).s_world_updateTimer = some handle
        ∧ (clock_updateTime P w).timers = [⟨handle, 0⟩]
        ∧ handle = w.s_world_updateTimer.getD w.nextHandle := by
  rw [clock_updateTime_eq]
  exact tick_timers_match P w.now 0 w h

theorem set_world_mode_timers_match (m : WorldMode) (w : World F C) (h : timers_match w) :
    timers_match (set_world_mode P m w) := by
  by_cases hl : m = WORLD_MODE_LAUNCH
  · by_cases hm : m = w.s_world_mode
    · rw [set_world_mode_same P m w hm]; exact h
    · subst hl
      rw [set_world_mode_LAUNCH P w (Ne.symm hm)]
      refine (clock_updateTime_timers_match P _ ?_).1
      exact h
  · obtain ⟨h1, h2, -⟩ := set_world_mode_timers P m w hl
    unfold timers_match
    rw [h1, h2]
    exact h

theorem rotation_timers (w : World F C) :
    (world_update_rotation P w).2.timers = w.timers
    ∧ (world_update_rotation P w).2.s_world_updateTimer = w.s_world_updateTimer
    ∧ (world_update_rotation P w).2.nextHandle = w.nextHandle := by
  unfold world_update_rotation
  cases hm : w.s_world_mode
  · simp
  · by_cases hs : 0 ≤ w.launch_animStep
    · simp [hs]
    · simpa [hs] using set_world_mode_timers P WORLD_MODE_DYNAMIC _ (by decide)
  · simp only []
    split_ifs <;> simp
  · by_cases hs : 0 ≤ w.park_animStep
    · simp [hs]
    · simpa [hs] using set_world_mode_timers P WORLD_MODE_STEADY _ (by decide)
  · simp

/-- A frame update leaves the timer pointer and the host registry alone. -/
theorem world_update_timers (peek : AccelPeek) (w : World F C) :
    (world_update P peek w).timers = w.timers
    ∧ (world_update P peek w).s_world_updateTimer = w.s_world_updateTimer
    ∧ (world_update P peek w).nextHandle = w.nextHandle := by
  unfold world_update
  by_cases hm : w.s_world_mode = WORLD_MODE_STEADY
  · simp [hm]
  · simp only [ne_eq, hm, not_false_eq_true, if_true]
    split_ifs <;> simp [cam_config, rotation_timers]


theorem tap_timers_match (axis : AccelAxisType) (d : Int) (w : World F C)
    (h : timers_match w) : timers_match (accel_tap_service_handler P axis d w) := by
  unfold accel_tap_service_handler
  cases hm : w.s_world_mode <;> cases axis <;> simp only [hm]
  all_goals first
    | exact h
    | (refine (clock_updateTime_timers_match P _ ?_).1; exact h)
    | (refine set_world_mode_timers_match P _ _ ?_; exact h)

/-- The timer handler in closed form: what it leaves in the timer pointer and in the host
registry, and that the mode and the clock are those of the frame update it ran. -/
theorem timer_handler_closed (peek : AccelPeek) (w : World F C) :
    (world_update_timer_handler P peek w).s_world_mode
        = (world_update P peek { w with s_world_updateTimer := none }).s_world_mode
    ∧ (world_update_timer_handler P peek w).s_clock
        = (world_update P peek { w with s_world_updateTimer := none }).s_clock
    ∧ (world_update_timer_handler P peek w).s_world_updateTimer
        = (if (world_update P peek { w with s_world_updateTimer := none }).s_world_mode
                ≠ WORLD_MODE_STEADY
              ∨ P.Clock3D_isAnimated
                  (world_update P peek { w with s_world_updateTimer := none }).s_clock = true
            then some w.nextHandle else none)
    ∧ (world_update_timer_handler P peek w).timers
        = (if (world_update P peek { w with s_world_updateTimer := none }).s_world_mode
                ≠ WORLD_MODE_STEADY
              ∨ P.Clock3D_isAnimated
                  (world_update P peek { w with s_world_updateTimer := none }).s_clock = true
            then ⟨w.nextHandle, ANIMATION_INTERVAL_MS⟩ :: w.timers else w.timers) := by
  obtain ⟨h1, h2, h3⟩ := world_update_timers P peek { w with s_world_updateTimer := none }
  unfold world_update_timer_handler app_timer_register
  simp only []
  split_ifs <;> simp [h1, h2, h3]

theorem window_load_timers_match (w : World F C) (h : timers_match w) :
    timers_match (window_load P w) := by
  unfold window_load
  refine (clock_updateTime_timers_match P _ ?_).1
  refine set_world_mode_timers_match P _ _ ?_
  exact h

theorem fire_timers_match (t : AppTimer) (peek : AccelPeek) (w : World F C)
    (h : timers_match w) (ht : t ∈ w.timers) :
    timers_match (world_update_timer_handler P peek (app_timer_cancel t.handle w)) := by
  have hc : (app_timer_cancel t.handle w).timers = [] := by
    cases hp : w.s_world_updateTimer with
    | none => rw [timers_match_none h hp] at ht; simp at ht
    | some handle =>
      obtain ⟨d, hd⟩ := timers_match_some h handle hp
      rw [hd] at ht
      simp at ht
      subst ht
      simp [app_timer_cancel, hd]
  obtain ⟨-, -, h3, h4⟩ := timer_handler_closed P peek (app_timer_cancel t.handle w)
  unfold timers_match
  rw [h3, h4, hc]
  split_ifs <;> rfl

/-- Every reachable world keeps the frame timer discipline. -/
theorem reachable_timers_match (w : World F C) (hr : Reachable P w) : timers_match w := by
  induction hr with
  | init clock now => rfl
  | load _ ih => exact window_load_timers_match P _ ih
  | clock now _ ih => exact ih
  | tap axis d _ ih => exact tap_timers_match P axis d _ ih
  | tick t u _ ih => exact (tick_timers_match P t u _ ih).1
  | update peek _ ih =>
    obtain ⟨h1, h2, -⟩ := world_update_timers P peek _
    unfold timers_match
    rw [h1, h2]
    exact ih
  | fire t peek _ ht ih => exact fire_timers_match P t peek _ ih ht
  | mode m _ ih => exact set_world_mode_timers_match P m _ ih

end TimerLemmas

section StepLemmas
variable {F C : Type} (P : Platform F C)

/-- A tick never touches the launch counter, and either leaves the park counter alone or
sets it to ANIMATION_SPIN_STEPS. -/
theorem tick_steps (t : Tm) (u : Nat) (w : World F C) :
    (tick_timer_service_handler P t u w).launch_animStep = w.launch_animStep
    ∧ ((tick_timer_service_handler P t u w).park_animStep = w.park_animStep
      ∨ (tick_timer_service_handler P t u w).park_animStep = ANIMATION_SPIN_STEPS) := by
  rw [tick_timer_service_handler]
  cases hp : w.s_world_updateTimer <;>
  by_cases hd : w.s_world_mode = WORLD_MODE_DYNAMIC <;>
  by_cases hs : w.s_spin_speed = 0 <;>
  by_cases h5 : incr_int32 w.s_user_secondsInactive > USER_SECONDSINACTIVE_MAX <;>
  by_cases h6 : w.s_user_secondsInactive > USER_SECONDSINACTIVE_MAX <;>
  simp [hd, hs, h5, h6, hp, set_world_mode_PARK, app_timer_register, app_timer_reschedule]

theorem tick_steps_in_range (t : Tm) (u : Nat) (w : World F C) (h : steps_in_range w) :
    steps_in_range (tick_timer_service_handler P t u w) := by
  obtain ⟨h1, h2⟩ := tick_steps P t u w
  unfold steps_in_range at h ⊢
  unfold ANIMATION_SPIN_STEPS at h h2 ⊢
  rw [h1]
  rcases h2 with h2 | h2 <;> rw [h2] <;> omega

theorem set_world_mode_steps_in_range (m : WorldMode) (w : World F C)
    (h : steps_in_range w) : steps_in_range (set_world_mode P m w) := by
  by_cases hm : m = w.s_world_mode
  · rw [set_world_mode_same P m w hm]; exact h
  · unfold steps_in_range ANIMATION_SPIN_STEPS at h
    cases m
    · rw [set_world_mode_UNDEFINED P w (Ne.symm hm)]; exact h
    · rw [set_world_mode_LAUNCH P w (Ne.symm hm), clock_updateTime_eq]
      apply tick_steps_in_range
      simp only [steps_in_range, ANIMATION_SPIN_STEPS]
      omega
    · rw [set_world_mode_DYNAMIC P w (Ne.symm hm)]; exact h
    · rw [set_world_mode_PARK P w (Ne.symm hm)]
      simp only [steps_in_range, ANIMATION_SPIN_STEPS]
      omega
    · rw [set_world_mode_STEADY P w (Ne.symm hm)]; exact h

theorem tap_steps_in_range (axis : AccelAxisType) (d : Int) (w : World F C)
    (h : steps_in_range w) : steps_in_range (accel_tap_service_handler P axis d w) := by
  unfold accel_tap_service_handler
  cases hm : w.s_world_mode <;> cases axis <;> simp only [hm]
  all_goals first
    | exact h
    | (rw [clock_updateTime_eq]; refine tick_steps_in_range P _ _ _ ?_; exact h)
    | (refine set_world_mode_steps_in_range P _ _ ?_; exact h)

theorem rotation_steps_in_range (w : World F C) (h : steps_in_range w) :
    steps_in_range (world_update_rotation P w).2 := by
  unfold world_update_rotation
  unfold steps_in_range ANIMATION_SPIN_STEPS at h
  cases hm : w.s_world_mode
  · exact h
  · by_cases hs : 0 ≤ w.launch_animStep
    · simp only [ge_iff_le, hs, if_true, steps_in_range, ANIMATION_SPIN_STEPS]
      omega
    · simp only [ge_iff_le, hs, if_false]
      rw [set_world_mode_DYNAMIC P _ (by simp [hm])]
      exact h
  · simp only []
    split_ifs <;> exact h
  · by_cases hs : 0 ≤ w.park_animStep
    · simp only [ge_iff_le, hs, if_true, steps_in_range, ANIMATION_SPIN_STEPS]
      omega
    · simp only [ge_iff_le, hs, if_false]
      rw [set_world_mode_STEADY P _ (by simp [hm])]
      exact h
  · exact h

theorem world_update_steps_in_range (peek : AccelPeek) (w : World F C)
    (h : steps_in_range w) : steps_in_range (world_update P peek w) := by
  unfold world_update
  by_cases hm : w.s_world_mode = WORLD_MODE_STEADY
  · simp only [ne_eq, hm, not_true_eq_false, if_false]; exact h
  · simp only [ne_eq, hm, not_false_eq_true, if_true]
    have hr := rotation_steps_in_range P
      (world_update_sample P peek { w with
        s_clock := P.Clock3D_second100ths_update
          (P.Clock3D_updateAnimation w.s_clock ANIMATION_FLIP_STEPS) })
      (by simpa [steps_in_range] using h)
    split_ifs
    · exact hr
    · exact hr


theorem timer_handler_steps_in_range (peek : AccelPeek) (w : World F C)
    (h : steps_in_range w) : steps_in_range (world_update_timer_handler P peek w) := by
  obtain ⟨-, f2, f3, -⟩ := timer_handler_fields P peek w
  have hu := world_update_steps_in_range P peek { w with s_world_updateTimer := none } h
  unfold steps_in_range at hu ⊢
  rw [f2, f3]
  exact hu

/-- In every reachable world both step counters lie between -1 and ANIMATION_SPIN_STEPS. -/
theorem reachable_steps_in_range (w : World F C) (hr : Reachable P w) : steps_in_range w := by
  induction hr with
  | init clock now => simp [steps_in_range, initial_world, ANIMATION_SPIN_STEPS]
  | load _ ih =>
    unfold window_load
    rw [clock_updateTime_eq]
    refine tick_steps_in_range P _ _ _ ?_
    refine set_world_mode_steps_in_range P _ _ ?_
    exact ih
  | clock now _ ih => exact ih
  | tap axis d _ ih => exact tap_steps_in_range P axis d _ ih
  | tick t u _ ih => exact tick_steps_in_range P t u _ ih
  | update peek _ ih => exact world_update_steps_in_range P peek _ ih
  | fire t peek _ _ ih =>
    refine timer_handler_steps_in_range P peek _ ?_
    exact ih
  | mode m _ ih => exact set_world_mode_steps_in_range P m _ ih

/-- The camera rotation and the world computed by the mode switch of a frame do not depend
on the entries of the interpolation table outside 0 .. ANIMATION_SPIN_STEPS. -/
theorem rotation_table_independent (g : Int → F)
    (hg : ∀ i : Int, 0 ≤ i → i ≤ ANIMATION_SPIN_STEPS → g i = P.spinRotationFraction i)
    (w : World F C) (h : steps_in_range w) :
    world_update_rotation { P with spinRotationFraction := g } w = world_update_rotation P w := by
  unfold world_update_rotation
  unfold steps_in_range at h
  cases hm : w.s_world_mode
  · rfl
  · by_cases hs : 0 ≤ w.launch_animStep
    · simp only [ge_iff_le, hs, if_true, hg _ hs h.2.1]
      rfl
    · simp only [ge_iff_le, hs, if_false]
      rw [set_world_mode_DYNAMIC _ _ (by simp [hm]), set_world_mode_DYNAMIC _ _ (by simp [hm])]
      rfl
  · rfl
  · by_cases hs : 0 ≤ w.park_animStep
    · simp only [ge_iff_le, hs, if_true, hg _ hs h.2.2.2]
      rfl
    · simp only [ge_iff_le, hs, if_false]
      rw [set_world_mode_STEADY _ _ (by simp [hm]), set_world_mode_STEADY _ _ (by simp [hm])]
      rfl
  · rfl

/-- A frame update does not depend on the entries of the interpolation table outside
0 .. ANIMATION_SPIN_STEPS. -/
theorem world_update_table_independent (g : Int → F)
    (hg : ∀ i : Int, 0 ≤ i → i ≤ ANIMATION_SPIN_STEPS → g i = P.spinRotationFraction i)
    (peek : AccelPeek) (w : World F C) (h : steps_in_range w) :
    world_update { P with spinRotationFraction := g } peek w = world_update P peek w := by
  unfold world_update
  by_cases hm : w.s_world_mode = WORLD_MODE_STEADY
  · simp only [ne_eq, hm, not_true_eq_false, if_false]
  · simp only [ne_eq, hm, not_false_eq_true, if_true]
    have hs : ∀ w1 : World F C,
        world_update_sample { P with spinRotationFraction := g } peek w1
          = world_update_sample P peek w1 := fun _ => rfl
    have hr := rotation_table_independent P g hg
      (world_update_sample P peek { w with
        s_clock := P.Clock3D_second100ths_update
          (P.Clock3D_updateAnimation w.s_clock ANIMATION_FLIP_STEPS) })
      (by simpa [steps_in_range] using h)
    rw [hs, hr]
    rfl

end StepLemmas

section SamplerLemmas
variable {F C : Type} (P : Platform F C)

/-- The sampling block of a frame changes nothing but the three samplers. -/
theorem world_update_sample_eq (peek : AccelPeek) (w : World F C) :
    world_update_sample P peek w =
      { w with sampler_accelX := (world_update_sample P peek w).sampler_accelX,
               sampler_accelY := (world_update_sample P peek w).sampler_accelY,
               sampler_accelZ := (world_update_sample P peek w).sampler_accelZ } := by
  unfold world_update_sample push_attractor push_reading
  split_ifs <;> rfl

/-- A failed peek pushes the steady attractor, once to each sampler. -/
theorem world_update_sample_failed (peek : AccelPeek) (w : World F C)
    (hf : peek.result < 0) :
    (world_update_sample P peek w).sampler_accelX = Sampler_push w.sampler_accelX (-81)
    ∧ (world_update_sample P peek w).sampler_accelY = Sampler_push w.sampler_accelY (-816)
    ∧ (world_update_sample P peek w).sampler_accelZ = Sampler_push w.sampler_accelZ (-571) := by
  unfold world_update_sample push_attractor
  simp [hf]

/-- The mode switch of a frame neither reads nor writes the samplers. -/
theorem rotation_samplers (w : World F C) (a b c : Sampler) :
    world_update_rotation P { w with sampler_accelX := a, sampler_accelY := b,
                                     sampler_accelZ := c }
      = ((world_update_rotation P w).1,
          { (world_update_rotation P w).2 with sampler_accelX := a, sampler_accelY := b,
                                               sampler_accelZ := c }) := by
  obtain ⟨k, mode, tm, sx, sy, sz, secs, speed, rot, cam, ps, pr, ls, lr, now, timers, nh, ts,
    ads, ats, rr⟩ := w
  unfold world_update_rotation
  cases mode
  · rfl
  · by_cases hs : 0 ≤ ls
    · simp only [ge_iff_le, hs, if_true]
    · simp only [ge_iff_le, hs, if_false]
      rw [set_world_mode_DYNAMIC _ _ (by simp), set_world_mode_DYNAMIC _ _ (by simp)]
  · simp only []
    split_ifs <;> rfl
  · by_cases hs : 0 ≤ ps
    · simp only [ge_iff_le, hs, if_true]
    · simp only [ge_iff_le, hs, if_false]
      rw [set_world_mode_STEADY _ _ (by simp), set_world_mode_STEADY _ _ (by simp)]
  · rfl

/-- A frame update in closed form: the samplers come from the sampling block, the camera
from cam_config, and everything else from the mode switch run on the world before
sampling. -/
theorem world_update_closed (peek : AccelPeek) (w : World F C)
    (hm : w.s_world_mode ≠ WORLD_MODE_STEADY) :
    world_update P peek w =
      let clock := P.Clock3D_second100ths_update
        (P.Clock3D_updateAnimation w.s_clock ANIMATION_FLIP_STEPS)
      let base : World F C := { w with s_clock := clock }
      let s := world_update_sample P peek base
      let r := world_update_rotation P base
      let w1 : World F C := { r.2 with sampler_accelX := s.sampler_accelX,
                                       sampler_accelY := s.sampler_accelY,
                                       sampler_accelZ := s.sampler_accelZ }
      let w2 := if r.2.s_world_mode ≠ WORLD_MODE_STEADY then
          cam_config (world_update_viewPoint P w1) r.1 w1
        else w1
      { w2 with redrawRequests := w2.redrawRequests + 1 } := by
  unfold world_update
  simp only [ne_eq, hm, not_false_eq_true, if_true]
  rw [world_update_sample_eq, rotation_samplers]

/-- Outside Steady, the state-machine fields after a frame update are those computed by the
mode switch. -/
theorem world_update_fields (peek : AccelPeek) (w : World F C)
    (hm : w.s_world_mode ≠ WORLD_MODE_STEADY) :
    (world_update P peek w).s_world_mode
        = (world_update_rotation P { w with
            s_clock := P.Clock3D_second100ths_update
              (P.Clock3D_updateAnimation w.s_clock ANIMATION_FLIP_STEPS) }).2.s_world_mode
    ∧ (world_update P peek w).s_spin_speed
        = (world_update_rotation P { w with
            s_clock := P.Clock3D_second100ths_update
              (P.Clock3D_updateAnimation w.s_clock ANIMATION_FLIP_STEPS) }).2.s_spin_speed
    ∧ (world_update P peek w).s_spin_rotation
        = (world_update_rotation P { w with
            s_clock := P.Clock3D_second100ths_update
              (P.Clock3D_updateAnimation w.s_clock ANIMATION_FLIP_STEPS) }).2.s_spin_rotation := by
  rw [world_update_closed P peek w hm]
  simp only []
  split_ifs <;> exact ⟨rfl, rfl, rfl⟩

/-- The Dynamic branch of the mode switch: friction on the spin speed, then the rotation
advances unless the speed has reached 0. -/
theorem rotation_dynamic (w : World F C) (hm : w.s_world_mode = WORLD_MODE_DYNAMIC) :
    (world_update_rotation P w).2.s_spin_speed
        = (if w.s_spin_speed > 0 then w.s_spin_speed - 1
            else if w.s_spin_speed < 0 then w.s_spin_speed + 1 else 0)
    ∧ (world_update_rotation P w).2.s_spin_rotation
        = (if (world_update_rotation P w).2.s_spin_speed = 0 then w.s_spin_rotation
            else P.FastMath_normalizeAngle (P.fadd w.s_spin_rotation
              (P.fmul (P.ofInt (world_update_rotation P w).2.s_spin_speed)
                P.SPIN_ROTATION_QUANTA))) := by
  obtain ⟨k, mode, tm, sx, sy, sz, secs, speed, rot, cam, ps, pr, ls, lr, now, timers, nh, ts,
    ads, ats, rr⟩ := w
  simp only at hm
  subst hm
  unfold world_update_rotation
  simp only []
  rcases lt_trichotomy speed 0 with h | h | h
  · have h1 : ¬ (speed > 0) := by omega
    by_cases h2 : speed + 1 = 0
    · simp [h, h1, h2]
    · simp [h, h1, h2]
  · subst h; simp
  · have h1 : ¬ (speed - 1 < 0) := by omega
    have h3 : ¬ (speed < 0) := by omega
    by_cases h2 : speed - 1 = 0
    · simp [h, h1, h2, h3]
    · simp [h, h1, h2, h3]

/-- A tick registers a timer only when it finds no timer pointer. -/
theorem tick_nextHandle (t : Tm) (u : Nat) (w : World F C) :
    (tick_timer_service_handler P t u w).nextHandle
      = (if w.s_world_updateTimer = none then w.nextHandle + 1 else w.nextHandle) := by
  cases hp : w.s_world_updateTimer with
  | none => rw [if_pos rfl]; exact (tick_timers_none P t u w hp).2.2
  | some h0 => rw [if_neg (by simp)]; exact (tick_timers_some P t u w h0 hp).2.2

/-- Entering Launch from another mode, in a world that keeps the timer discipline. -/
theorem launch_entry (w : World F C) (hm : w.s_world_mode ≠ WORLD_MODE_LAUNCH)
    (ht : timers_match w) :
    (set_world_mode P WORLD_MODE_LAUNCH w).launch_animStep = ANIMATION_SPIN_STEPS
    ∧ (set_world_mode P WORLD_MODE_LAUNCH w).s_world_updateTimer
        = some (w.s_world_updateTimer.getD w.nextHandle)
    ∧ (set_world_mode P WORLD_MODE_LAUNCH w).timers
        = [⟨w.s_world_updateTimer.getD w.nextHandle, 0⟩]
    ∧ (set_world_mode P WORLD_MODE_LAUNCH w).nextHandle
        = (if w.s_world_updateTimer = none then w.nextHandle + 1 else w.nextHandle) := by
  rw [set_world_mode_LAUNCH P w hm, clock_updateTime_eq]
  obtain ⟨-, handle, h1, h2, h3⟩ := tick_timers_match P w.now 0
    { w with s_world_mode := WORLD_MODE_LAUNCH, launch_animStep := ANIMATION_SPIN_STEPS,
             accelDataSubscribed := true, tickSubscription := some SECOND_UNIT } ht
  obtain ⟨s1, -⟩ := tick_steps P w.now 0
    { w with s_world_mode := WORLD_MODE_LAUNCH, launch_animStep := ANIMATION_SPIN_STEPS,
             accelDataSubscribed := true, tickSubscription := some SECOND_UNIT }
  subst h3
  exact ⟨s1, h1, h2, tick_nextHandle P w.now 0 _⟩

/-- In Steady a tap on axis Y resets the inactivity counter and enters Launch. -/
theorem tap_steady_twist (d : Int) (w : World F C)
    (hs : w.s_world_mode = WORLD_MODE_STEADY) :
    accel_tap_service_handler P ACCEL_AXIS_Y d w
      = set_world_mode P WORLD_MODE_LAUNCH { w with s_user_secondsInactive := 0 } := by
  unfold accel_tap_service_handler
  simp only [hs]

/-- Loading the window always ends in Steady. -/
theorem window_load_mode (w : World F C) :
    (window_load P w).s_world_mode = WORLD_MODE_STEADY := by
  unfold window_load
  simp only [clock_updateTime_eq, tick_mode, set_world_mode_mode]
  simp [WORLD_MODE_INITIAL]

end SamplerLemmas

/-! ## Q_sqrt.c : the largest input -/

theorem Q_sqrt_u32_at_2147483647 : Q_sqrt_u32 2147483647 = 11863283 := by
  have h0 : (2147483647 &&& 0xFFF00000) = 2146435072 := by decide
  have h1 : startBit 1073741824 2147483647 = 1073741824 := by simp [startBit]
  have h2 : digitLoop 2147483647 0 1073741824 = (88047, 46340) := by
    simp [digitLoop, add32, sub32]
  have h3 : rescale 88047 46340 = (2733277184, 3036971008) := by
    simp [rescale, add32, sub32, shl32]
  have h4 : digitLoop 2733277184 3036971008 16384 = (4735319, 11863283) := by
    simp [digitLoop, add32, sub32]
  simp [Q_sqrt_u32, h0, h1, h2, h3, h4, add32]

/-! ## Q_sqrt.c : termination, absence of wrap-around, accuracy and monotonicity -/

theorem startBit_steps_eq (fuel : Nat) : ∀ bit num : Nat, bit < 4 ^ fuel →
    startBit_steps fuel bit num = some (startBit bit num) := by
  induction fuel with
  | zero =>
    intro bit num h
    have hb : bit = 0 := by simpa using h
    subst hb
    simp [startBit_steps, startBit_zero]
  | succ n ih =>
    intro bit num h
    rw [startBit_steps, startBit]
    by_cases hc : bit > num
    · rw [if_pos hc, if_pos hc]
      apply ih
      rw [Nat.shiftRight_eq_div_pow]
      rw [pow_succ] at h
      omega
    · rw [if_neg hc, if_neg hc]

theorem digitLoop_steps_eq (fuel : Nat) : ∀ num result bit : Nat, bit < 4 ^ fuel →
    digitLoop_steps fuel num result bit = some (digitLoop num result bit) := by
  induction fuel with
  | zero =>
    intro num result bit h
    have hb : bit = 0 := by simpa using h
    subst hb
    simp [digitLoop_steps, digitLoop_zero]
  | succ n ih =>
    intro num result bit h
    have hs : bit >>> 2 < 4 ^ n := by
      rw [Nat.shiftRight_eq_div_pow]
      rw [pow_succ] at h
      omega
    rw [digitLoop_steps]
    by_cases hb : bit ≠ 0
    · rw [if_pos hb, digitLoop_pos hb]
      by_cases hc : num ≥ add32 result bit
      · rw [if_pos hc, if_pos hc]; exact ih _ _ _ hs
      · rw [if_neg hc, if_neg hc]; exact ih _ _ _ hs
    · have h0 : bit = 0 := by simpa using hb
      subst h0
      simp [digitLoop_zero]

theorem toQ_range (u : Nat) : -2147483648 ≤ toQ u ∧ toQ u ≤ 2147483647 := by
  unfold toQ
  split <;> omega

theorem startBit_le (n : Nat) : ∀ bit num : Nat, bit < 4 ^ n → startBit bit num ≤ bit := by
  induction n with
  | zero =>
    intro bit num h
    have hb : bit = 0 := by simpa using h
    subst hb
    simp [startBit_zero]
  | succ n ih =>
    intro bit num h
    rw [startBit]
    by_cases hc : bit > num
    · rw [if_pos hc]
      have hs : bit >>> 2 < 4 ^ n := by
        rw [Nat.shiftRight_eq_div_pow]
        rw [pow_succ] at h
        omega
      have := ih _ num hs
      simp only [Nat.shiftRight_eq_div_pow] at this ⊢
      omega
    · rw [if_neg hc]

theorem Q_sqrt_steps_eq (v : Int) : Q_sqrt_steps 16 v = some (Q_sqrt v) := by
  unfold Q_sqrt_steps Q_sqrt Q_sqrt_u32
  lift_lets
  intro neg num bit0
  have hb0 : bit0 < 4 ^ 15 + 1 := by
    simp only [bit0]
    split <;> decide
  have hb1 : startBit bit0 num < 4 ^ 16 := by
    have := startBit_le 16 bit0 num (by norm_num at hb0 ⊢; omega)
    norm_num at hb0 ⊢; omega
  rw [startBit_steps_eq 16 bit0 num (by norm_num at hb0 ⊢; omega)]
  simp only []
  rw [digitLoop_steps_eq 16 _ _ _ hb1]
  simp only []
  rw [digitLoop_steps_eq 16 _ _ _ (by decide)]

theorem rescale_special (a : Nat) (ha : a ≤ 2147483648)
    (hrem : a - (Nat.sqrt a) ^ 2 > 65535) :
    rescale (a - (Nat.sqrt a) ^ 2) (Nat.sqrt a)
      = ((a - (Nat.sqrt a) ^ 2 - Nat.sqrt a) * 65536 - 32768, Nat.sqrt a * 65536 + 32768)
    ∧ 32768 ≤ (a - (Nat.sqrt a) ^ 2 - Nat.sqrt a) * 65536
    ∧ Nat.sqrt a ≤ a - (Nat.sqrt a) ^ 2
    ∧ (a - (Nat.sqrt a) ^ 2 - Nat.sqrt a) * 65536 < 4294967296
    ∧ Nat.sqrt a * 65536 + 32768 < 4294967296 := by
  have hP := sqrt_bound ha
  have hle : Nat.sqrt a ^ 2 ≤ a := Nat.sqrt_le' a
  have hlt : a < (Nat.sqrt a + 1) ^ 2 := Nat.lt_succ_sqrt' a
  obtain ⟨P, hPdef⟩ : ∃ P, P = Nat.sqrt a := ⟨_, rfl⟩
  rw [← hPdef] at hP hle hlt hrem ⊢
  obtain ⟨S, hS⟩ : ∃ S, S = P ^ 2 := ⟨_, rfl⟩
  have hlt2 : a < S + 2 * P + 1 := by
    have : (P + 1) ^ 2 = P ^ 2 + 2 * P + 1 := by ring
    rw [this, ← hS] at hlt; exact hlt
  rw [← hS] at hle hrem ⊢
  refine ⟨?_, by omega, by omega, by omega, by omega⟩
  unfold rescale
  rw [if_pos hrem, sub32_eq (a := a - S) (b := P) (by omega) (by omega),
    shl32_eq (a := a - S - P) (by norm_num; omega),
    sub32_eq (by norm_num; omega) (by norm_num; omega), shl32_eq (a := P) (by norm_num; omega),
    add32_eq (by norm_num; omega)]
  norm_num

theorem rescale_special_remainder (a : Nat) (ha : a ≤ 2147483648)
    (hrem : a - (Nat.sqrt a) ^ 2 > 65535) :
    (((rescale (a - (Nat.sqrt a) ^ 2) (Nat.sqrt a)).1 : Nat) : Int) + 16384
      = 16384 * (4 * (a : Int) - (2 * (Nat.sqrt a : Int) + 1) ^ 2) := by
  obtain ⟨h1, h2, h3, _, _⟩ := rescale_special a ha hrem
  have hle : Nat.sqrt a ^ 2 ≤ a := Nat.sqrt_le' a
  rw [h1]
  generalize Nat.sqrt a = P at h2 h3 hle ⊢
  have e : (2 * (P : Int) + 1) ^ 2 = 4 * ((P ^ 2 : Nat) : Int) + 4 * P + 1 := by
    push_cast; ring
  rw [e]
  generalize P ^ 2 = S at h2 h3 hle ⊢
  simp only []
  omega

theorem add32_checked_eq {a b : Nat} (h : a + b < 4294967296) :
    add32_checked a b = some (add32 a b) := by
  rw [add32_checked, if_pos h, add32_eq h]

theorem sub32_checked_eq {a b : Nat} (h : b ≤ a) (ha : a < 4294967296) :
    sub32_checked a b = some (sub32 a b) := by
  rw [sub32_checked, if_pos h, sub32_eq h ha]

theorem shl32_checked_eq {a k : Nat} (h : a * 2 ^ k < 4294967296) :
    shl32_checked a k = some (shl32 a k) := by
  rw [shl32_checked, shl32_eq h, Nat.shiftLeft_eq, if_pos h]

theorem digitLoop_checked_eq (n : Nat) : ∀ num result bit : Nat, bit < 4 ^ n →
    num < 4294967296 → result + 2 * bit ≤ 4294967296 →
    digitLoop_checked num result bit = some (digitLoop num result bit) := by
  induction n with
  | zero =>
    intro num result bit h _ _
    have hb : bit = 0 := by simpa using h
    subst hb
    rw [digitLoop_checked, digitLoop_zero]
    simp
  | succ n ih =>
    intro num result bit h hnum hres
    have hs : bit >>> 2 < 4 ^ n := by
      rw [Nat.shiftRight_eq_div_pow]
      rw [pow_succ] at h
      omega
    have hq : bit >>> 2 = bit / 4 := by rw [Nat.shiftRight_eq_div_pow]
    have hr : result >>> 1 = result / 2 := by rw [Nat.shiftRight_eq_div_pow]
    rw [digitLoop_checked]
    by_cases hb : bit ≠ 0
    · have hpos : 0 < bit := Nat.pos_of_ne_zero hb
      rw [if_pos hb, digitLoop_pos hb, add32_checked_eq (by omega)]
      simp only []
      by_cases hc : num ≥ add32 result bit
      · rw [if_pos hc, if_pos hc, sub32_checked_eq hc hnum,
          add32_checked_eq (by rw [hr]; omega)]
        simp only []
        apply ih _ _ _ hs
        · rw [sub32_eq hc hnum]; omega
        · rw [add32_eq (by rw [hr]; omega), hr, hq]; omega
      · rw [if_neg hc, if_neg hc]
        apply ih _ _ _ hs hnum
        rw [hr, hq]; omega
    · have h0 : bit = 0 := by simpa using hb
      subst h0
      simp [digitLoop_zero]

theorem rescale_checked_eq (a : Nat) (ha : a ≤ 2147483648) :
    rescale_checked (a - (Nat.sqrt a) ^ 2) (Nat.sqrt a)
      = some (rescale (a - (Nat.sqrt a) ^ 2) (Nat.sqrt a)) := by
  have hP := sqrt_bound ha
  by_cases hrem : a - (Nat.sqrt a) ^ 2 > 65535
  · obtain ⟨_, h2, h3, h4, h5⟩ := rescale_special a ha hrem
    have hle : Nat.sqrt a ^ 2 ≤ a := Nat.sqrt_le' a
    generalize Nat.sqrt a = P at *
    generalize P ^ 2 = S at *
    rw [rescale_checked, rescale, if_pos hrem, if_pos hrem,
      sub32_checked_eq h3 (by omega)]
    simp only []
    rw [shl32_checked_eq (a := sub32 (a - S) P) (by rw [sub32_eq h3 (by omega)]; omega),
      shl32_checked_eq (a := P) (by norm_num; omega)]
    simp only []
    rw [sub32_checked_eq
        (by rw [shl32_eq (by rw [sub32_eq h3 (by omega)]; omega), sub32_eq h3 (by omega)]
            norm_num; omega)
        (by rw [shl32_eq (by rw [sub32_eq h3 (by omega)]; omega), sub32_eq h3 (by omega)]
            norm_num; omega),
      add32_checked_eq (by rw [shl32_eq (by norm_num; omega)]; norm_num; omega)]
  · rw [rescale_checked, rescale, if_neg hrem, if_neg hrem,
      shl32_checked_eq (a := a - Nat.sqrt a ^ 2) (by norm_num; omega),
      shl32_checked_eq (a := Nat.sqrt a) (by norm_num; omega)]

theorem rescale_bounds (a : Nat) (ha : a ≤ 2147483648) :
    (rescale (a - (Nat.sqrt a) ^ 2) (Nat.sqrt a)).1 < 4294967296
    ∧ (rescale (a - (Nat.sqrt a) ^ 2) (Nat.sqrt a)).2 + 2 * 16384 ≤ 4294967296 := by
  have hP := sqrt_bound ha
  by_cases hrem : a - (Nat.sqrt a) ^ 2 > 65535
  · obtain ⟨h1, h2, h3, h4, h5⟩ := rescale_special a ha hrem
    rw [h1]
    simp only []
    omega
  · rw [rescale, if_neg hrem, shl32_eq (a := a - Nat.sqrt a ^ 2) (by norm_num; omega),
      shl32_eq (a := Nat.sqrt a) (by norm_num; omega)]
    simp only []
    norm_num
    omega

theorem secondPass_root_lt (a : Nat) (ha : a ≤ 2147483648) :
    (digitLoop (rescale (a - (Nat.sqrt a) ^ 2) (Nat.sqrt a)).1
      (rescale (a - (Nat.sqrt a) ^ 2) (Nat.sqrt a)).2 (1 <<< 14)).2 < 16777216 := by
  by_cases hrem : a - (Nat.sqrt a) ^ 2 > 65535
  · have := secondPass_special a ha hrem
    rw [rescale, if_pos hrem]
    simp only []
    rw [this]
    have hh := sqrt_scaled_bound (M := a * 65536 - 16384) (by omega)
    generalize Nat.sqrt (a * 65536 - 16384) = F at hh ⊢
    exact hh
  · have := secondPass_normal a ha (by omega)
    rw [rescale, if_neg hrem]
    simp only []
    rw [this]
    have hh := sqrt_scaled_bound (M := a * 65536) (by omega)
    generalize Nat.sqrt (a * 65536) = F at hh ⊢
    exact hh

theorem Q_sqrt_checked_eq (a : Nat) (ha : a ≤ 2147483648) :
    Q_sqrt_checked a = some (Q_sqrt_u32 a) := by
  have h1 := firstPass a ha
  have hb : startBit (if a &&& 0xFFF00000 ≠ 0 then 1 <<< 30 else 1 <<< 18) a
      ≤ 1073741824 := by
    have h0 : (if a &&& 0xFFF00000 ≠ 0 then 1 <<< 30 else 1 <<< 18) ≤ 1073741824 := by
      split <;> decide
    have := startBit_le 16 _ a (lt_of_le_of_lt h0 (by norm_num))
    exact le_trans this h0
  have hc1 := digitLoop_checked_eq 16 a 0 _ (lt_of_le_of_lt hb (by norm_num)) (by omega)
    (by omega)
  obtain ⟨hr1, hr2⟩ := rescale_bounds a ha
  have hbit : (1 <<< 14 : Nat) = 16384 := by decide
  have hc2 := digitLoop_checked_eq 16 (rescale (a - (Nat.sqrt a) ^ 2) (Nat.sqrt a)).1
    (rescale (a - (Nat.sqrt a) ^ 2) (Nat.sqrt a)).2 (1 <<< 14) (by decide) hr1
    (by rw [hbit]; exact hr2)
  have hlt := secondPass_root_lt a ha
  unfold Q_sqrt_checked Q_sqrt_u32
  lift_lets
  intro bit0 bit1 result p1 p1r bit2 p2
  have e1 : digitLoop_checked a 0 bit1 = some (a - Nat.sqrt a ^ 2, Nat.sqrt a) := by
    rw [← h1]; exact hc1
  have ep1 : p1 = (a - Nat.sqrt a ^ 2, Nat.sqrt a) := h1
  rw [e1]
  simp only []
  rw [rescale_checked_eq a ha]
  simp only []
  rw [hc2]
  simp only []
  have ep2 : p2 = digitLoop (rescale (a - Nat.sqrt a ^ 2) (Nat.sqrt a)).1
      (rescale (a - Nat.sqrt a ^ 2) (Nat.sqrt a)).2 (1 <<< 14) := by
    simp only [p2, p1r, ep1, bit2]
  rw [← ep2] at hlt ⊢
  by_cases hf : p2.1 > p2.2
  · rw [if_pos hf, if_pos hf]
    exact add32_checked_eq (by omega)
  · rw [if_neg hf, if_neg hf]

theorem roundRoot_mono {M M' : Nat} (h : M ≤ M') : roundRoot M ≤ roundRoot M' := by
  have hs : Nat.sqrt M ≤ Nat.sqrt M' := Nat.sqrt_le_sqrt h
  have h1 : Nat.sqrt M ^ 2 ≤ M := Nat.sqrt_le' M
  unfold roundRoot
  generalize Nat.sqrt M = F at hs h1 ⊢
  generalize Nat.sqrt M' = G at hs ⊢
  rcases Nat.lt_or_ge F G with hlt | hge
  · split <;> split <;> omega
  · have e : F = G := by omega
    subst e
    split <;> split <;> omega

theorem Q_sqrt_u32_mono (a b : Nat) (hab : a ≤ b) (hb : b ≤ 2147483648) :
    Q_sqrt_u32 a ≤ Q_sqrt_u32 b := by
  rcases Nat.eq_or_lt_of_le hab with he | hlt
  · subst he
    exact Nat.le_refl _
  · rw [Q_sqrt_u32_spec a (by omega), Q_sqrt_u32_spec b hb]
    generalize Nat.sqrt a = P
    generalize Nat.sqrt b = R
    split <;> split <;> apply roundRoot_mono <;> omega

theorem Q_sqrt_u32_floor (a : Nat) (ha : a ≤ 2147483648) :
    Q_sqrt_u32 a = Nat.sqrt (a * 65536) ∨ Q_sqrt_u32 a = Nat.sqrt (a * 65536) + 1 := by
  rw [Q_sqrt_u32_spec a ha]
  by_cases hrem : a - (Nat.sqrt a) ^ 2 > 65535
  · rw [if_pos hrem]
    have ha1 : 65536 ≤ a := by omega
    have hF1 : Nat.sqrt (a * 65536) * Nat.sqrt (a * 65536) ≤ a * 65536 := Nat.sqrt_le _
    have hF2 : a * 65536 < (Nat.sqrt (a * 65536) + 1) * (Nat.sqrt (a * 65536) + 1) :=
      Nat.lt_succ_sqrt _
    have hG1 : Nat.sqrt (a * 65536 - 16384) * Nat.sqrt (a * 65536 - 16384)
        ≤ a * 65536 - 16384 := Nat.sqrt_le _
    have hG2 : a * 65536 - 16384
        < (Nat.sqrt (a * 65536 - 16384) + 1) * (Nat.sqrt (a * 65536 - 16384) + 1) :=
      Nat.lt_succ_sqrt _
    have hG0 : 65535 ≤ Nat.sqrt (a * 65536 - 16384) :=
      Nat.le_sqrt.2 (by norm_num; omega)
    have hGF : Nat.sqrt (a * 65536 - 16384) ≤ Nat.sqrt (a * 65536) :=
      Nat.sqrt_le_sqrt (by omega)
    unfold roundRoot
    generalize Nat.sqrt (a * 65536) = F at hF1 hF2 hGF ⊢
    generalize Nat.sqrt (a * 65536 - 16384) = G at hG1 hG2 hG0 hGF ⊢
    have hFG : F ≤ G + 1 := by
      by_contra hc
      have h2 : (G + 2) * (G + 2) ≤ F * F := Nat.mul_le_mul (by omega) (by omega)
      have e1 : (G + 2) * (G + 2) = G * G + 4 * G + 4 := by ring
      have e2 : (G + 1) * (G + 1) = G * G + 2 * G + 1 := by ring
      rw [e1] at h2
      rw [e2] at hG2
      omega
    have e3 : G ^ 2 = G * G := by ring
    rw [e3]
    rcases Nat.eq_or_lt_of_le hGF with he | hlt
    · subst he
      split
      · right; rfl
      · left; rfl
    · have e : F = G + 1 := by omega
      subst e
      have e2 : (G + 1) * (G + 1) = G * G + 2 * G + 1 := by ring
      rw [e2] at hF1
      rw [if_pos (by omega)]
      left; rfl
  · rw [if_neg hrem]
    unfold roundRoot
    generalize Nat.sqrt (a * 65536) = F
    split
    · right; rfl
    · left; rfl

/-! ## main.c : spin speed and samplers of the reachable worlds -/

section SpeedLemmas
variable {F C : Type} (P : Platform F C)

/-- A tick leaves the spin speed and the three samplers alone. -/
theorem tick_passive (t : Tm) (u : Nat) (w : World F C) :
    (tick_timer_service_handler P t u w).s_spin_speed = w.s_spin_speed
    ∧ (tick_timer_service_handler P t u w).sampler_accelX = w.sampler_accelX
    ∧ (tick_timer_service_handler P t u w).sampler_accelY = w.sampler_accelY
    ∧ (tick_timer_service_handler P t u w).sampler_accelZ = w.sampler_accelZ := by
  rw [tick_timer_service_handler]
  cases hp : w.s_world_updateTimer <;>
  by_cases hd : w.s_world_mode = WORLD_MODE_DYNAMIC <;>
  by_cases hs : w.s_spin_speed = 0 <;>
  by_cases h5 : incr_int32 w.s_user_secondsInactive > USER_SECONDSINACTIVE_MAX <;>
  by_cases h6 : w.s_user_secondsInactive > USER_SECONDSINACTIVE_MAX <;>
  simp [hd, hs, h5, h6, hp, set_world_mode_PARK, app_timer_register, app_timer_reschedule]

/-- A mode change leaves the spin speed and the three samplers alone. -/
theorem set_world_mode_passive (m : WorldMode) (w : World F C) :
    (set_world_mode P m w).s_spin_speed = w.s_spin_speed
    ∧ (set_world_mode P m w).sampler_accelX = w.sampler_accelX
    ∧ (set_world_mode P m w).sampler_accelY = w.sampler_accelY
    ∧ (set_world_mode P m w).sampler_accelZ = w.sampler_accelZ := by
  by_cases hm : m = w.s_world_mode
  · rw [set_world_mode_same P m w hm]; exact ⟨rfl, rfl, rfl, rfl⟩
  · cases m
    · rw [set_world_mode_UNDEFINED P w (Ne.symm hm)]; exact ⟨rfl, rfl, rfl, rfl⟩
    · rw [set_world_mode_LAUNCH P w (Ne.symm hm), clock_updateTime_eq]
      exact tick_passive P _ _ _
    · rw [set_world_mode_DYNAMIC P w (Ne.symm hm)]; exact ⟨rfl, rfl, rfl, rfl⟩
    · rw [set_world_mode_PARK P w (Ne.symm hm)]; exact ⟨rfl, rfl, rfl, rfl⟩
    · rw [set_world_mode_STEADY P w (Ne.symm hm)]; exact ⟨rfl, rfl, rfl, rfl⟩

theorem tap_speed (axis : AccelAxisType) (d : Int) (w : World F C) :
    (accel_tap_service_handler P axis d w).s_spin_speed = w.s_spin_speed
    ∨ (accel_tap_service_handler P axis d w).s_spin_speed = SPIN_SPEED_AFTER_TWIST := by
  unfold accel_tap_service_handler
  cases hm : w.s_world_mode <;> cases axis <;> simp only [hm]
  all_goals first
    | (left; trivial)
    | (right; trivial)
    | (left; rw [clock_updateTime_eq]; exact (tick_passive P _ _ _).1)
    | (left; exact (set_world_mode_passive P _ _).1)

theorem rotation_speed_in_range (w : World F C) (h : speed_in_range w) :
    speed_in_range (world_update_rotation P w).2 := by
  unfold speed_in_range SPIN_SPEED_AFTER_TWIST at h ⊢
  cases hm : w.s_world_mode
  · unfold world_update_rotation; simp only [hm]; exact h
  · unfold world_update_rotation
    by_cases hs : 0 ≤ w.launch_animStep
    · simp only [hm, ge_iff_le, hs, if_true]; exact h
    · simp only [hm, ge_iff_le, hs, if_false]
      rw [(set_world_mode_passive P _ _).1]
      exact h
  · rw [(rotation_dynamic P w hm).1]
    split_ifs <;> omega
  · unfold world_update_rotation
    by_cases hs : 0 ≤ w.park_animStep
    · simp only [hm, ge_iff_le, hs, if_true]; exact h
    · simp only [hm, ge_iff_le, hs, if_false]
      rw [(set_world_mode_passive P _ _).1]
      exact h
  · unfold world_update_rotation; simp only [hm]; exact h

theorem world_update_speed_in_range (peek : AccelPeek) (w : World F C)
    (h : speed_in_range w) : speed_in_range (world_update P peek w) := by
  by_cases hm : w.s_world_mode = WORLD_MODE_STEADY
  · unfold world_update
    simp only [ne_eq, hm, not_true_eq_false, if_false]; exact h
  · have hr := rotation_speed_in_range P
      { w with
        s_clock := P.Clock3D_second100ths_update
          (P.Clock3D_updateAnimation w.s_clock ANIMATION_FLIP_STEPS) } h
    unfold speed_in_range at hr ⊢
    rw [(world_update_fields P peek w hm).2.1]
    exact hr

/-- In every reachable world the spin speed lies between 0 and SPIN_SPEED_AFTER_TWIST. -/
theorem reachable_speed_in_range (w : World F C) (hr : Reachable P w) : speed_in_range w := by
  induction hr with
  | init clock now => simp [speed_in_range, initial_world, SPIN_SPEED_AFTER_TWIST]
  | load _ ih =>
    unfold window_load
    unfold speed_in_range at ih ⊢
    rw [clock_updateTime_eq, (tick_passive P _ _ _).1, (set_world_mode_passive P _ _).1]
    exact ih
  | clock now _ ih => exact ih
  | tap axis d _ ih =>
    unfold speed_in_range at ih ⊢
    rcases tap_speed P axis d _ with h | h <;> rw [h]
    · exact ih
    · unfold SPIN_SPEED_AFTER_TWIST; omega
  | tick t u _ ih =>
    unfold speed_in_range at ih ⊢
    rw [(tick_passive P _ _ _).1]
    exact ih
  | update peek _ ih => exact world_update_speed_in_range P peek _ ih
  | fire t peek _ _ ih =>
    have hu := world_update_speed_in_range P peek
      { app_timer_cancel t.handle _ with s_world_updateTimer := none } ih
    unfold speed_in_range at hu ⊢
    rw [(timer_handler_fields P peek _).2.2.2.1]
    exact hu
  | mode m _ ih =>
    unfold speed_in_range at ih ⊢
    rw [(set_world_mode_passive P _ _).1]
    exact ih

end SpeedLemmas

section ParkLemmas
variable {F C : Type} (P : Platform F C)

theorem take_replicate_mono {l : List Int} {v : Int} {n m : Nat} (hmn : m ≤ n)
    (h : l.take n = List.replicate n v) : l.take m = List.replicate m v := by
  have h1 : l.take m = (l.take n).take m := by
    rw [List.take_take, Nat.min_eq_left hmn]
  rw [h1, h, List.take_replicate, Nat.min_eq_left hmn]

theorem take_push {l : List Int} {v : Int} {n : Nat} (h : l.take n = List.replicate n v) :
    (v :: l).take (n + 1) = List.replicate (n + 1) v := by
  rw [List.take_succ_cons, h, List.replicate_succ]

theorem newest_are_attractor_mono {n m : Nat} (hmn : m ≤ n) (w : World F C)
    (h : newest_are_attractor n w) : newest_are_attractor m w :=
  ⟨take_replicate_mono hmn h.1, take_replicate_mono hmn h.2.1, take_replicate_mono hmn h.2.2⟩

theorem newest_are_attractor_zero (w : World F C) : newest_are_attractor 0 w := by
  simp [newest_are_attractor]

/-- The invariant reads only the mode, the park step counter and the three samplers. -/
theorem park_attractor_inv_congr (w v : World F C)
    (hm : v.s_world_mode = w.s_world_mode) (hs : v.park_animStep = w.park_animStep)
    (hx : v.sampler_accelX = w.sampler_accelX) (hy : v.sampler_accelY = w.sampler_accelY)
    (hz : v.sampler_accelZ = w.sampler_accelZ) (h : park_attractor_inv w) :
    park_attractor_inv v := by
  unfold park_attractor_inv newest_are_attractor at h ⊢
  rw [hm, hs, hx, hy, hz]
  exact h

/-- A world that is not in Park, or has just entered it, satisfies the invariant as soon as
the capacities are right. -/
theorem park_attractor_inv_fresh (w v : World F C)
    (hx : v.sampler_accelX = w.sampler_accelX) (hy : v.sampler_accelY = w.sampler_accelY)
    (hz : v.sampler_accelZ = w.sampler_accelZ)
    (hp : v.s_world_mode = WORLD_MODE_PARK → v.park_animStep = ANIMATION_SPIN_STEPS)
    (h : park_attractor_inv w) : park_attractor_inv v := by
  unfold park_attractor_inv at h ⊢
  rw [hx, hy, hz]
  refine ⟨h.1, h.2.1, h.2.2.1, fun hm => ?_⟩
  rw [hp hm]
  have : ((ACCEL_SAMPLER_CAPACITY : Int) - 1 - ANIMATION_SPIN_STEPS).toNat = 0 := by decide
  rw [this]
  simp [newest_are_attractor]

/-- A tick that ends in Park either started there and left the park step counter alone, or
has just parked and reset it. -/
theorem tick_park (t : Tm) (u : Nat) (w : World F C)
    (h : (tick_timer_service_handler P t u w).s_world_mode = WORLD_MODE_PARK) :
    ((tick_timer_service_handler P t u w).s_world_mode = w.s_world_mode
      ∧ (tick_timer_service_handler P t u w).park_animStep = w.park_animStep)
    ∨ (tick_timer_service_handler P t u w).park_animStep = ANIMATION_SPIN_STEPS := by
  by_cases hd : w.s_world_mode = WORLD_MODE_DYNAMIC
  · right
    rw [tick_mode] at h
    have hc : (if w.s_spin_speed = 0 then incr_int32 w.s_user_secondsInactive
        else w.s_user_secondsInactive) > USER_SECONDSINACTIVE_MAX := by
      by_contra hc
      rw [if_neg (fun hh => hc hh.2), hd] at h
      exact absurd h (by decide)
    revert hc
    rw [tick_timer_service_handler]
    cases hp : w.s_world_updateTimer <;>
    by_cases hs : w.s_spin_speed = 0 <;>
    by_cases h5 : incr_int32 w.s_user_secondsInactive > USER_SECONDSINACTIVE_MAX <;>
    by_cases h6 : w.s_user_secondsInactive > USER_SECONDSINACTIVE_MAX <;>
    simp [hd, hs, h5, h6, hp, set_world_mode_PARK, app_timer_register, app_timer_reschedule]
  · left
    obtain ⟨h1, h2, -⟩ := tick_not_dynamic P t u w hd
    exact ⟨h1, h2⟩

theorem tick_park_attractor_inv (t : Tm) (u : Nat) (w : World F C)
    (h : park_attractor_inv w) : park_attractor_inv (tick_timer_service_handler P t u w) := by
  obtain ⟨-, hx, hy, hz⟩ := tick_passive P t u w
  by_cases hm : (tick_timer_service_handler P t u w).s_world_mode = WORLD_MODE_PARK
  · rcases tick_park P t u w hm with ⟨h1, h2⟩ | h2
    · exact park_attractor_inv_congr w _ h1 h2 hx hy hz h
    · exact park_attractor_inv_fresh w _ hx hy hz (fun _ => h2) h
  · exact park_attractor_inv_fresh w _ hx hy hz (fun hh => absurd hh hm) h

theorem set_world_mode_park_attractor_inv (m : WorldMode) (w : World F C)
    (h : park_attractor_inv w) : park_attractor_inv (set_world_mode P m w) := by
  by_cases hm : m = w.s_world_mode
  · rw [set_world_mode_same P m w hm]; exact h
  · obtain ⟨-, hx, hy, hz⟩ := set_world_mode_passive P m w
    refine park_attractor_inv_fresh w _ hx hy hz (fun hp => ?_) h
    rw [set_world_mode_mode] at hp
    subst hp
    rw [set_world_mode_PARK P w (Ne.symm hm)]

theorem tap_park_attractor_inv (axis : AccelAxisType) (d : Int) (w : World F C)
    (h : park_attractor_inv w) : park_attractor_inv (accel_tap_service_handler P axis d w) := by
  have h0 : park_attractor_inv { w with s_user_secondsInactive := 0 } :=
    park_attractor_inv_congr w _ rfl rfl rfl rfl rfl h
  unfold accel_tap_service_handler
  cases hm : w.s_world_mode <;> cases axis <;> simp only [hm]
  all_goals first
    | exact park_attractor_inv_congr w _ hm.symm rfl rfl rfl rfl h
    | exact park_attractor_inv_congr w _ rfl rfl rfl rfl rfl h
    | (rw [clock_updateTime_eq]
       refine tick_park_attractor_inv P _ _ _ ?_
       exact park_attractor_inv_congr w _ hm.symm rfl rfl rfl rfl h)
    | (refine set_world_mode_park_attractor_inv P _ _ ?_
       exact park_attractor_inv_congr w _ hm.symm rfl rfl rfl rfl h)

/-- The sampling block does not read the clock entity. -/
theorem world_update_sample_clock (peek : AccelPeek) (w : World F C) (k : C) :
    (world_update_sample P peek { w with s_clock := k }).sampler_accelX
        = (world_update_sample P peek w).sampler_accelX
    ∧ (world_update_sample P peek { w with s_clock := k }).sampler_accelY
        = (world_update_sample P peek w).sampler_accelY
    ∧ (world_update_sample P peek { w with s_clock := k }).sampler_accelZ
        = (world_update_sample P peek w).sampler_accelZ := by
  unfold world_update_sample push_attractor push_reading
  simp only []
  split_ifs <;> exact ⟨rfl, rfl, rfl⟩

/-- The samplers after a frame update are those left by the sampling block, which runs
outside Steady only. -/
theorem world_update_samplers (peek : AccelPeek) (w : World F C) :
    (world_update P peek w).sampler_accelX
        = (if w.s_world_mode ≠ WORLD_MODE_STEADY then
            (world_update_sample P peek w).sampler_accelX else w.sampler_accelX)
    ∧ (world_update P peek w).sampler_accelY
        = (if w.s_world_mode ≠ WORLD_MODE_STEADY then
            (world_update_sample P peek w).sampler_accelY else w.sampler_accelY)
    ∧ (world_update P peek w).sampler_accelZ
        = (if w.s_world_mode ≠ WORLD_MODE_STEADY then
            (world_update_sample P peek w).sampler_accelZ else w.sampler_accelZ) := by
  by_cases hm : w.s_world_mode = WORLD_MODE_STEADY
  · unfold world_update
    simp only [ne_eq, hm, not_true_eq_false, if_false]
    refine ⟨?_, ?_, ?_⟩ <;> first | rfl | trivial
  · obtain ⟨hx, hy, hz⟩ := world_update_sample_clock P peek w
      (P.Clock3D_second100ths_update
        (P.Clock3D_updateAnimation w.s_clock ANIMATION_FLIP_STEPS))
    rw [world_update_closed P peek w hm]
    simp only [ne_eq, hm, not_false_eq_true, if_true]
    rw [← hx, ← hy, ← hz]
    split_ifs <;> exact ⟨rfl, rfl, rfl⟩

/-- The sampling block pushes one value to each sampler. -/
theorem world_update_sample_pushes (peek : AccelPeek) (w : World F C) :
    ∃ x y z : Int,
      (world_update_sample P peek w).sampler_accelX = Sampler_push w.sampler_accelX x
      ∧ (world_update_sample P peek w).sampler_accelY = Sampler_push w.sampler_accelY y
      ∧ (world_update_sample P peek w).sampler_accelZ = Sampler_push w.sampler_accelZ z := by
  unfold world_update_sample push_attractor push_reading
  split_ifs
  all_goals exact ⟨_, _, _, rfl, rfl, rfl⟩

/-- In Park with the step counter below ACCEL_SAMPLER_CAPACITY the sampling block pushes the
attractor, whatever the peek. -/
theorem world_update_sample_park (peek : AccelPeek) (w : World F C)
    (hm : w.s_world_mode = WORLD_MODE_PARK)
    (hs : w.park_animStep < (ACCEL_SAMPLER_CAPACITY : Int)) :
    (world_update_sample P peek w).sampler_accelX = Sampler_push w.sampler_accelX (-81)
    ∧ (world_update_sample P peek w).sampler_accelY = Sampler_push w.sampler_accelY (-816)
    ∧ (world_update_sample P peek w).sampler_accelZ = Sampler_push w.sampler_accelZ (-571) := by
  unfold world_update_sample push_attractor
  rw [if_pos (Or.inr ⟨hm, hs⟩)]
  exact ⟨rfl, rfl, rfl⟩

theorem world_update_not_park (peek : AccelPeek) (w : World F C)
    (hm : w.s_world_mode ≠ WORLD_MODE_PARK) :
    (world_update P peek w).s_world_mode ≠ WORLD_MODE_PARK := by
  rw [world_update_mode]
  cases hw : w.s_world_mode
  · simp
  · simp only []
    split_ifs <;> simp
  · simp
  · exact absurd hw hm
  · simp

theorem world_update_park_attractor_inv (peek : AccelPeek) (w : World F C)
    (h : park_attractor_inv w) : park_attractor_inv (world_update P peek w) := by
  obtain ⟨sx, sy, sz⟩ := world_update_samplers P peek w
  obtain ⟨x, y, z, px, py, pz⟩ := world_update_sample_pushes P peek w
  have cx : (world_update P peek w).sampler_accelX.capacity = w.sampler_accelX.capacity := by
    rw [sx]; split_ifs
    · rw [px]; rfl
    · rfl
  have cy : (world_update P peek w).sampler_accelY.capacity = w.sampler_accelY.capacity := by
    rw [sy]; split_ifs
    · rw [py]; rfl
    · rfl
  have cz : (world_update P peek w).sampler_accelZ.capacity = w.sampler_accelZ.capacity := by
    rw [sz]; split_ifs
    · rw [pz]; rfl
    · rfl
  unfold park_attractor_inv at h ⊢
  rw [cx, cy, cz]
  refine ⟨h.1, h.2.1, h.2.2.1, fun hm => ?_⟩
  have hp : w.s_world_mode = WORLD_MODE_PARK := by
    by_contra hc
    exact world_update_not_park P peek w hc hm
  have hst : w.s_world_mode ≠ WORLD_MODE_STEADY := by simp [hp]
  by_cases hs : 0 ≤ w.park_animStep
  · obtain ⟨-, hstep⟩ := world_update_park_step P peek w hp hs
    rw [hstep]
    by_cases h8 : w.park_animStep < (ACCEL_SAMPLER_CAPACITY : Int)
    · obtain ⟨ax, ay, az⟩ := world_update_sample_park P peek w hp h8
      have hn : ((ACCEL_SAMPLER_CAPACITY : Int) - 1 - (w.park_animStep - 1)).toNat
          = ((ACCEL_SAMPLER_CAPACITY : Int) - 1 - w.park_animStep).toNat + 1 := by
        omega
      have hw := h.2.2.2 hp
      unfold newest_are_attractor at hw ⊢
      rw [hn, sx, sy, sz, if_pos hst, if_pos hst, if_pos hst, ax, ay, az]
      exact ⟨take_push hw.1, take_push hw.2.1, take_push hw.2.2⟩
    · have hn : ((ACCEL_SAMPLER_CAPACITY : Int) - 1 - (w.park_animStep - 1)).toNat = 0 := by
        omega
      rw [hn]
      exact newest_are_attractor_zero _
  · obtain ⟨hd, -⟩ := world_update_park_done P peek w hp (by omega)
    rw [hd] at hm
    exact absurd hm (by decide)

/-- The frame timer handler leaves the samplers as its frame update left them. -/
theorem timer_handler_samplers (peek : AccelPeek) (w : World F C) :
    (world_update_timer_handler P peek w).sampler_accelX
        = (world_update P peek { w with s_world_updateTimer := none }).sampler_accelX
    ∧ (world_update_timer_handler P peek w).sampler_accelY
        = (world_update P peek { w with s_world_updateTimer := none }).sampler_accelY
    ∧ (world_update_timer_handler P peek w).sampler_accelZ
        = (world_update P peek { w with s_world_updateTimer := none }).sampler_accelZ := by
  unfold world_update_timer_handler app_timer_register
  simp only []
  split_ifs <;> simp

theorem timer_handler_park_attractor_inv (peek : AccelPeek) (w : World F C)
    (h : park_attractor_inv w) : park_attractor_inv (world_update_timer_handler P peek w) := by
  obtain ⟨hx, hy, hz⟩ := timer_handler_samplers P peek w
  obtain ⟨hm, hs, -⟩ := timer_handler_fields P peek w
  refine park_attractor_inv_congr _ _ hm hs hx hy hz ?_
  refine world_update_park_attractor_inv P peek _ ?_
  exact park_attractor_inv_congr w _ rfl rfl rfl rfl rfl h

theorem app_timer_fired_park_attractor_inv (w : World F C) (h : park_attractor_inv w) :
    park_attractor_inv (app_timer_fired w) := by
  unfold app_timer_fired app_timer_cancel
  split
  · exact park_attractor_inv_congr w _ rfl rfl rfl rfl rfl h
  · exact h

/-- In every reachable world the samplers have capacity ACCEL_SAMPLER_CAPACITY and the park
frames run since the step counter went below it have all pushed the attractor. -/
theorem reachable_park_attractor_inv (w : World F C) (hr : Reachable P w) :
    park_attractor_inv w := by
  induction hr with
  | init clock now =>
    refine ⟨?_, ?_, ?_, fun hm => ?_⟩
    · show sampler_initialize.1.capacity = ACCEL_SAMPLER_CAPACITY
      decide
    · show sampler_initialize.2.1.capacity = ACCEL_SAMPLER_CAPACITY
      decide
    · show sampler_initialize.2.2.capacity = ACCEL_SAMPLER_CAPACITY
      decide
    · exact absurd hm (by simp [initial_world])
  | load _ ih =>
    unfold window_load
    rw [clock_updateTime_eq]
    refine tick_park_attractor_inv P _ _ _ ?_
    refine set_world_mode_park_attractor_inv P _ _ ?_
    exact park_attractor_inv_congr _ _ rfl rfl rfl rfl rfl ih
  | clock now _ ih => exact park_attractor_inv_congr _ _ rfl rfl rfl rfl rfl ih
  | tap axis d _ ih => exact tap_park_attractor_inv P axis d _ ih
  | tick t u _ ih => exact tick_park_attractor_inv P t u _ ih
  | update peek _ ih => exact world_update_park_attractor_inv P peek _ ih
  | fire t peek _ _ ih =>
    refine timer_handler_park_attractor_inv P peek _ ?_
    exact park_attractor_inv_congr _ _ rfl rfl rfl rfl rfl ih
  | mode m _ ih => exact set_world_mode_park_attractor_inv P m _ ih

/-- The frame that leaves Park: it pushes the attractor once more, so the
ACCEL_SAMPLER_CAPACITY most recent pushes are attractor readings. -/
theorem park_exit_frame (peek : AccelPeek) (w : World F C) (h : park_attractor_inv w)
    (hm : w.s_world_mode = WORLD_MODE_PARK)
    (hs : (world_update P peek w).s_world_mode = WORLD_MODE_STEADY) :
    newest_are_attractor ACCEL_SAMPLER_CAPACITY (world_update P peek w) := by
  have hneg : w.park_animStep < 0 := by
    by_contra hc
    obtain ⟨h1, -⟩ := world_update_park_step P peek w hm (by omega)
    rw [h1] at hs
    exact absurd hs (by decide)
  have h8 : w.park_animStep < (ACCEL_SAMPLER_CAPACITY : Int) := by
    unfold ACCEL_SAMPLER_CAPACITY; omega
  obtain ⟨sx, sy, sz⟩ := world_update_samplers P peek w
  obtain ⟨ax, ay, az⟩ := world_update_sample_park P peek w hm h8
  have hst : w.s_world_mode ≠ WORLD_MODE_STEADY := by simp [hm]
  have hw := newest_are_attractor_mono (m := 7)
    (by unfold ACCEL_SAMPLER_CAPACITY; omega) w (h.2.2.2 hm)
  unfold newest_are_attractor at hw ⊢
  rw [sx, sy, sz, if_pos hst, if_pos hst, if_pos hst, ax, ay, az]
  exact ⟨take_push hw.1, take_push hw.2.1, take_push hw.2.2⟩

theorem reachable_world_updates (peeks : List AccelPeek) : ∀ w : World F C,
    Reachable P w → Reachable P (world_updates P peeks w) := by
  induction peeks with
  | nil => intro w h; exact h
  | cons p ps ih => intro w h; exact ih _ (Reachable.update p h)

/-- While the park counter lasts, frame updates keep the mode and count the step down. -/
theorem park_updates_progress (peeks : List AccelPeek) : ∀ w : World F C,
    w.s_world_mode = WORLD_MODE_PARK → (peeks.length : Int) ≤ w.park_animStep + 1 →
    (world_updates P peeks w).s_world_mode = WORLD_MODE_PARK
    ∧ (world_updates P peeks w).park_animStep = w.park_animStep - peeks.length := by
  induction peeks with
  | nil => intro w hm _; simp [world_updates, hm]
  | cons p ps ih =>
    intro w hm hlen
    simp only [List.length_cons, Nat.cast_add, Nat.cast_one] at hlen
    obtain ⟨h1, h2⟩ := world_update_park_step P p w hm (by omega)
    obtain ⟨i1, i2⟩ := ih (world_update P p w) h1 (by omega)
    simp only [world_updates, List.length_cons, Nat.cast_add, Nat.cast_one]
    exact ⟨i1, by omega⟩

end ParkLemmas

theorem parkedWorld_reachable : Reachable intPlatform parkedWorld :=
  reachable_world_updates intPlatform _ _
    (Reachable.mode WORLD_MODE_PARK (Reachable.init () ⟨1, 0, 0, 0⟩))

theorem parkedWorld_state :
    parkedWorld.s_world_mode = WORLD_MODE_PARK ∧ parkedWorld.park_animStep = -1 := by
  have h0 : (initial_world intPlatform () ⟨1, 0, 0, 0⟩).s_world_mode ≠ WORLD_MODE_PARK := by
    simp [initial_world]
  have h1 := park_updates_progress intPlatform (List.replicate 76 samplePeek)
    (set_world_mode intPlatform WORLD_MODE_PARK (initial_world intPlatform () ⟨1, 0, 0, 0⟩))
    (set_world_mode_mode _ _ _)
    (by rw [set_world_mode_PARK _ _ h0]; simp [ANIMATION_SPIN_STEPS])
  refine ⟨h1.1, ?_⟩
  unfold parkedWorld
  rw [h1.2, set_world_mode_PARK _ _ h0]
  simp [ANIMATION_SPIN_STEPS]

theorem parkedWorld_exit (peek : AccelPeek) :
    (world_update intPlatform peek parkedWorld).s_world_mode = WORLD_MODE_STEADY :=
  (world_update_park_done intPlatform peek parkedWorld parkedWorld_state.1
    (by rw [parkedWorld_state.2]; decide)).1

/-! ## src/main.c against src/c/main.c -/

section OldMainLemmas
variable {F C : Type} (P : Platform F C)

end OldMainLemmas

/-! ## src/main.c against src/c/main.c : where the two drivers part -/

section DriverDifferences
variable {F C : Type} (P : Platform F C)

theorem same_but_cam_eq (a b : World F C) (h : same_but_cam a b) (hc : a.s_cam = b.s_cam) :
    a = b := by
  have h1 : a = { b with s_cam := a.s_cam } := h a.s_cam
  rw [hc] at h1
  exact h1

end DriverDifferences

/-- C1, at a failing input: at the fixed-point input 1090650238 the code returns 8454398, while
8454398 is the truncated root of 1090650238 * 65536 and the true remainder exceeds it, so the
exactly rounded root is 8454399. -/
theorem C1_Q_sqrt_failing_input :
    Q_sqrt 1090650238 = 8454398
    ∧ 8454398 ^ 2 ≤ 1090650238 * 65536 ∧ 1090650238 * 65536 < (8454398 + 1) ^ 2
    ∧ 1090650238 * 65536 - 8454398 ^ 2 > 8454398 := by
  refine ⟨?_, by norm_num, by norm_num, by norm_num⟩
  rw [Q_sqrt_nonneg _ (by norm_num) (by norm_num)]
  simp [Q_sqrt_u32_at_1090650238]

/-- C2, counterexample: for the most negative value, whose two's-complement negation is
itself, the root of the negation is not the negation of the root. -/
theorem C2_Q_sqrt_odd_counterexample :
    Q_sqrt (negQ (-2147483648)) ≠ negQ (Q_sqrt (-2147483648)) := by
  have h1 : negQ (-2147483648) = -2147483648 := by decide
  have h2 : Q_sqrt (-2147483648) = -11863283 := by
    rw [Q_sqrt_neg _ (by norm_num) (by norm_num)]
    simp [Q_sqrt_u32_at_2147483648]
  rw [h1, h2]
  decide

/-- C2, restricted: for every 32-bit value other than the most negative one, the root of the
negation is the negation of the root, and both negations are the exact ones. -/
theorem C2_Q_sqrt_odd (v : Int) (h0 : -2147483648 < v) (h1 : v ≤ 2147483647) :
    Q_sqrt (negQ v) = negQ (Q_sqrt v) ∧ negQ v = -v ∧ negQ (Q_sqrt v) = -Q_sqrt v := by
  have hn : negQ v = -v := negQ_eq v h0 (by omega)
  have key : Q_sqrt (-v) = -Q_sqrt v ∧ -2147483648 < Q_sqrt v ∧ Q_sqrt v ≤ 2147483648 := by
    rcases lt_trichotomy v 0 with hv | hv | hv
    · have hb := Q_sqrt_u32_lt (-v).toNat (by omega)
      rw [Q_sqrt_neg v hv (by omega), Q_sqrt_nonneg (-v) (by omega) (by omega)]
      omega
    · subst hv
      have hb := Q_sqrt_u32_lt (0 : Int).toNat (by decide)
      have e : Q_sqrt 0 = 0 := by
        rw [Q_sqrt_nonneg 0 (by decide) (by decide), Q_sqrt_u32_spec _ (by decide)]
        decide
      simp [e]
    · have hb := Q_sqrt_u32_lt v.toNat (by omega)
      rw [Q_sqrt_nonneg v (by omega) h1, Q_sqrt_neg (-v) (by omega) (by omega)]
      simp only [neg_neg]
      exact ⟨trivial, by omega, by omega⟩
  rw [hn, negQ_eq (Q_sqrt v) key.2.1 key.2.2]
  exact ⟨key.1, rfl, rfl⟩

/-- C2 at the input 7. -/
theorem C2_Q_sqrt_odd_witness :
    Q_sqrt (negQ 7) = negQ (Q_sqrt 7) ∧ negQ 7 = -7 ∧ negQ (Q_sqrt 7) = -Q_sqrt 7 :=
  C2_Q_sqrt_odd 7 (by decide) (by decide)

/-- C3, counterexample: at the input 148001 the root is 98485 and its rounded square is
147999, two raw units away from the input. -/
theorem C3_Q_sqrt_square_counterexample :
    ¬ (Int.natAbs (roundedProduct (Q_sqrt 148001) (Q_sqrt 148001) - 148001) ≤ 1) := by
  have h : Q_sqrt 148001 = 98485 := by
    rw [Q_sqrt_nonneg _ (by norm_num) (by norm_num)]
    simp [Q_sqrt_u32_at_148001]
  rw [h]
  decide

/-- C3, with the bound that holds: for every non-negative input the rounded square of the root differs from the
input by at most one raw unit plus one raw unit per whole unit of the root, hence by at most
one raw unit for every input below 65536 (below 1.0). -/
theorem C3_Q_sqrt_square (v : Int) (h0 : 0 ≤ v) (h1 : v ≤ 2147483647) :
    Int.natAbs (roundedProduct (Q_sqrt v) (Q_sqrt v) - v) ≤ 1 + (Q_sqrt v).toNat / 65536
    ∧ (v < 65536 → Int.natAbs (roundedProduct (Q_sqrt v) (Q_sqrt v) - v) ≤ 1) := by
  obtain ⟨a, rfl⟩ : ∃ a : Nat, v = (a : Int) := ⟨v.toNat, by omega⟩
  have ha : a ≤ 2147483647 := by omega
  rw [Q_sqrt_nonneg _ h0 h1, Int.toNat_ofNat]
  have hspec := Q_sqrt_u32_spec a (by omega)
  have hle : Nat.sqrt a ^ 2 ≤ a := Nat.sqrt_le' a
  have hbounds : Q_sqrt_u32 a * Q_sqrt_u32 a ≤ a * 65536 + (Q_sqrt_u32 a - 1)
      ∧ a * 65536 ≤ Q_sqrt_u32 a * Q_sqrt_u32 a + Q_sqrt_u32 a + 16384
      ∧ (a < 65536 → a * 65536 ≤ Q_sqrt_u32 a * Q_sqrt_u32 a + Q_sqrt_u32 a) := by
    by_cases hrem : a - (Nat.sqrt a) ^ 2 > 65535
    · rw [if_pos hrem] at hspec
      have := roundRoot_sq_bounds (a * 65536 - 16384)
      rw [← hspec] at this
      omega
    · rw [if_neg hrem] at hspec
      have := roundRoot_sq_bounds (a * 65536)
      rw [← hspec] at this
      omega
  generalize Q_sqrt_u32 a = s at hbounds ⊢
  obtain ⟨hb1, hb2, hb3⟩ := hbounds
  have hs : a < 65536 → s ≤ 65535 := by
    intro h
    by_contra hc
    have : 65536 * s ≤ s * s := Nat.mul_le_mul_right s (by omega)
    omega
  unfold roundedProduct
  have hcast : ((s : Int) * (s : Int)) = ((s * s : Nat) : Int) := by push_cast; ring
  rw [hcast, Int.toNat_ofNat]
  generalize s * s = S at hb1 hb2 hb3 ⊢
  constructor
  · omega
  · intro hv
    have hv2 : a < 65536 := by omega
    have hb4 := hb3 hv2
    have hs2 := hs hv2
    omega

/-- C3 with the bound that holds, at the input 148001. -/
theorem C3_Q_sqrt_square_witness :
    Int.natAbs (roundedProduct (Q_sqrt 148001) (Q_sqrt 148001) - 148001)
        ≤ 1 + (Q_sqrt 148001).toNat / 65536
    ∧ ((148001 : Int) < 65536 →
        Int.natAbs (roundedProduct (Q_sqrt 148001) (Q_sqrt 148001) - 148001) ≤ 1) :=
  C3_Q_sqrt_square 148001 (by decide) (by decide)

/-- C4: the root of a fixed-point perfect square k*k (k from 0 to 181) is k itself with all
sixteen fractional bits zero; in particular the root of 0 is 0. -/
theorem C4_Q_sqrt_perfect_square (k : Int) (h0 : 0 ≤ k) (h1 : k ≤ 181) :
    Q_sqrt (k * k * 65536) = k * 65536 := by
  obtain ⟨n, rfl⟩ : ∃ n : Nat, k = (n : Int) := ⟨k.toNat, by omega⟩
  have hn : n ≤ 181 := by omega
  have hnn : n * n ≤ 181 * 181 := Nat.mul_le_mul hn hn
  have hcast : ((n : Int) * (n : Int) * 65536) = ((n * n * 65536 : Nat) : Int) := by push_cast; ring
  rw [hcast, Q_sqrt_nonneg _ (by omega) (by omega), Int.toNat_ofNat,
    Q_sqrt_u32_spec _ (by omega)]
  have e1 : n * n * 65536 = (256 * n) * (256 * n) := by ring
  have e2 : n * n * 65536 * 65536 = (65536 * n) * (65536 * n) := by ring
  have e3 : (256 * n) ^ 2 = (256 * n) * (256 * n) := by ring
  rw [e2, e1, Nat.sqrt_eq, e3, Nat.sub_self, if_neg (by decide), roundRoot_square]
  push_cast; ring

/-- C4 at k = 3: the root of nine is three. -/
theorem C4_Q_sqrt_perfect_square_witness : Q_sqrt (3 * 3 * 65536) = 3 * 65536 :=
  C4_Q_sqrt_perfect_square 3 (by decide) (by decide)

/-! ## Claims about the world state machine -/

/-- C5: whatever the event (tap, tick, frame update, timer firing), the mode either stays or
moves along one of Steady->Launch, Launch->Dynamic, Dynamic->Park, Park->Steady; in particular
no handler sets it to Undefined, and start-up leaves Undefined for Steady. -/
theorem C5_mode_transitions {F C : Type} (P : Platform F C) (e : Event) (w : World F C) :
    ((e.handle P w).s_world_mode = w.s_world_mode
      ∨ (w.s_world_mode = WORLD_MODE_STEADY ∧ (e.handle P w).s_world_mode = WORLD_MODE_LAUNCH)
      ∨ (w.s_world_mode = WORLD_MODE_LAUNCH ∧ (e.handle P w).s_world_mode = WORLD_MODE_DYNAMIC)
      ∨ (w.s_world_mode = WORLD_MODE_DYNAMIC ∧ (e.handle P w).s_world_mode = WORLD_MODE_PARK)
      ∨ (w.s_world_mode = WORLD_MODE_PARK ∧ (e.handle P w).s_world_mode = WORLD_MODE_STEADY))
    ∧ ((e.handle P w).s_world_mode ≠ WORLD_MODE_UNDEFINED
      ∨ w.s_world_mode = WORLD_MODE_UNDEFINED)
    ∧ ∀ (clock : C) (now : Tm),
        (window_load P (initial_world P clock now)).s_world_mode = WORLD_MODE_STEADY := by
  have key : (e.handle P w).s_world_mode = w.s_world_mode
      ∨ (w.s_world_mode = WORLD_MODE_STEADY ∧ (e.handle P w).s_world_mode = WORLD_MODE_LAUNCH)
      ∨ (w.s_world_mode = WORLD_MODE_LAUNCH ∧ (e.handle P w).s_world_mode = WORLD_MODE_DYNAMIC)
      ∨ (w.s_world_mode = WORLD_MODE_DYNAMIC ∧ (e.handle P w).s_world_mode = WORLD_MODE_PARK)
      ∨ (w.s_world_mode = WORLD_MODE_PARK
          ∧ (e.handle P w).s_world_mode = WORLD_MODE_STEADY) := by
    cases e with
    | tap axis d now =>
      have h := tap_mode P axis d { w with now := now }
      simp only [Event.handle, h]
      split_ifs with hc
      · exact Or.inr (Or.inl ⟨hc.1, rfl⟩)
      · exact Or.inl rfl
    | tick t u =>
      simp only [Event.handle, tick_mode]
      by_cases hc : w.s_world_mode = WORLD_MODE_DYNAMIC ∧
          (if w.s_spin_speed = 0 then incr_int32 w.s_user_secondsInactive
            else w.s_user_secondsInactive) > USER_SECONDSINACTIVE_MAX
      · rw [if_pos hc]
        exact Or.inr (Or.inr (Or.inr (Or.inl ⟨hc.1, rfl⟩)))
      · rw [if_neg hc]
        exact Or.inl rfl
    | update peek =>
      simp only [Event.handle, world_update_mode]
      cases hw : w.s_world_mode <;> simp <;> omega
    | timer peek =>
      obtain ⟨f1, -⟩ := timer_handler_fields P peek (app_timer_fired w)
      obtain ⟨g1, g2, g3, -⟩ := app_timer_fired_fields w
      simp only [Event.handle, f1, world_update_mode, g1, g2, g3]
      cases hw : w.s_world_mode <;> simp <;> omega
  refine ⟨key, ?_, ?_⟩
  · rcases key with h | h | h | h | h
    · by_cases hu : w.s_world_mode = WORLD_MODE_UNDEFINED
      · exact Or.inr hu
      · exact Or.inl (by rw [h]; exact hu)
    all_goals exact Or.inl (by rw [h.2]; decide)
  · intro clock now
    unfold window_load
    simp only [clock_updateTime_eq, tick_mode, set_world_mode_mode]
    simp [WORLD_MODE_INITIAL]

/-- C6, counterexample: from the state just after entry into Launch, no run of at most 76
consecutive frame updates reaches Dynamic. -/
theorem C6_launch_within_76_counterexample :
    ¬ ∃ peeks : List AccelPeek, peeks.length ≤ 76
        ∧ (world_updates intPlatform peeks (sampleWorld WORLD_MODE_LAUNCH 75 (-1))).s_world_mode
            = WORLD_MODE_DYNAMIC := by
  rintro ⟨peeks, hlen, hd⟩
  have h := launch_progress intPlatform peeks (sampleWorld WORLD_MODE_LAUNCH 75 (-1)) rfl
    (by show (peeks.length : Int) ≤ 75 + 1; omega)
  rw [h.1] at hd
  exact absurd hd (by decide)

/-- C6, with the count that holds: from the state just after entry into Launch the mode is still Launch after
each of the first ANIMATION_SPIN_STEPS + 1 = 76 consecutive frame updates, and the 77th makes
it Dynamic with the spin rotation equal to SPIN_ROTATION_STEADY + launch_animRange. -/
theorem C6_launch_to_dynamic {F C : Type} (P : Platform F C) (w : World F C)
    (peeks : List AccelPeek) (peek : AccelPeek)
    (hm : w.s_world_mode = WORLD_MODE_LAUNCH) (hs : w.launch_animStep = ANIMATION_SPIN_STEPS)
    (hlen : (peeks.length : Int) = ANIMATION_SPIN_STEPS + 1) :
    (∀ k : Nat, (world_updates P (peeks.take k) w).s_world_mode = WORLD_MODE_LAUNCH)
    ∧ (world_update P peek (world_updates P peeks w)).s_world_mode = WORLD_MODE_DYNAMIC
    ∧ (world_update P peek (world_updates P peeks w)).s_spin_rotation
        = P.fadd (SPIN_ROTATION_STEADY P) w.launch_animRange := by
  refine ⟨fun k => ?_, ?_⟩
  · have hk : (peeks.take k).length ≤ peeks.length := by
      rw [List.length_take]; exact Nat.min_le_right _ _
    exact (launch_progress P (peeks.take k) w hm (by omega)).1
  · obtain ⟨h1, h2, h3⟩ := launch_progress P peeks w hm (by omega)
    have h := world_update_launch_done P peek (world_updates P peeks w) h1 (by omega)
    rw [h3] at h
    exact h

/-- C6 with the count that holds, on a sample run: seventy-six frames from a freshly launched world, then one more. -/
theorem C6_launch_to_dynamic_witness :
    (∀ k : Nat, (world_updates intPlatform ((List.replicate 76 samplePeek).take k)
        (sampleWorld WORLD_MODE_LAUNCH 75 (-1))).s_world_mode = WORLD_MODE_LAUNCH)
    ∧ (world_update intPlatform samplePeek (world_updates intPlatform
        (List.replicate 76 samplePeek) (sampleWorld WORLD_MODE_LAUNCH 75 (-1)))).s_world_mode
          = WORLD_MODE_DYNAMIC
    ∧ (world_update intPlatform samplePeek (world_updates intPlatform
        (List.replicate 76 samplePeek) (sampleWorld WORLD_MODE_LAUNCH 75 (-1)))).s_spin_rotation
          = intPlatform.fadd (SPIN_ROTATION_STEADY intPlatform)
              (sampleWorld WORLD_MODE_LAUNCH 75 (-1)).launch_animRange :=
  C6_launch_to_dynamic intPlatform (sampleWorld WORLD_MODE_LAUNCH 75 (-1))
    (List.replicate 76 samplePeek) samplePeek rfl rfl (by decide)

/-- C7: from the state just after entry into Park, whatever taps and ticks are interleaved,
the mode is Park as long as at most ANIMATION_SPIN_STEPS + 1 = 76 frame updates have run, and
the 77th frame update enters Steady with the spin rotation reset to SPIN_ROTATION_STEADY. -/
theorem C7_park_to_steady {F C : Type} (P : Platform F C) (w : World F C)
    (es : List Event) (e : Event)
    (hm : w.s_world_mode = WORLD_MODE_PARK) (hs : w.park_animStep = ANIMATION_SPIN_STEPS)
    (hcount : ((es.countP Event.isFrame : Nat) : Int) = ANIMATION_SPIN_STEPS + 1)
    (hf : e.isFrame = true) :
    (∀ k : Nat, (run P (es.take k) w).s_world_mode = WORLD_MODE_PARK)
    ∧ (e.handle P (run P es w)).s_world_mode = WORLD_MODE_STEADY
    ∧ (e.handle P (run P es w)).s_spin_rotation = SPIN_ROTATION_STEADY P := by
  refine ⟨fun k => ?_, ?_⟩
  · have hk := countP_take_le Event.isFrame es k
    exact (park_progress P (es.take k) w hm (by omega)).1
  · obtain ⟨h1, h2⟩ := park_progress P es w hm (by omega)
    exact (event_park P e (run P es w) h1).2.1 hf (by rw [h2, hs, hcount]; omega)

/-- C7 on a sample run: a tap and a tick ahead of seventy-six frames, then one more frame. -/
theorem C7_park_to_steady_witness :
    (∀ k : Nat, (run intPlatform
        ((Event.tap ACCEL_AXIS_Y 1 ⟨1, 0, 0, 0⟩ :: Event.tick ⟨1, 0, 0, 1⟩ 1 ::
          List.replicate 76 (Event.update samplePeek)).take k)
        (sampleWorld WORLD_MODE_PARK (-1) 75)).s_world_mode = WORLD_MODE_PARK)
    ∧ ((Event.timer samplePeek).handle intPlatform (run intPlatform
        (Event.tap ACCEL_AXIS_Y 1 ⟨1, 0, 0, 0⟩ :: Event.tick ⟨1, 0, 0, 1⟩ 1 ::
          List.replicate 76 (Event.update samplePeek))
        (sampleWorld WORLD_MODE_PARK (-1) 75))).s_world_mode = WORLD_MODE_STEADY
    ∧ ((Event.timer samplePeek).handle intPlatform (run intPlatform
        (Event.tap ACCEL_AXIS_Y 1 ⟨1, 0, 0, 0⟩ :: Event.tick ⟨1, 0, 0, 1⟩ 1 ::
          List.replicate 76 (Event.update samplePeek))
        (sampleWorld WORLD_MODE_PARK (-1) 75))).s_spin_rotation
          = SPIN_ROTATION_STEADY intPlatform :=
  C7_park_to_steady intPlatform (sampleWorld WORLD_MODE_PARK (-1) 75)
    (Event.tap ACCEL_AXIS_Y 1 ⟨1, 0, 0, 0⟩ :: Event.tick ⟨1, 0, 0, 1⟩ 1 ::
      List.replicate 76 (Event.update samplePeek))
    (Event.timer samplePeek) rfl rfl (by decide) rfl

/-- C8: from a Dynamic world with spin speed 0 and inactivity counter 0, and with no tap in
between (frame updates may be interleaved), the mode is Dynamic as long as at most
USER_SECONDSINACTIVE_MAX = 5 ticks have run, and the 6th tick makes it Park. -/
theorem C8_inactivity_parks {F C : Type} (P : Platform F C) (w : World F C)
    (es : List Event) (tick_time : Tm) (units_changed : Nat)
    (hm : w.s_world_mode = WORLD_MODE_DYNAMIC) (hs : w.s_spin_speed = 0)
    (hc : w.s_user_secondsInactive = 0)
    (hnt : es.all (fun e => !e.isTap) = true)
    (hcount : ((es.countP Event.isTick : Nat) : Int) = USER_SECONDSINACTIVE_MAX) :
    (∀ k : Nat, (run P (es.take k) w).s_world_mode = WORLD_MODE_DYNAMIC)
    ∧ (tick_timer_service_handler P tick_time units_changed (run P es w)).s_world_mode
        = WORLD_MODE_PARK := by
  have h5 : USER_SECONDSINACTIVE_MAX = 5 := rfl
  refine ⟨fun k => ?_, ?_⟩
  · have hk := countP_take_le Event.isTick es k
    exact (dynamic_progress P (es.take k) w hm hs (by omega)
      (all_take _ es k hnt) (by omega)).1
  · obtain ⟨h1, h2, h3⟩ := dynamic_progress P es w hm hs (by omega) hnt (by omega)
    exact tick_dynamic_timeout P tick_time units_changed (run P es w) h1 h2 (by omega)

/-- C8 on a sample run: five ticks with frames in between, then the sixth tick. -/
theorem C8_inactivity_parks_witness :
    (∀ k : Nat, (run intPlatform
        ([Event.tick ⟨1, 0, 0, 1⟩ 1, Event.update samplePeek, Event.tick ⟨1, 0, 0, 2⟩ 1,
          Event.tick ⟨1, 0, 0, 3⟩ 1, Event.timer samplePeek, Event.tick ⟨1, 0, 0, 4⟩ 1,
          Event.tick ⟨1, 0, 0, 5⟩ 1].take k)
        (sampleWorld WORLD_MODE_DYNAMIC (-1) (-1))).s_world_mode = WORLD_MODE_DYNAMIC)
    ∧ (tick_timer_service_handler intPlatform ⟨1, 0, 0, 6⟩ 1 (run intPlatform
        [Event.tick ⟨1, 0, 0, 1⟩ 1, Event.update samplePeek, Event.tick ⟨1, 0, 0, 2⟩ 1,
          Event.tick ⟨1, 0, 0, 3⟩ 1, Event.timer samplePeek, Event.tick ⟨1, 0, 0, 4⟩ 1,
          Event.tick ⟨1, 0, 0, 5⟩ 1]
        (sampleWorld WORLD_MODE_DYNAMIC (-1) (-1)))).s_world_mode = WORLD_MODE_PARK :=
  C8_inactivity_parks intPlatform (sampleWorld WORLD_MODE_DYNAMIC (-1) (-1))
    [Event.tick ⟨1, 0, 0, 1⟩ 1, Event.update samplePeek, Event.tick ⟨1, 0, 0, 2⟩ 1,
      Event.tick ⟨1, 0, 0, 3⟩ 1, Event.timer samplePeek, Event.tick ⟨1, 0, 0, 4⟩ 1,
      Event.tick ⟨1, 0, 0, 5⟩ 1]
    ⟨1, 0, 0, 6⟩ 1 rfl rfl rfl (by decide) (by decide)

/-- C9: in Steady a tap on axis Y makes the mode Launch, a tap on axis X or Z leaves it
Steady, and no tap produces any other mode. -/
theorem C9_steady_tap {F C : Type} (P : Platform F C) (w : World F C) (direction : Int)
    (hm : w.s_world_mode = WORLD_MODE_STEADY) :
    (accel_tap_service_handler P ACCEL_AXIS_Y direction w).s_world_mode = WORLD_MODE_LAUNCH
    ∧ (accel_tap_service_handler P ACCEL_AXIS_X direction w).s_world_mode = WORLD_MODE_STEADY
    ∧ (accel_tap_service_handler P ACCEL_AXIS_Z direction w).s_world_mode = WORLD_MODE_STEADY
    ∧ ∀ axis : AccelAxisType,
        (accel_tap_service_handler P axis direction w).s_world_mode = WORLD_MODE_STEADY
        ∨ (accel_tap_service_handler P axis direction w).s_world_mode = WORLD_MODE_LAUNCH := by
  refine ⟨?_, ?_, ?_, fun axis => ?_⟩
  · simp [tap_mode, hm]
  · simp [tap_mode, hm]
  · simp [tap_mode, hm]
  · cases axis <;> simp [tap_mode, hm]

/-- C9 on a sample world: the three taps on a steady world. -/
theorem C9_steady_tap_witness :
    (accel_tap_service_handler intPlatform ACCEL_AXIS_Y 1
        (sampleWorld WORLD_MODE_STEADY (-1) (-1))).s_world_mode = WORLD_MODE_LAUNCH
    ∧ (accel_tap_service_handler intPlatform ACCEL_AXIS_X 1
        (sampleWorld WORLD_MODE_STEADY (-1) (-1))).s_world_mode = WORLD_MODE_STEADY
    ∧ (accel_tap_service_handler intPlatform ACCEL_AXIS_Z 1
        (sampleWorld WORLD_MODE_STEADY (-1) (-1))).s_world_mode = WORLD_MODE_STEADY
    ∧ ∀ axis : AccelAxisType,
        (accel_tap_service_handler intPlatform axis 1
          (sampleWorld WORLD_MODE_STEADY (-1) (-1))).s_world_mode = WORLD_MODE_STEADY
        ∨ (accel_tap_service_handler intPlatform axis 1
          (sampleWorld WORLD_MODE_STEADY (-1) (-1))).s_world_mode = WORLD_MODE_LAUNCH :=
  C9_steady_tap intPlatform (sampleWorld WORLD_MODE_STEADY (-1) (-1)) 1 rfl

/-- C10: set_world_mode with the current mode returns the world unchanged, in every field,
and calling set_world_mode twice with the same target gives the world of a single call. -/
theorem C10_set_world_mode_idempotent {F C : Type} (P : Platform F C) (m : WorldMode)
    (w : World F C) :
    set_world_mode P w.s_world_mode w = w
    ∧ set_world_mode P m (set_world_mode P m w) = set_world_mode P m w :=
  ⟨set_world_mode_same P _ w rfl,
    set_world_mode_same P m _ (set_world_mode_mode P m w).symm⟩

/-! ## Claims about taps, timers, step counters and samplers -/

/-- C11: whatever the world, the axis and the direction, the inactivity counter is 0 when
accel_tap_service_handler returns, also when it went on to refresh the time or to enter
Launch. -/
theorem C11_tap_resets_inactivity {F C : Type} (P : Platform F C) (axis : AccelAxisType)
    (direction : Int) (w : World F C) :
    (accel_tap_service_handler P axis direction w).s_user_secondsInactive = 0 := by
  unfold accel_tap_service_handler
  cases hm : w.s_world_mode <;> cases axis <;> simp only [hm]
  · rw [clock_updateTime_eq]
    exact ((tick_not_dynamic P _ 0 _ (by simp [hm])).2.2.2.2.1).trans rfl
  · rw [set_world_mode_LAUNCH P _ (by simp [hm]), clock_updateTime_eq]
    exact ((tick_not_dynamic P _ 0 _ (by simp)).2.2.2.2.1).trans rfl

/-- C12, counterexample: in Undefined a tap on axis Y leaves the spin speed at 0. -/
theorem C12_twist_undefined_counterexample :
    (accel_tap_service_handler intPlatform ACCEL_AXIS_Y 1
        (sampleWorld WORLD_MODE_UNDEFINED (-1) (-1))).s_spin_speed ≠ SPIN_SPEED_AFTER_TWIST := by
  decide

/-- C12, for the modes that react: in Launch, Dynamic and Park a tap on axis Y sets the spin
speed to SPIN_SPEED_AFTER_TWIST and leaves the mode unchanged; in Undefined it leaves both the
spin speed and the mode unchanged. -/
theorem C12_twist_sets_speed {F C : Type} (P : Platform F C) (direction : Int)
    (w : World F C) (hm : w.s_world_mode ≠ WORLD_MODE_STEADY) :
    (accel_tap_service_handler P ACCEL_AXIS_Y direction w).s_spin_speed
        = (if w.s_world_mode = WORLD_MODE_UNDEFINED then w.s_spin_speed
            else SPIN_SPEED_AFTER_TWIST)
    ∧ (accel_tap_service_handler P ACCEL_AXIS_Y direction w).s_world_mode = w.s_world_mode := by
  unfold accel_tap_service_handler
  cases hw : w.s_world_mode <;> simp_all

/-- C12 on a sample world in Dynamic. -/
theorem C12_twist_sets_speed_witness :
    (accel_tap_service_handler intPlatform ACCEL_AXIS_Y 1
        (sampleWorld WORLD_MODE_DYNAMIC (-1) (-1))).s_spin_speed
        = (if (sampleWorld WORLD_MODE_DYNAMIC (-1) (-1)).s_world_mode = WORLD_MODE_UNDEFINED
            then (sampleWorld WORLD_MODE_DYNAMIC (-1) (-1)).s_spin_speed
            else SPIN_SPEED_AFTER_TWIST)
    ∧ (accel_tap_service_handler intPlatform ACCEL_AXIS_Y 1
        (sampleWorld WORLD_MODE_DYNAMIC (-1) (-1))).s_world_mode
        = (sampleWorld WORLD_MODE_DYNAMIC (-1) (-1)).s_world_mode :=
  C12_twist_sets_speed intPlatform 1 (sampleWorld WORLD_MODE_DYNAMIC (-1) (-1)) (by decide)

/-- C13: when world_update_timer_handler returns, s_world_updateTimer is non-NULL exactly
when the mode is not Steady or the clock entity reports an animation; in that case it is a
timer newly registered with interval ANIMATION_INTERVAL_MS, otherwise it is NULL and nothing
was registered. -/
theorem C13_timer_rearmed_iff {F C : Type} (P : Platform F C) (peek : AccelPeek)
    (w : World F C) :
    ((world_update_timer_handler P peek w).s_world_updateTimer ≠ none
      ↔ ((world_update_timer_handler P peek w).s_world_mode ≠ WORLD_MODE_STEADY
          ∨ P.Clock3D_isAnimated (world_update_timer_handler P peek w).s_clock = true))
    ∧ (world_update_timer_handler P peek w).s_world_updateTimer
        = (if (world_update_timer_handler P peek w).s_world_mode ≠ WORLD_MODE_STEADY
              ∨ P.Clock3D_isAnimated (world_update_timer_handler P peek w).s_clock = true
            then some w.nextHandle else none)
    ∧ (world_update_timer_handler P peek w).timers
        = (if (world_update_timer_handler P peek w).s_world_mode ≠ WORLD_MODE_STEADY
              ∨ P.Clock3D_isAnimated (world_update_timer_handler P peek w).s_clock = true
            then ⟨w.nextHandle, ANIMATION_INTERVAL_MS⟩ :: w.timers else w.timers) := by
  obtain ⟨h1, h2, h3, h4⟩ := timer_handler_closed P peek w
  rw [h1, h2, h3, h4]
  refine ⟨?_, rfl, rfl⟩
  split_ifs with hc
  · simp [hc]
  · simp [hc]

/-- C14: in every reachable world at most one timer is registered with the host and
s_world_updateTimer is non-NULL exactly when one is registered, namely that one; a tick then
leaves exactly one timer pending, armed with delay 0, which is the timer that was pending
before when there was one (no second timer is registered) and a new one otherwise. -/
theorem C14_single_frame_timer {F C : Type} (P : Platform F C) (w : World F C)
    (hr : Reachable P w) :
    w.timers.length ≤ 1
    ∧ (w.s_world_updateTimer ≠ none ↔ w.timers.length = 1)
    ∧ w.timers.map AppTimer.handle = w.s_world_updateTimer.toList
    ∧ ∀ (tick_time : Tm) (units_changed : Nat),
        (tick_timer_service_handler P tick_time units_changed w).s_world_updateTimer
            = some (w.s_world_updateTimer.getD w.nextHandle)
        ∧ (tick_timer_service_handler P tick_time units_changed w).timers
            = [⟨w.s_world_updateTimer.getD w.nextHandle, 0⟩]
        ∧ (tick_timer_service_handler P tick_time units_changed w).nextHandle
            = (if w.s_world_updateTimer = none then w.nextHandle + 1 else w.nextHandle) := by
  have hm := reachable_timers_match P w hr
  have hlen : w.timers.length = w.s_world_updateTimer.toList.length := by
    rw [← hm, List.length_map]
  refine ⟨?_, ?_, hm, fun t u => ?_⟩
  · rw [hlen]; cases w.s_world_updateTimer <;> simp
  · rw [hlen]; cases w.s_world_updateTimer <;> simp
  · obtain ⟨-, handle, h1, h2, h3⟩ := tick_timers_match P t u w hm
    subst h3
    refine ⟨h1, h2, ?_⟩
    cases hp : w.s_world_updateTimer with
    | none => rw [if_pos rfl]; exact (tick_timers_none P t u w hp).2.2
    | some h0 => rw [if_neg (by simp)]; exact (tick_timers_some P t u w h0 hp).2.2

/-- C14 on the world just after start-up. -/
theorem C14_single_frame_timer_witness :
    bootedWorld.timers.length ≤ 1
    ∧ (bootedWorld.s_world_updateTimer ≠ none ↔ bootedWorld.timers.length = 1)
    ∧ bootedWorld.timers.map AppTimer.handle = bootedWorld.s_world_updateTimer.toList
    ∧ ∀ (tick_time : Tm) (units_changed : Nat),
        (tick_timer_service_handler intPlatform tick_time units_changed
            bootedWorld).s_world_updateTimer
          = some (bootedWorld.s_world_updateTimer.getD bootedWorld.nextHandle)
        ∧ (tick_timer_service_handler intPlatform tick_time units_changed bootedWorld).timers
          = [⟨bootedWorld.s_world_updateTimer.getD bootedWorld.nextHandle, 0⟩]
        ∧ (tick_timer_service_handler intPlatform tick_time units_changed
            bootedWorld).nextHandle
          = (if bootedWorld.s_world_updateTimer = none then bootedWorld.nextHandle + 1
              else bootedWorld.nextHandle) :=
  C14_single_frame_timer intPlatform bootedWorld
    (Reachable.load (Reachable.init () ⟨1, 0, 0, 0⟩))

/-- C15: in every reachable world both step counters lie between -1 and
ANIMATION_SPIN_STEPS, and a frame update run there reads the interpolation table only at
indices from 0 to ANIMATION_SPIN_STEPS, inside its ANIMATION_SPIN_STEPS + 1 entries:
replacing the table by any other that agrees on these indices does not change the frame
update. -/
theorem C15_steps_and_indices_in_range {F C : Type} (P : Platform F C) (w : World F C)
    (hr : Reachable P w) :
    -1 ≤ w.launch_animStep ∧ w.launch_animStep ≤ ANIMATION_SPIN_STEPS
    ∧ -1 ≤ w.park_animStep ∧ w.park_animStep ≤ ANIMATION_SPIN_STEPS
    ∧ ∀ (g : Int → F) (peek : AccelPeek),
        (∀ i : Int, 0 ≤ i → i < spinRotationFraction_entries →
          g i = P.spinRotationFraction i) →
        world_update { P with spinRotationFraction := g } peek w = world_update P peek w := by
  have h := reachable_steps_in_range P w hr
  refine ⟨h.1, h.2.1, h.2.2.1, h.2.2.2, fun g peek hg => ?_⟩
  refine world_update_table_independent P g (fun i h0 h1 => hg i h0 ?_) peek w h
  unfold spinRotationFraction_entries
  omega

/-- C15 on the world just after start-up. -/
theorem C15_steps_and_indices_in_range_witness :
    -1 ≤ bootedWorld.launch_animStep ∧ bootedWorld.launch_animStep ≤ ANIMATION_SPIN_STEPS
    ∧ -1 ≤ bootedWorld.park_animStep ∧ bootedWorld.park_animStep ≤ ANIMATION_SPIN_STEPS
    ∧ ∀ (g : Int → Int) (peek : AccelPeek),
        (∀ i : Int, 0 ≤ i → i < spinRotationFraction_entries →
          g i = intPlatform.spinRotationFraction i) →
        world_update { intPlatform with spinRotationFraction := g } peek bootedWorld
          = world_update intPlatform peek bootedWorld :=
  C15_steps_and_indices_in_range intPlatform bootedWorld
    (Reachable.load (Reachable.init () ⟨1, 0, 0, 0⟩))

/-- C16: a frame update in Dynamic moves the spin speed one unit toward zero without
crossing it (s - 1 for s > 0, s + 1 for s < 0, 0 for 0), keeps the mode, and leaves the spin
rotation unchanged when the resulting speed is 0; otherwise the rotation advances by the
resulting speed times SPIN_ROTATION_QUANTA and is normalised. -/
theorem C16_dynamic_friction {F C : Type} (P : Platform F C) (peek : AccelPeek)
    (w : World F C) (hm : w.s_world_mode = WORLD_MODE_DYNAMIC) :
    (world_update P peek w).s_spin_speed
        = (if w.s_spin_speed > 0 then w.s_spin_speed - 1
            else if w.s_spin_speed < 0 then w.s_spin_speed + 1 else 0)
    ∧ (world_update P peek w).s_world_mode = WORLD_MODE_DYNAMIC
    ∧ (world_update P peek w).s_spin_rotation
        = (if (world_update P peek w).s_spin_speed = 0 then w.s_spin_rotation
            else P.FastMath_normalizeAngle (P.fadd w.s_spin_rotation
              (P.fmul (P.ofInt (world_update P peek w).s_spin_speed) P.SPIN_ROTATION_QUANTA))) := by
  obtain ⟨f1, f2, f3⟩ := world_update_fields P peek w (by simp [hm])
  obtain ⟨r1, r2⟩ := rotation_dynamic P { w with
    s_clock := P.Clock3D_second100ths_update
      (P.Clock3D_updateAnimation w.s_clock ANIMATION_FLIP_STEPS) } hm
  rw [f1, f2, f3]
  exact ⟨r1, rotation_dynamic_mode P _ hm, r2⟩

/-- C16 on a sample world spinning at speed 400. -/
theorem C16_dynamic_friction_witness :
    (world_update intPlatform samplePeek spinningWorld).s_spin_speed
      = (if spinningWorld.s_spin_speed > 0 then spinningWorld.s_spin_speed - 1
          else if spinningWorld.s_spin_speed < 0 then spinningWorld.s_spin_speed + 1 else 0)
    ∧ (world_update intPlatform samplePeek spinningWorld).s_world_mode = WORLD_MODE_DYNAMIC
    ∧ (world_update intPlatform samplePeek spinningWorld).s_spin_rotation
      = (if (world_update intPlatform samplePeek spinningWorld).s_spin_speed = 0
          then spinningWorld.s_spin_rotation
          else intPlatform.FastMath_normalizeAngle (intPlatform.fadd
            spinningWorld.s_spin_rotation
            (intPlatform.fmul
              (intPlatform.ofInt (world_update intPlatform samplePeek spinningWorld).s_spin_speed)
              intPlatform.SPIN_ROTATION_QUANTA))) :=
  C16_dynamic_friction intPlatform samplePeek spinningWorld rfl

/-- C17: when set_world_mode(WORLD_MODE_LAUNCH) is called in a reachable world whose mode is
not Launch, on return launch_animStep is ANIMATION_SPIN_STEPS and exactly one frame timer is
pending, with delay 0: the timer that was pending before, re-armed, when there was one, and
a newly registered one otherwise.  The same holds after a twist tap in Steady. -/
theorem C17_launch_entry_arms_timer {F C : Type} (P : Platform F C) (w : World F C)
    (hr : Reachable P w) (hm : w.s_world_mode ≠ WORLD_MODE_LAUNCH) :
    ((set_world_mode P WORLD_MODE_LAUNCH w).launch_animStep = ANIMATION_SPIN_STEPS
      ∧ (set_world_mode P WORLD_MODE_LAUNCH w).s_world_updateTimer
          = some (w.s_world_updateTimer.getD w.nextHandle)
      ∧ (set_world_mode P WORLD_MODE_LAUNCH w).timers
          = [⟨w.s_world_updateTimer.getD w.nextHandle, 0⟩]
      ∧ (set_world_mode P WORLD_MODE_LAUNCH w).nextHandle
          = (if w.s_world_updateTimer = none then w.nextHandle + 1 else w.nextHandle))
    ∧ ∀ direction : Int, w.s_world_mode = WORLD_MODE_STEADY →
        (accel_tap_service_handler P ACCEL_AXIS_Y direction w).launch_animStep
            = ANIMATION_SPIN_STEPS
        ∧ (accel_tap_service_handler P ACCEL_AXIS_Y direction w).s_world_updateTimer
            = some (w.s_world_updateTimer.getD w.nextHandle)
        ∧ (accel_tap_service_handler P ACCEL_AXIS_Y direction w).timers
            = [⟨w.s_world_updateTimer.getD w.nextHandle, 0⟩] := by
  have ht := reachable_timers_match P w hr
  refine ⟨launch_entry P w hm ht, fun direction hs => ?_⟩
  have hl := launch_entry P { w with s_user_secondsInactive := 0 } hm ht
  rw [tap_steady_twist P direction w hs]
  exact ⟨hl.1, hl.2.1, hl.2.2.1⟩

/-- C17 on the world just after start-up, which is Steady with a timer pending. -/
theorem C17_launch_entry_arms_timer_witness :
    ((set_world_mode intPlatform WORLD_MODE_LAUNCH bootedWorld).launch_animStep
        = ANIMATION_SPIN_STEPS
      ∧ (set_world_mode intPlatform WORLD_MODE_LAUNCH bootedWorld).s_world_updateTimer
          = some (bootedWorld.s_world_updateTimer.getD bootedWorld.nextHandle)
      ∧ (set_world_mode intPlatform WORLD_MODE_LAUNCH bootedWorld).timers
          = [⟨bootedWorld.s_world_updateTimer.getD bootedWorld.nextHandle, 0⟩]
      ∧ (set_world_mode intPlatform WORLD_MODE_LAUNCH bootedWorld).nextHandle
          = (if bootedWorld.s_world_updateTimer = none then bootedWorld.nextHandle + 1
              else bootedWorld.nextHandle))
    ∧ ∀ direction : Int, bootedWorld.s_world_mode = WORLD_MODE_STEADY →
        (accel_tap_service_handler intPlatform ACCEL_AXIS_Y direction bootedWorld).launch_animStep
            = ANIMATION_SPIN_STEPS
        ∧ (accel_tap_service_handler intPlatform ACCEL_AXIS_Y direction
            bootedWorld).s_world_updateTimer
            = some (bootedWorld.s_world_updateTimer.getD bootedWorld.nextHandle)
        ∧ (accel_tap_service_handler intPlatform ACCEL_AXIS_Y direction bootedWorld).timers
            = [⟨bootedWorld.s_world_updateTimer.getD bootedWorld.nextHandle, 0⟩] :=
  C17_launch_entry_arms_timer intPlatform bootedWorld
    (Reachable.load (Reachable.init () ⟨1, 0, 0, 0⟩))
    (by
      have h : bootedWorld.s_world_mode = WORLD_MODE_STEADY := window_load_mode intPlatform _
      rw [h]; decide)

/-- C18: in a frame update outside Steady whose peek fails, each sampler receives exactly
one push, of the steady attractor (-81, -816, -571), whatever reading the peek left behind;
and the frame differs from the frame any other peek outcome would have given only in the
samplers and in the camera viewpoint computed from them: the mode, counters, spin state and
camera rotation are the same. -/
theorem C18_failed_peek_pushes_attractor {F C : Type} (P : Platform F C) (peek : AccelPeek)
    (w : World F C) (hm : w.s_world_mode ≠ WORLD_MODE_STEADY) (hf : peek.result < 0) :
    (world_update P peek w).sampler_accelX = Sampler_push w.sampler_accelX (-81)
    ∧ (world_update P peek w).sampler_accelY = Sampler_push w.sampler_accelY (-816)
    ∧ (world_update P peek w).sampler_accelZ = Sampler_push w.sampler_accelZ (-571)
    ∧ ∀ other : AccelPeek,
        { world_update P other w with
            sampler_accelX := (world_update P peek w).sampler_accelX,
            sampler_accelY := (world_update P peek w).sampler_accelY,
            sampler_accelZ := (world_update P peek w).sampler_accelZ,
            s_cam := (world_update P peek w).s_cam } = world_update P peek w
        ∧ (world_update P other w).s_cam.map CamConfig.rotationZ
            = (world_update P peek w).s_cam.map CamConfig.rotationZ := by
  obtain ⟨s1, s2, s3⟩ := world_update_sample_failed P peek
    { w with
      s_clock := P.Clock3D_second100ths_update
        (P.Clock3D_updateAnimation w.s_clock ANIMATION_FLIP_STEPS) } hf
  have hc := world_update_closed P peek w hm
  simp only [] at hc
  refine ⟨?_, ?_, ?_, fun other => ?_⟩
  · rw [hc]; split_ifs <;> exact s1
  · rw [hc]; split_ifs <;> exact s2
  · rw [hc]; split_ifs <;> exact s3
  · have ho := world_update_closed P other w hm
    simp only [] at ho
    rw [hc, ho]
    split_ifs <;> exact ⟨rfl, rfl⟩

/-- C18 on a sample world in Launch with a failed peek. -/
theorem C18_failed_peek_pushes_attractor_witness :
    (world_update intPlatform failedPeek (sampleWorld WORLD_MODE_LAUNCH 75 (-1))).sampler_accelX
        = Sampler_push (sampleWorld WORLD_MODE_LAUNCH 75 (-1)).sampler_accelX (-81)
    ∧ (world_update intPlatform failedPeek (sampleWorld WORLD_MODE_LAUNCH 75 (-1))).sampler_accelY
        = Sampler_push (sampleWorld WORLD_MODE_LAUNCH 75 (-1)).sampler_accelY (-816)
    ∧ (world_update intPlatform failedPeek (sampleWorld WORLD_MODE_LAUNCH 75 (-1))).sampler_accelZ
        = Sampler_push (sampleWorld WORLD_MODE_LAUNCH 75 (-1)).sampler_accelZ (-571)
    ∧ ∀ other : AccelPeek,
        { world_update intPlatform other (sampleWorld WORLD_MODE_LAUNCH 75 (-1)) with
            sampler_accelX := (world_update intPlatform failedPeek
              (sampleWorld WORLD_MODE_LAUNCH 75 (-1))).sampler_accelX,
            sampler_accelY := (world_update intPlatform failedPeek
              (sampleWorld WORLD_MODE_LAUNCH 75 (-1))).sampler_accelY,
            sampler_accelZ := (world_update intPlatform failedPeek
              (sampleWorld WORLD_MODE_LAUNCH 75 (-1))).sampler_accelZ,
            s_cam := (world_update intPlatform failedPeek
              (sampleWorld WORLD_MODE_LAUNCH 75 (-1))).s_cam }
          = world_update intPlatform failedPeek (sampleWorld WORLD_MODE_LAUNCH 75 (-1))
        ∧ (world_update intPlatform other
              (sampleWorld WORLD_MODE_LAUNCH 75 (-1))).s_cam.map CamConfig.rotationZ
            = (world_update intPlatform failedPeek
              (sampleWorld WORLD_MODE_LAUNCH 75 (-1))).s_cam.map CamConfig.rotationZ :=
  C18_failed_peek_pushes_attractor intPlatform failedPeek
    (sampleWorld WORLD_MODE_LAUNCH 75 (-1)) (by decide) (by decide)

/-- C19: sampler_initialize pushes exactly ACCEL_SAMPLER_CAPACITY = 8 values to each of the
three samplers, all equal to that axis's steady attractor (-81, -816, -571), so every ring of
capacity 8 is full of it; these are the samplers of the initialised world. -/
theorem C19_sampler_initialize_fills_rings :
    sampler_initialize.1.pushed = List.replicate ACCEL_SAMPLER_CAPACITY (-81)
    ∧ sampler_initialize.2.1.pushed = List.replicate ACCEL_SAMPLER_CAPACITY (-816)
    ∧ sampler_initialize.2.2.pushed = List.replicate ACCEL_SAMPLER_CAPACITY (-571)
    ∧ sampler_initialize.1.capacity = 8 ∧ sampler_initialize.2.1.capacity = 8
    ∧ sampler_initialize.2.2.capacity = 8
    ∧ sampler_initialize.1.ring = List.replicate 8 (-81)
    ∧ sampler_initialize.2.1.ring = List.replicate 8 (-816)
    ∧ sampler_initialize.2.2.ring = List.replicate 8 (-571)
    ∧ ∀ (F C : Type) (P : Platform F C) (clock : C) (now : Tm),
        (initial_world P clock now).sampler_accelX = sampler_initialize.1
        ∧ (initial_world P clock now).sampler_accelY = sampler_initialize.2.1
        ∧ (initial_world P clock now).sampler_accelZ = sampler_initialize.2.2 := by
  refine ⟨by decide, by decide, by decide, by decide, by decide, by decide, by decide,
    by decide, by decide, fun _ _ _ _ _ => ⟨rfl, rfl, rfl⟩⟩

/-- C20: at the largest input, 0x7FFFFFFF, the root is 11863283, and 11863283 is the integer
nearest to the square root of 0x7FFFFFFF * 65536. -/
theorem C20_Q_sqrt_max :
    Q_sqrt 0x7FFFFFFF = 11863283
    ∧ (2 * 11863283 - 1) ^ 2 < 4 * (0x7FFFFFFF * 65536)
    ∧ 4 * (0x7FFFFFFF * 65536) < (2 * 11863283 + 1) ^ 2 := by
  refine ⟨?_, by norm_num, by norm_num⟩
  rw [Q_sqrt_nonneg _ (by norm_num) (by norm_num)]
  simp [Q_sqrt_u32_at_2147483647]

/-! ## Claims C21 to C28 -/

/-- Claim C21: Q_sqrt is total. For every input the start-bit search and both digit loops
finish within 16 iterations each (the bounded run `Q_sqrt_steps 16` never runs out of
iterations and returns exactly the value of `Q_sqrt`), and the value returned is a signed
32-bit number; the function has no error path. -/
theorem C21_Q_sqrt_total (v : Int) :
    Q_sqrt_steps 16 v = some (Q_sqrt v)
    ∧ -2147483648 ≤ Q_sqrt v ∧ Q_sqrt v ≤ 2147483647 := by
  refine ⟨Q_sqrt_steps_eq v, ?_⟩
  unfold Q_sqrt
  exact toQ_range _

/-- Claim C22, at a failing input: for the magnitude 1073807360 (1 + 32768 squared, in raw
units) the first pass ends with remainder 65536 and integer root 32768, the special-case
branch stores the remainder 2147450880, and this is not 65536 times
a - (result + 0.5) squared: four times the stored value is 65536 short of
65536 * (4 a - (2 result + 1) squared). -/
theorem C22_special_remainder_failing_input :
    digitLoop 1073807360 0
        (startBit (if 1073807360 &&& 0xFFF00000 ≠ 0 then 1 <<< 30 else 1 <<< 18) 1073807360)
      = (65536, 32768)
    ∧ (rescale 65536 32768).1 = 2147450880
    ∧ (4 : Int) * 2147450880 + 65536
        = 65536 * (4 * 1073807360 - (2 * 32768 + 1) ^ 2)
    ∧ (4 : Int) * ((rescale 65536 32768).1 : Nat)
        ≠ 65536 * (4 * 1073807360 - (2 * 32768 + 1) ^ 2) := by
  have hs : Nat.sqrt 1073807360 = 32768 :=
    (Nat.eq_sqrt'.2 ⟨by norm_num, by norm_num⟩).symm
  have h1 := firstPass 1073807360 (by norm_num)
  rw [hs] at h1
  have h2 : (rescale 65536 32768).1 = 2147450880 := by
    simp [rescale, sub32, shl32]
  refine ⟨?_, h2, by norm_num, ?_⟩
  · rw [h1]; norm_num
  · rw [h2]; norm_num

/-- Claim C23: for every input magnitude num up to 2 to the 31, no unsigned 32-bit operation
of Q_sqrt wraps. The copy of the algorithm over the unbounded naturals that stops with `none`
as soon as a sum or a shift leaves the 32-bit range or a subtraction would go below zero never
stops, and it returns the value of the 32-bit computation. -/
theorem C23_Q_sqrt_no_wrap (num : Nat) (h : num ≤ 2147483648) :
    Q_sqrt_checked num = some (Q_sqrt_u32 num) :=
  Q_sqrt_checked_eq num h

/-- Claim C23 at the largest magnitude, 2 to the 31. -/
theorem C23_Q_sqrt_no_wrap_witness :
    (2147483648 : Nat) ≤ 2147483648
    ∧ Q_sqrt_checked 2147483648 = some (Q_sqrt_u32 2147483648) :=
  ⟨by decide, C23_Q_sqrt_no_wrap 2147483648 (by decide)⟩

/-- Claim C24: for every v with 0 ≤ v ≤ 2147483647, Q_sqrt v is F or F + 1, where F is the
integer square root of v * 65536; the returned root is never below the truncated true root
and never more than one raw unit above it. -/
theorem C24_Q_sqrt_floor_or_next (v : Int) (h0 : 0 ≤ v) (h1 : v ≤ 2147483647) :
    Q_sqrt v = (Nat.sqrt (v.toNat * 65536) : Int)
    ∨ Q_sqrt v = (Nat.sqrt (v.toNat * 65536) : Int) + 1 := by
  rw [Q_sqrt_nonneg v h0 h1]
  rcases Q_sqrt_u32_floor v.toNat (by omega) with h | h
  · left; rw [h]
  · right; rw [h]; push_cast; rfl

/-- Claim C24 at an input of the special-case branch. -/
theorem C24_Q_sqrt_floor_or_next_witness :
    (0 : Int) ≤ 1090650238 ∧ (1090650238 : Int) ≤ 2147483647
    ∧ (Q_sqrt 1090650238 = (Nat.sqrt ((1090650238 : Int).toNat * 65536) : Int)
      ∨ Q_sqrt 1090650238 = (Nat.sqrt ((1090650238 : Int).toNat * 65536) : Int) + 1) :=
  ⟨by decide, by decide, C24_Q_sqrt_floor_or_next 1090650238 (by decide) (by decide)⟩

/-- Claim C25: Q_sqrt is monotone on the non-negative inputs: for all a, b with
0 ≤ a ≤ b ≤ 2147483647, Q_sqrt a ≤ Q_sqrt b, on whichever sides of the special-case branch
a and b fall. -/
theorem C25_Q_sqrt_monotone (a b : Int) (h0 : 0 ≤ a) (hab : a ≤ b) (h1 : b ≤ 2147483647) :
    Q_sqrt a ≤ Q_sqrt b := by
  rw [Q_sqrt_nonneg a h0 (by omega), Q_sqrt_nonneg b (by omega) h1]
  exact_mod_cast Q_sqrt_u32_mono a.toNat b.toNat (by omega) (by omega)

/-- Claim C25 at two neighbours on either side of the special-case branch. -/
theorem C25_Q_sqrt_monotone_witness :
    (0 : Int) ≤ 1073807359 ∧ (1073807359 : Int) ≤ 1073807360
    ∧ (1073807360 : Int) ≤ 2147483647 ∧ Q_sqrt 1073807359 ≤ Q_sqrt 1073807360 :=
  ⟨by decide, by decide, by decide,
    C25_Q_sqrt_monotone 1073807359 1073807360 (by decide) (by decide) (by decide)⟩

/-- Claim C26: in a reachable world, whenever a frame update (run directly or by the frame
timer) moves the mode from Park to Steady, the ACCEL_SAMPLER_CAPACITY = 8 most recent pushes
to each of the three samplers were the steady-attractor readings (-81, -816, -571), whatever
the sensor returned during those frames, so every ring holds only attractor values when Steady
is entered. -/
theorem C26_park_exit_rings_hold_attractor {F C : Type} (P : Platform F C) (w : World F C)
    (hr : Reachable P w) (e : Event) (hf : e.isFrame = true)
    (hm : w.s_world_mode = WORLD_MODE_PARK)
    (hs : (e.handle P w).s_world_mode = WORLD_MODE_STEADY) :
    (e.handle P w).sampler_accelX.pushed.take ACCEL_SAMPLER_CAPACITY
        = List.replicate ACCEL_SAMPLER_CAPACITY (-81)
    ∧ (e.handle P w).sampler_accelY.pushed.take ACCEL_SAMPLER_CAPACITY
        = List.replicate ACCEL_SAMPLER_CAPACITY (-816)
    ∧ (e.handle P w).sampler_accelZ.pushed.take ACCEL_SAMPLER_CAPACITY
        = List.replicate ACCEL_SAMPLER_CAPACITY (-571)
    ∧ (e.handle P w).sampler_accelX.ring = List.replicate ACCEL_SAMPLER_CAPACITY (-81)
    ∧ (e.handle P w).sampler_accelY.ring = List.replicate ACCEL_SAMPLER_CAPACITY (-816)
    ∧ (e.handle P w).sampler_accelZ.ring = List.replicate ACCEL_SAMPLER_CAPACITY (-571) := by
  have hinv := reachable_park_attractor_inv P w hr
  have key : newest_are_attractor ACCEL_SAMPLER_CAPACITY (e.handle P w)
      ∧ park_attractor_inv (e.handle P w) := by
    cases e with
    | tap axis d now => simp [Event.isFrame] at hf
    | tick t u => simp [Event.isFrame] at hf
    | update peek =>
      exact ⟨park_exit_frame P peek w hinv hm hs, world_update_park_attractor_inv P peek w hinv⟩
    | timer peek =>
      have hfired := app_timer_fired_park_attractor_inv w hinv
      have hv : park_attractor_inv { app_timer_fired w with s_world_updateTimer := none } :=
        park_attractor_inv_congr _ _ rfl rfl rfl rfl rfl hfired
      have hvm : ({ app_timer_fired w with s_world_updateTimer := none } :
          World F C).s_world_mode = WORLD_MODE_PARK :=
        (app_timer_fired_fields w).1.trans hm
      obtain ⟨hx, hy, hz⟩ := timer_handler_samplers P peek (app_timer_fired w)
      obtain ⟨tm, -⟩ := timer_handler_fields P peek (app_timer_fired w)
      have hs2 : (world_update P peek
          { app_timer_fired w with s_world_updateTimer := none }).s_world_mode
            = WORLD_MODE_STEADY := by
        rw [← tm]; exact hs
      have hp := park_exit_frame P peek _ hv hvm hs2
      refine ⟨?_, timer_handler_park_attractor_inv P peek _ hfired⟩
      unfold newest_are_attractor at hp ⊢
      simp only [Event.handle]
      rw [hx, hy, hz]
      exact hp
  obtain ⟨⟨kx, ky, kz⟩, cx, cy, cz, -⟩ := key
  refine ⟨kx, ky, kz, ?_, ?_, ?_⟩
  · unfold Sampler.ring; rw [cx]; exact kx
  · unfold Sampler.ring; rw [cy]; exact ky
  · unfold Sampler.ring; rw [cz]; exact kz

/-- Claim C26 on a world at the end of its park animation, the frame reading a successful
peek. -/
theorem C26_park_exit_rings_hold_attractor_witness :
    ((Event.update samplePeek).handle intPlatform parkedWorld).sampler_accelX.pushed.take
        ACCEL_SAMPLER_CAPACITY = List.replicate ACCEL_SAMPLER_CAPACITY (-81)
    ∧ ((Event.update samplePeek).handle intPlatform parkedWorld).sampler_accelY.pushed.take
        ACCEL_SAMPLER_CAPACITY = List.replicate ACCEL_SAMPLER_CAPACITY (-816)
    ∧ ((Event.update samplePeek).handle intPlatform parkedWorld).sampler_accelZ.pushed.take
        ACCEL_SAMPLER_CAPACITY = List.replicate ACCEL_SAMPLER_CAPACITY (-571)
    ∧ ((Event.update samplePeek).handle intPlatform parkedWorld).sampler_accelX.ring
        = List.replicate ACCEL_SAMPLER_CAPACITY (-81)
    ∧ ((Event.update samplePeek).handle intPlatform parkedWorld).sampler_accelY.ring
        = List.replicate ACCEL_SAMPLER_CAPACITY (-816)
    ∧ ((Event.update samplePeek).handle intPlatform parkedWorld).sampler_accelZ.ring
        = List.replicate ACCEL_SAMPLER_CAPACITY (-571) :=
  C26_park_exit_rings_hold_attractor intPlatform parkedWorld parkedWorld_reachable
    (Event.update samplePeek) rfl parkedWorld_state.1 (parkedWorld_exit samplePeek)

/-- Claim C27: in every reachable world 0 ≤ s_spin_speed ≤ SPIN_SPEED_AFTER_TWIST (400). The
spin speed is never negative, so the negative-speed friction branch of world_update is never
taken: its condition, read after the positive branch has run, is false, and a frame update in
Dynamic leaves the speed at s - 1 for s > 0 and at s otherwise. -/
theorem C27_spin_speed_in_range {F C : Type} (P : Platform F C) (w : World F C)
    (hr : Reachable P w) :
    0 ≤ w.s_spin_speed ∧ w.s_spin_speed ≤ SPIN_SPEED_AFTER_TWIST
    ∧ ¬ ((if w.s_spin_speed > 0 then w.s_spin_speed - 1 else w.s_spin_speed) < 0)
    ∧ ∀ peek : AccelPeek, w.s_world_mode = WORLD_MODE_DYNAMIC →
        (world_update P peek w).s_spin_speed
          = (if w.s_spin_speed > 0 then w.s_spin_speed - 1 else w.s_spin_speed) := by
  have h := reachable_speed_in_range P w hr
  unfold speed_in_range at h
  refine ⟨h.1, h.2, ?_, fun peek hm => ?_⟩
  · split_ifs <;> omega
  · have hd := (rotation_dynamic P { w with
      s_clock := P.Clock3D_second100ths_update
        (P.Clock3D_updateAnimation w.s_clock ANIMATION_FLIP_STEPS) } hm).1
    rw [(world_update_fields P peek w (by simp [hm])).2.1, hd]
    simp only []
    split_ifs <;> omega

/-- Claim C27 on the world just after start-up. -/
theorem C27_spin_speed_in_range_witness :
    0 ≤ bootedWorld.s_spin_speed ∧ bootedWorld.s_spin_speed ≤ SPIN_SPEED_AFTER_TWIST
    ∧ ¬ ((if bootedWorld.s_spin_speed > 0 then bootedWorld.s_spin_speed - 1
          else bootedWorld.s_spin_speed) < 0)
    ∧ ∀ peek : AccelPeek, bootedWorld.s_world_mode = WORLD_MODE_DYNAMIC →
        (world_update intPlatform peek bootedWorld).s_spin_speed
          = (if bootedWorld.s_spin_speed > 0 then bootedWorld.s_spin_speed - 1
              else bootedWorld.s_spin_speed) :=
  C27_spin_speed_in_range intPlatform bootedWorld
    (Reachable.load (Reachable.init () ⟨1, 0, 0, 0⟩))

end FlipClock
